import Mathlib

/-!
# fnott notification manager: embedding and checked properties

Shallow embedding of the notification manager of `src/notification/fnott`
(`notification.c`, with the callers in `ctrl.c` and `dbus.c`).

* A `tll(...)` list is a Lean `List`, head first; `tll_foreach` reads the
  successor before the body runs, so the body may unlink the current item.
* A `struct notif *` handed out by the manager is the position of the node in
  `notifs`; a `NULL` pointer is `none`.
* C strings are `String` where only `strcmp` is applied to them, and
  `List Char` (one `Char` per C `char`) where the code walks them; text is
  valid in the locale's encoding, so a character is one `Char`.
* `uint32_t`/`size_t` values are `Nat`, reduced explicitly where the C code
  truncates.
* D-Bus signals and control-socket replies are collected, in emission order,
  in a `List event`.
* Surfaces, fonts, images and timers are left out: no function embedded here
  reads them. What the operating system and the compositor answer (the result
  of `read` and `waitpid`, whether the helper could be started, the activation
  token) is an argument of the function that asks for it.
-/

namespace Fnott

/-! ## Data model (`notification.h`, `notification.c`) -/

/-- Values of `enum urgency { URGENCY_LOW, URGENCY_NORMAL, URGENCY_CRITICAL }`.
The field is a C enum, so it is kept as its integer value. -/
abbrev urgency := Nat

def URGENCY_LOW : urgency := 0
def URGENCY_NORMAL : urgency := 1
def URGENCY_CRITICAL : urgency := 2

/-- A `char32_t`. A `char32_t *` string is the list of its values before the
terminating zero. -/
abbrev char32_t := Nat

/-- A string as read through a `char32_t *`: it ends at the first zero. -/
def c32str (buf : List char32_t) : List char32_t := buf.takeWhile (· ≠ 0)

/-- `ambstoc32` on valid text: one `char32_t` per character. -/
def ambstoc32 (text : List Char) : List char32_t := text.map Char.toNat

/-- Anonymous enum of `struct notif`, field `deferred_dismissal`. -/
inductive dismissal
  | DISMISS_IMMEDIATELY
  | DISMISS_DEFER
  | DISMISS_DELAYED
  deriving DecidableEq, Repr

/-- Anonymous enum of `struct notif`, field `deferred_expiral`. -/
inductive expiral
  | EXPIRE_IMMEDIATELY
  | EXPIRE_DEFER
  | EXPIRE_DELAYED
  deriving DecidableEq, Repr

open dismissal expiral

/-- The `struct action` of `notification.c` (the wide copies `wid`/`wlabel`
are conversions of the same two strings). -/
structure action where
  id : String
  label : List Char
  deriving DecidableEq, Repr

/-- The `struct notif` of `notification.c`, without its rendering state. -/
structure notif where
  id : Nat
  synchronous_tag : Option String
  app : List char32_t
  summary : List char32_t
  body : List char32_t
  urgency : urgency
  actions : List action
  progress : Int
  timeout_ms : Int
  deferred_dismissal : dismissal
  deferred_expiral : expiral
  deriving DecidableEq, Repr

/-- The `struct notif_mgr` of `notification.c`, together with the file-level
counter `static size_t next_id = 1`. -/
structure notif_mgr where
  notifs : List notif
  paused : Bool
  next_id : Nat
  deriving DecidableEq, Repr

/-- The result codes of `enum ctrl_result` (`ctrl-protocol.h`). -/
inductive ctrl_result
  | CTRL_OK
  | CTRL_INVALID_ID
  | CTRL_NO_ACTIONS
  | CTRL_ERROR
  deriving DecidableEq, Repr

/-- What the daemon sends out: the three D-Bus signals of `dbus.c` and the
reply written to a control client by `send_reply`. -/
inductive event
  | NotificationClosed (id : Nat) (reason : Nat)
  | ActionInvoked (id : Nat) (action_id : String)
  | ActivationToken (id : Nat) (token : String)
  | reply (result : ctrl_result)
  deriving DecidableEq, Repr

/-- State after `notif_mgr_new`: empty list, not paused, `next_id = 1`. -/
def notif_mgr_new : notif_mgr :=
  { notifs := [], paused := false, next_id := 1 }

def notif_mgr_is_paused (mgr : notif_mgr) : Bool := mgr.paused

def notif_mgr_pause (mgr : notif_mgr) : notif_mgr := { mgr with paused := true }

def notif_mgr_unpause (mgr : notif_mgr) : notif_mgr := { mgr with paused := false }

/-! ## Signals (`dbus.c`) -/

/-- `dbus_signal_expired`: `signal_notification_closed(bus, id, 1)`. -/
def dbus_signal_expired (id : Nat) : List event := [event.NotificationClosed id 1]

/-- `dbus_signal_dismissed`: `signal_notification_closed(bus, id, 2)`. -/
def dbus_signal_dismissed (id : Nat) : List event := [event.NotificationClosed id 2]

/-- `dbus_signal_closed`: `signal_notification_closed(bus, id, 3)`. -/
def dbus_signal_closed (id : Nat) : List event := [event.NotificationClosed id 3]

/-! ## Lookup -/

/-- The `tll_foreach` of `notif_mgr_get_notif`: position of the first item
whose id is `id`. -/
def find_id (id : Nat) : List notif → Option Nat
  | [] => none
  | n :: ns => if n.id = id then some 0 else (find_id id ns).map (· + 1)

/-- `notif_mgr_get_notif`: id 0 is the head of a non-empty list. -/
def notif_mgr_get_notif (mgr : notif_mgr) (id : Nat) : Option Nat :=
  if id = 0 ∧ mgr.notifs.length > 0 then some 0
  else find_id id mgr.notifs

/-- The `tll_foreach` of `notif_mgr_get_notif_for_sync_tag`: items without a
tag are skipped, the first item whose tag compares equal is returned. -/
def find_sync_tag (tag : String) : List notif → Option Nat
  | [] => none
  | n :: ns =>
    match n.synchronous_tag with
    | none => (find_sync_tag tag ns).map (· + 1)
    | some t => if t = tag then some 0 else (find_sync_tag tag ns).map (· + 1)

/-- `notif_mgr_get_notif_for_sync_tag`: a `NULL` tag finds nothing. -/
def notif_mgr_get_notif_for_sync_tag (mgr : notif_mgr) (tag : Option String) : Option Nat :=
  match tag with
  | none => none
  | some t => find_sync_tag t mgr.notifs

/-! ## Creation and urgency stacking -/

/-- The `tll_rforeach` scan shared by `notif_mgr_create_notif` and
`notif_set_urgency`, on the list read from the tail: at the first item with
`urgency >= u` the new node goes right after it (its position is the number of
items from the head up to that item); when the scan runs off the head the node
is pushed to the front (position 0). -/
def rscan (u : urgency) : List notif → Nat
  | [] => 0
  | n :: ns => if n.urgency ≥ u then (n :: ns).length else rscan u ns

/-- Position at which a node of urgency `u` is linked into `l`. -/
def stack_pos (u : urgency) (l : List notif) : Nat := rscan u l.reverse

/-- Link `x` into `l` at position `k` (`tll_insert_after` on item `k - 1`,
`tll_push_front` when `k = 0`). -/
def link_at (k : Nat) (x : notif) (l : List notif) : List notif :=
  l.take k ++ x :: l.drop k

/-- The initialiser `*notif = (struct notif) {...}` of `notif_mgr_create_notif`;
fields it does not name are zero. -/
def notif_init (notif_id : Nat) (sync_tag : Option String) : notif :=
  { id := notif_id
    synchronous_tag := sync_tag
    app := []
    summary := []
    body := []
    urgency := URGENCY_NORMAL
    actions := []
    progress := 0
    timeout_ms := -1
    deferred_dismissal := DISMISS_IMMEDIATELY
    deferred_expiral := EXPIRE_IMMEDIATELY }

/-- The tail of `notif_mgr_create_notif`: link the new node by urgency and
return its position. -/
def stack_new (mgr : notif_mgr) (n : notif) : notif_mgr × Nat :=
  ({ mgr with notifs := link_at (stack_pos n.urgency mgr.notifs) n mgr.notifs },
    stack_pos n.urgency mgr.notifs)

/-- `notif_mgr_create_notif`. Returns the manager and the position of the
returned notification. A new node takes `replaces_id` as its id when that is
non-zero, and `next_id++` (truncated to `uint32_t`) otherwise. -/
def notif_mgr_create_notif (mgr : notif_mgr) (replaces_id : Nat) (sync_tag : Option String) :
    notif_mgr × Nat :=
  match notif_mgr_get_notif_for_sync_tag mgr sync_tag with
  | some old_notif => (mgr, old_notif)
  | none =>
    if replaces_id ≠ 0 then
      match notif_mgr_get_notif mgr replaces_id with
      | some old_notif => (mgr, old_notif)
      | none => stack_new mgr (notif_init replaces_id sync_tag)
    else
      stack_new { mgr with next_id := (mgr.next_id + 1) % 2 ^ 64 }
        (notif_init (mgr.next_id % 2 ^ 32) sync_tag)

/-- The `tll_foreach` of `notif_mgr_del_notif`: unlink the first item whose id
is `id`; `none` when there is none. -/
def del_loop (id : Nat) : List notif → Option (List notif)
  | [] => none
  | n :: ns =>
    if n.id ≠ id then (del_loop id ns).map (n :: ·)
    else some ns

/-- `notif_mgr_del_notif`: id 0 is refused. -/
def notif_mgr_del_notif (mgr : notif_mgr) (id : Nat) : notif_mgr × Bool :=
  if id = 0 then (mgr, false)
  else
    match del_loop id mgr.notifs with
    | some l => ({ mgr with notifs := l }, true)
    | none => (mgr, false)

/-- `notif_set_urgency` on the notification at position `i`. Returns the
manager and the new position of that notification. -/
def notif_set_urgency (mgr : notif_mgr) (i : Nat) (u : urgency) : notif_mgr × Nat :=
  match mgr.notifs[i]? with
  | none => (mgr, i)
  | some n =>
    if n.urgency = u then (mgr, i)
    else
      let n' : notif := { n with urgency := u }
      if mgr.notifs.length ≤ 1 then ({ mgr with notifs := mgr.notifs.set i n' }, i)
      else
        let rest := mgr.notifs.eraseIdx i
        let k := stack_pos u rest
        ({ mgr with notifs := link_at k n' rest }, k)

/-! ## Dismissal and expiry -/

/-- `notif_dismiss`: signal `NotificationClosed(id, 2)`, destroy, return true. -/
def notif_dismiss (n : notif) : Bool × List event := (true, dbus_signal_dismissed n.id)

/-- `notif_expire`: signal `NotificationClosed(id, 1)`, destroy, return true. -/
def notif_expire (n : notif) : Bool × List event := (true, dbus_signal_expired n.id)

/-- `notif_mgr_expire_current`: the head is popped first; only the
`EXPIRE_DEFER` case pushes it back. -/
def notif_mgr_expire_current (mgr : notif_mgr) : notif_mgr × Bool × List event :=
  match mgr.notifs with
  | [] => (mgr, false, [])
  | n :: rest =>
    match n.deferred_expiral with
    | EXPIRE_IMMEDIATELY => ({ mgr with notifs := rest }, notif_expire n)
    | EXPIRE_DEFER =>
      ({ mgr with notifs := { n with deferred_expiral := EXPIRE_DELAYED } :: rest }, true, [])
    | EXPIRE_DELAYED => ({ mgr with notifs := rest }, true, [])

/-- The `tll_foreach` of `notif_mgr_expire_id`; `none` when no item has the id. -/
def expire_loop (id : Nat) : List notif → Option (List notif × Bool × List event)
  | [] => none
  | n :: ns =>
    if n.id ≠ id then (expire_loop id ns).map (fun r => (n :: r.1, r.2))
    else
      match n.deferred_expiral with
      | EXPIRE_IMMEDIATELY => some (ns, notif_expire n)
      | EXPIRE_DEFER => some ({ n with deferred_expiral := EXPIRE_DELAYED } :: ns, true, [])
      | EXPIRE_DELAYED => some (n :: ns, true, [])

/-- `notif_mgr_expire_id`. -/
def notif_mgr_expire_id (mgr : notif_mgr) (id : Nat) : notif_mgr × Bool × List event :=
  if id = 0 then notif_mgr_expire_current mgr
  else
    match expire_loop id mgr.notifs with
    | some r => ({ mgr with notifs := r.1 }, r.2)
    | none => (mgr, false, [])

/-- `notif_mgr_dismiss_current`: the head is popped first; only the
`DISMISS_DEFER` case pushes it back. -/
def notif_mgr_dismiss_current (mgr : notif_mgr) : notif_mgr × Bool × List event :=
  match mgr.notifs with
  | [] => (mgr, false, [])
  | n :: rest =>
    match n.deferred_dismissal with
    | DISMISS_IMMEDIATELY => ({ mgr with notifs := rest }, notif_dismiss n)
    | DISMISS_DEFER =>
      ({ mgr with notifs := { n with deferred_dismissal := DISMISS_DELAYED } :: rest }, true, [])
    | DISMISS_DELAYED => ({ mgr with notifs := rest }, true, [])

/-- The `tll_foreach` of `notif_mgr_dismiss_id_internal`; `none` when no item
has the id. -/
def dismiss_loop (id : Nat) : List notif → Option (List notif × Bool × List event)
  | [] => none
  | n :: ns =>
    if n.id ≠ id then (dismiss_loop id ns).map (fun r => (n :: r.1, r.2))
    else
      match n.deferred_dismissal with
      | DISMISS_IMMEDIATELY => some (ns, notif_dismiss n)
      | DISMISS_DEFER => some ({ n with deferred_dismissal := DISMISS_DELAYED } :: ns, true, [])
      | DISMISS_DELAYED => some (n :: ns, true, [])

/-- `notif_mgr_dismiss_id_internal` (the `refresh` flag only redraws). -/
def notif_mgr_dismiss_id_internal (mgr : notif_mgr) (id : Nat) (_refresh : Bool) :
    notif_mgr × Bool × List event :=
  if id = 0 then notif_mgr_dismiss_current mgr
  else
    match dismiss_loop id mgr.notifs with
    | some r => ({ mgr with notifs := r.1 }, r.2)
    | none => (mgr, false, [])

/-- `notif_mgr_dismiss_id`. -/
def notif_mgr_dismiss_id (mgr : notif_mgr) (id : Nat) : notif_mgr × Bool × List event :=
  notif_mgr_dismiss_id_internal mgr id true

/-- The `tll_foreach` of `notif_mgr_dismiss_all`, carrying `ret`: returns the
remaining list, `ret` and the signals in emission order. -/
def dismiss_all_loop (ret : Bool) : List notif → List notif × Bool × List event
  | [] => ([], ret, [])
  | n :: ns =>
    match n.deferred_dismissal with
    | DISMISS_IMMEDIATELY =>
      let d := notif_dismiss n
      let r := dismiss_all_loop (if !d.1 then false else ret) ns
      (r.1, r.2.1, d.2 ++ r.2.2)
    | DISMISS_DEFER =>
      let r := dismiss_all_loop ret ns
      ({ n with deferred_dismissal := DISMISS_DELAYED } :: r.1, r.2)
    | DISMISS_DELAYED =>
      let r := dismiss_all_loop ret ns
      (n :: r.1, r.2)

/-- `notif_mgr_dismiss_all`. -/
def notif_mgr_dismiss_all (mgr : notif_mgr) : notif_mgr × Bool × List event :=
  let r := dismiss_all_loop true mgr.notifs
  ({ mgr with notifs := r.1 }, r.2)

/-! ## Action selection (`notification.c`, `ctrl.c`) -/

/-- `notif_signal_action`: on the first action whose id equals `action_id`,
emit the activation token (when `wayl_get_activation_token` returned one,
given here as `activation_token`) and then `ActionInvoked`. -/
def notif_signal_action (n : notif) (action_id : Option String)
    (activation_token : Option String) : Bool × List event :=
  match action_id with
  | none => (false, [])
  | some a =>
    if n.actions.any (fun x => x.id = a) then
      (true,
        (match activation_token with
          | some tok => [event.ActivationToken n.id tok]
          | none => []) ++ [event.ActionInvoked n.id a])
    else (false, [])

/-- A completion callback (`notif_select_action_cb`): from the notification
pointer (`none` for `NULL`) and the chosen action id to what it sends out;
`none` when it dereferences a `NULL` notification. -/
abbrev notif_select_action_cb := Option notif → Option String → Option (List event)

/-- `actions_complete` of `ctrl.c`, the completion callback of the control
socket: replies `CTRL_INVALID_ID` without an action id, and otherwise signals
the action and replies `CTRL_OK` or `CTRL_ERROR`. -/
def actions_complete (activation_token : Option String) : notif_select_action_cb :=
  fun notif action_id =>
    match action_id with
    | none => some [event.reply ctrl_result.CTRL_INVALID_ID]
    | some a =>
      match notif with
      | none => none
      | some n =>
        let r := notif_signal_action n (some a) activation_token
        some (r.2 ++ [event.reply (if r.1 then ctrl_result.CTRL_OK else ctrl_result.CTRL_ERROR)])

/-- The part of `struct action_async` the reader works on: the saved id and
the output received so far. -/
structure action_async where
  notif_id : Nat
  output : List Char
  deriving DecidableEq, Repr

/-- What `read(2)` on the child's stdout gave. -/
inductive read_result
  | eintr
  | error
  | data (buf : List Char)
  | eof
  deriving DecidableEq, Repr

/-- The `status` of `waitpid`: `WIFEXITED` with its `WEXITSTATUS`, or not. -/
inductive child_status
  | exited (code : Nat)
  | abnormal
  deriving DecidableEq, Repr

/-- How a call of `fdm_action_reader` ends. -/
inductive reader_result
  | again (async : action_async)
  | failed
  | finished (mgr : notif_mgr) (trace : List event)
  | null_deref (trace : List event)
  deriving DecidableEq, Repr

/-- `isspace` in the C locale. -/
def isspace (c : Char) : Bool :=
  c = ' ' || c = '\t' || c = '\n' || c = '\x0b' || c = '\x0c' || c = '\r'

/-- The loop stripping trailing spaces and newlines from the output. -/
def rstrip (output : List Char) : List Char :=
  (output.reverse.dropWhile isspace).reverse

/-- `strncmp(s1, s2, n) == 0` for a NUL-terminated `s1` (terminator implicit)
and a buffer `s2`: at most `n` characters are compared, and the comparison
stops after a NUL. -/
def strncmp_eq : List Char → List Char → Nat → Bool
  | _, _, 0 => true
  | s1, s2, n + 1 =>
    let c1 := s1.headD '\x00'
    let c2 := s2.headD '\x00'
    if c1 ≠ c2 then false
    else if c1 = '\x00' then true
    else strncmp_eq s1.tail s2.tail n

/-- The loop "Map returned label to action ID" of `fdm_action_reader`. -/
def map_label (chosen : List Char) : List action → Option String
  | [] => none
  | a :: as =>
    if strncmp_eq a.label chosen chosen.length then some a.id
    else map_label chosen as

/-- The part of `fdm_action_reader` between `action_id = NULL` and `done:`:
the action id stays `NULL` when the child did not exit normally, exited with
a non-zero status, or the notification is gone; otherwise the label is mapped. -/
def chosen_action (status : child_status) (chosen : List Char) (notif : Option notif) :
    Option String :=
  match status with
  | child_status.abnormal => none
  | child_status.exited code =>
    if code ≠ 0 then none
    else
      match notif with
      | none => none
      | some n => map_label chosen n.actions

/-- Store `n` in the node at position `i` (a write through the pointer). -/
def store (mgr : notif_mgr) (i : Nat) (n : notif) : notif_mgr :=
  { mgr with notifs := mgr.notifs.set i n }

/-- `fdm_action_reader`: one call of the read handler, given what `read`
returned and (for end of file) the exit status of the child. -/
def fdm_action_reader (mgr : notif_mgr) (async : action_async) (rd : read_result)
    (status : child_status) (completion_cb : notif_select_action_cb) : reader_result :=
  match rd with
  | read_result.eintr => reader_result.again async
  | read_result.error => reader_result.failed
  | read_result.data buf => reader_result.again { async with output := async.output ++ buf }
  | read_result.eof =>
    let chosen := rstrip async.output
    let notif : Option Fnott.notif := (notif_mgr_get_notif mgr async.notif_id).bind (mgr.notifs[·]?)
    let action_id : Option String := chosen_action status chosen notif
    match completion_cb notif action_id with
    | none => reader_result.null_deref []
    | some evs =>
      match notif_mgr_get_notif mgr async.notif_id, notif with
      | some i, some n =>
        if n.deferred_expiral = EXPIRE_DELAYED then
          let n1 : Fnott.notif := { n with deferred_expiral := EXPIRE_IMMEDIATELY }
          let r := notif_mgr_expire_id (store mgr i n1) n.id
          reader_result.finished r.1 (evs ++ r.2.2)
        else
          let n1 : Fnott.notif := { n with deferred_expiral := EXPIRE_IMMEDIATELY }
          if n.deferred_dismissal = DISMISS_DELAYED then
            let n2 : Fnott.notif := { n1 with deferred_dismissal := DISMISS_IMMEDIATELY }
            let r := notif_mgr_dismiss_id (store mgr i n2) n.id
            reader_result.finished r.1 (evs ++ r.2.2)
          else
            let n2 : Fnott.notif := { n1 with deferred_dismissal := DISMISS_IMMEDIATELY }
            reader_result.finished (store mgr i n2) evs
      | _, _ => reader_result.null_deref evs

/-- How far `notif_select_action` gets with the operating system: the
selection helper could not be started (`err_before_fork`), was forked but the
pipes could not be set up (`err_in_parent`), or runs. -/
inductive spawn_outcome
  | err_before_fork
  | err_in_parent
  | started
  deriving DecidableEq, Repr

/-- The two error exits of `notif_select_action`: the callback gets a `NULL`
action id, then both deferred flags are reset. -/
def select_action_err (mgr : notif_mgr) (i : Nat) (n : notif)
    (completion_cb : notif_select_action_cb) :
    Option (notif_mgr × List event × Option action_async) :=
  match completion_cb (some n) none with
  | none => none
  | some evs =>
    let n1 : notif :=
      { n with deferred_dismissal := DISMISS_IMMEDIATELY, deferred_expiral := EXPIRE_IMMEDIATELY }
    some (store mgr i n1, evs, none)

/-- `notif_select_action` on the notification at position `i`: without
actions, or when the helper cannot be run, the callback is called with a
`NULL` action id and both deferred flags end `*_IMMEDIATELY`; otherwise both
flags are set to `*_DEFER` and the reader context holding the saved id is
returned. `none` for a dangling position or a faulting callback. -/
def notif_select_action (mgr : notif_mgr) (i : Nat) (completion_cb : notif_select_action_cb)
    (env : spawn_outcome) : Option (notif_mgr × List event × Option action_async) :=
  match mgr.notifs[i]? with
  | none => none
  | some n =>
    let deferred : notif :=
      { n with deferred_dismissal := DISMISS_DEFER, deferred_expiral := EXPIRE_DEFER }
    if n.actions.length = 0 then select_action_err mgr i n completion_cb
    else
      match env with
      | spawn_outcome.err_before_fork => select_action_err mgr i n completion_cb
      | spawn_outcome.err_in_parent => select_action_err mgr i deferred completion_cb
      | spawn_outcome.started =>
        some (store mgr i deferred, [], some { notif_id := n.id, output := [] })

/-- `notif_add_action` on the notification at position `i`: the pair is
appended to its action list (the model strings are valid text, so the two
`ambstoc32` conversions succeed). -/
def notif_add_action (mgr : notif_mgr) (i : Nat) (id : String) (label : List Char) : notif_mgr :=
  match mgr.notifs[i]? with
  | none => mgr
  | some n => store mgr i { n with actions := n.actions ++ [{ id := id, label := label }] }

/-- `notif_set_application` on the notification at position `i`. -/
def notif_set_application (mgr : notif_mgr) (i : Nat) (text : String) : notif_mgr :=
  match mgr.notifs[i]? with
  | none => mgr
  | some n => store mgr i { n with app := ambstoc32 text.toList }

/-- `notif_set_progress` on the notification at position `i`. -/
def notif_set_progress (mgr : notif_mgr) (i : Nat) (progress : Int) : notif_mgr :=
  match mgr.notifs[i]? with
  | none => mgr
  | some n => if n.progress = progress then mgr else store mgr i { n with progress := progress }

/-- `notif_set_timeout` on the notification at position `i` (the timer it
reloads is not part of the state). -/
def notif_set_timeout (mgr : notif_mgr) (i : Nat) (timeout_ms : Int) : notif_mgr :=
  match mgr.notifs[i]? with
  | none => mgr
  | some n => store mgr i { n with timeout_ms := timeout_ms }

/-! ## Sequences of manager operations -/

/-- One call into the manager. Notifications are addressed the way the
callers hold them: by id for the id-based entry points, by position for the
entry points taking a `struct notif *`. The list-walking entry points that
only read or redraw (`notif_mgr_refresh`, `notif_mgr_get_ids`, the monitor and
timer reloads) leave every modelled field as it is and have no constructor. -/
inductive op
  | create_notif (replaces_id : Nat) (sync_tag : Option String)
  | add_action (i : Nat) (id : String) (label : List Char)
  | set_urgency (i : Nat) (u : urgency)
  | set_application (i : Nat) (text : String)
  | set_progress (i : Nat) (progress : Int)
  | set_timeout (i : Nat) (timeout_ms : Int)
  | del_notif (id : Nat)
  | dismiss_id (id : Nat)
  | expire_id (id : Nat)
  | dismiss_all
  | pause
  | unpause
  | select_action (i : Nat) (activation_token : Option String) (env : spawn_outcome)
  | action_reader (async : action_async) (rd : read_result) (status : child_status)
      (activation_token : Option String)
  deriving DecidableEq, Repr

/-- The manager after one operation; `none` when the call faults (a `NULL`
or dangling notification pointer is dereferenced). -/
def step (mgr : notif_mgr) : op → Option notif_mgr
  | op.create_notif r t => some (notif_mgr_create_notif mgr r t).1
  | op.add_action i id label =>
    if i < mgr.notifs.length then some (notif_add_action mgr i id label) else none
  | op.set_urgency i u =>
    if i < mgr.notifs.length then some (notif_set_urgency mgr i u).1 else none
  | op.set_application i text =>
    if i < mgr.notifs.length then some (notif_set_application mgr i text) else none
  | op.set_progress i progress =>
    if i < mgr.notifs.length then some (notif_set_progress mgr i progress) else none
  | op.set_timeout i timeout_ms =>
    if i < mgr.notifs.length then some (notif_set_timeout mgr i timeout_ms) else none
  | op.del_notif id => some (notif_mgr_del_notif mgr id).1
  | op.dismiss_id id => some (notif_mgr_dismiss_id mgr id).1
  | op.expire_id id => some (notif_mgr_expire_id mgr id).1
  | op.dismiss_all => some (notif_mgr_dismiss_all mgr).1
  | op.pause => some (notif_mgr_pause mgr)
  | op.unpause => some (notif_mgr_unpause mgr)
  | op.select_action i tok env =>
    (notif_select_action mgr i (actions_complete tok) env).map (·.1)
  | op.action_reader async rd status tok =>
    match fdm_action_reader mgr async rd status (actions_complete tok) with
    | reader_result.finished mgr' _ => some mgr'
    | reader_result.again _ => some mgr
    | reader_result.failed => some mgr
    | reader_result.null_deref _ => none

/-- The manager after a sequence of operations, first to last. -/
def run (mgr : notif_mgr) : List op → Option notif_mgr
  | [] => some mgr
  | o :: os =>
    match step mgr o with
    | none => none
    | some mgr' => run mgr' os

/-! ## Predicates used in the statements -/

/-- The list is ordered by urgency, highest first. -/
def urgency_sorted (l : List notif) : Prop :=
  l.Pairwise (fun a b => a.urgency ≥ b.urgency)

/-- No two positions of the list hold the same id. -/
def ids_unique (l : List notif) : Prop :=
  ∀ (i j : Nat) (hi : i < l.length) (hj : j < l.length), l[i].id = l[j].id → i = j

/-- No two positions of the list hold the same non-null sync tag. -/
def sync_tags_unique (l : List notif) : Prop :=
  ∀ (i j : Nat) (hi : i < l.length) (hj : j < l.length) (t : String),
    l[i].synchronous_tag = some t → l[j].synchronous_tag = some t → i = j

/-- The sync tags of the list, in list order. -/
def tags (l : List notif) : List (Option String) := l.map (·.synchronous_tag)

/-- The sync tag and urgency of each node, in list order. -/
def shape (l : List notif) : List (Option String × urgency) :=
  l.map (fun n => (n.synchronous_tag, n.urgency))

/-- No tag occurs twice among the non-null tags. -/
def tag_inv (l : List notif) : Prop := ((tags l).filterMap id).Nodup

/-- One notification with the action ("default", "Open"), its selection helper running. -/
def selecting_ops : List op :=
  [op.create_notif 0 none, op.add_action 0 "default" ['O', 'p', 'e', 'n'],
    op.select_action 0 none spawn_outcome.started]

/-- The notification created by `selecting_ops`, while the helper runs. -/
def selecting_notif : notif :=
  { notif_init 1 none with
    actions := [{ id := "default", label := ['O', 'p', 'e', 'n'] }]
    deferred_dismissal := DISMISS_DEFER
    deferred_expiral := EXPIRE_DEFER }

/-- The manager reached by `selecting_ops`. -/
def selecting_mgr : notif_mgr :=
  { notifs := [selecting_notif], paused := false, next_id := 2 }

/-- The manager of `selecting_ops` after `dismiss_id 1`: the dismissal is
queued behind the running helper. -/
def delayed_mgr : notif_mgr :=
  { notifs := [{ selecting_notif with deferred_dismissal := DISMISS_DELAYED }],
    paused := false, next_id := 2 }

/-- Two requests sharing the tag "up", then one tagged "dl". -/
def tagged_ops : List op :=
  [op.create_notif 0 (some "up"), op.create_notif 5 (some "up"), op.create_notif 0 (some "dl")]

/-- The manager reached by `tagged_ops`. -/
def tagged_mgr : notif_mgr :=
  { notifs := [notif_init 1 (some "up"), notif_init 2 (some "dl")], paused := false, next_id := 3 }

/-- Two plain notifications, ids 1 and 2, both of normal urgency. -/
def pair_mgr : notif_mgr :=
  { notifs := [notif_init 1 none, notif_init 2 none], paused := false, next_id := 3 }

/-! ## Control socket (`ctrl.c`) -/

/-- `notif_mgr_get_ids`: the number of notifications, and the ids written to
`ids` (the first `max` ones, none when `ids` is `NULL`). -/
def notif_mgr_get_ids (mgr : notif_mgr) (ids : Bool) (max : Nat) : Nat × List Nat :=
  (mgr.notifs.length, if ids then (mgr.notifs.take max).map (·.id) else [])

/-- `c32rtomb`: fails on a value that is not a Unicode scalar. -/
def c32rtomb (c : char32_t) : Option Char :=
  if (Char.ofNat c).toNat = c then some (Char.ofNat c) else none

/-- The conversion loop of `ac32tombs` over the characters of the string. -/
def c32s_to_mbs : List char32_t → Option (List Char)
  | [] => some []
  | c :: cs =>
    match c32rtomb c with
    | none => none
    | some ch =>
      match c32s_to_mbs cs with
      | none => none
      | some r => some (ch :: r)

/-- `ac32tombs`: the string up to its terminator, converted back; `NULL` when a
value cannot be converted. -/
def ac32tombs (src : List char32_t) : Option (List Char) := c32s_to_mbs (c32str src)

/-- `notif_get_summary`. -/
def notif_get_summary (n : notif) : Option (List Char) := ac32tombs n.summary

/-- The `enum ctrl_command` of `ctrl-protocol.h`. -/
inductive ctrl_command
  | CTRL_QUIT
  | CTRL_LIST
  | CTRL_PAUSE
  | CTRL_UNPAUSE
  | CTRL_DISMISS_BY_ID
  | CTRL_DISMISS_ALL
  | CTRL_ACTIONS_BY_ID
  | CTRL_DISMISS_WITH_DEFAULT_ACTION_BY_ID
  deriving DecidableEq, Repr

/-- What handling one control command leaves behind: the manager, the reply
sent now (`none` while an action selection is pending), the `List` payload
(count, then id and summary per notification), the signals and replies sent
meanwhile, the `aborted` flag, and the reader context of a started helper. -/
structure ctrl_outcome where
  mgr : notif_mgr
  reply : Option ctrl_result
  listing : Option (Nat × List (Nat × List Char))
  events : List event
  aborted : Bool
  async : Option action_async
  deriving DecidableEq, Repr

/-- The entry written for one id in the `List` reply: an empty summary when
the id is not found; `none` when `notif_get_summary` returned `NULL`, which
`strlen` then dereferences. -/
def list_entry (mgr : notif_mgr) (id : Nat) : Option (Nat × List Char) :=
  match (notif_mgr_get_notif mgr id).bind (mgr.notifs[·]?) with
  | none => some (id, [])
  | some n => (notif_get_summary n).map (fun summary => (id, summary))

/-- The loop writing the `List` entries. -/
def list_entries (mgr : notif_mgr) : List Nat → Option (List (Nat × List Char))
  | [] => some []
  | id :: ids =>
    match list_entry mgr id with
    | none => none
    | some e =>
      match list_entries mgr ids with
      | none => none
      | some es => some (e :: es)

/-- `actions_by_id` of `ctrl.c`. -/
def actions_by_id (mgr : notif_mgr) (id : Nat) (activation_token : Option String)
    (env : spawn_outcome) : ctrl_result × notif_mgr × List event × Option action_async :=
  match notif_mgr_get_notif mgr id, (notif_mgr_get_notif mgr id).bind (mgr.notifs[·]?) with
  | some i, some n =>
    if n.actions.length = 0 then (ctrl_result.CTRL_NO_ACTIONS, mgr, [], none)
    else
      match notif_select_action mgr i (actions_complete activation_token) env with
      | some r => (ctrl_result.CTRL_OK, r)
      | none => (ctrl_result.CTRL_OK, mgr, [], none)
  | _, _ => (ctrl_result.CTRL_INVALID_ID, mgr, [], none)

/-- The command switch of `fdm_client`, once a whole request `{cmd, id}` has
been received; `none` when it dereferences `NULL`. -/
def fdm_client (mgr : notif_mgr) (cmd : ctrl_command) (id : Nat)
    (activation_token : Option String) (env : spawn_outcome) : Option ctrl_outcome :=
  match cmd with
  | ctrl_command.CTRL_QUIT =>
    some { mgr := mgr, reply := some ctrl_result.CTRL_OK, listing := none, events := [],
           aborted := true, async := none }
  | ctrl_command.CTRL_LIST =>
    let id_count := (notif_mgr_get_ids mgr false 0).1
    match list_entries mgr (notif_mgr_get_ids mgr true id_count).2 with
    | none => none
    | some entries =>
      some { mgr := mgr, reply := some ctrl_result.CTRL_OK, listing := some (id_count, entries),
             events := [], aborted := false, async := none }
  | ctrl_command.CTRL_PAUSE =>
    some { mgr := notif_mgr_pause mgr, reply := some ctrl_result.CTRL_OK, listing := none,
           events := [], aborted := false, async := none }
  | ctrl_command.CTRL_UNPAUSE =>
    some { mgr := notif_mgr_unpause mgr, reply := some ctrl_result.CTRL_OK, listing := none,
           events := [], aborted := false, async := none }
  | ctrl_command.CTRL_DISMISS_BY_ID =>
    let r := notif_mgr_dismiss_id mgr id
    some { mgr := r.1,
           reply := some (if r.2.1 then ctrl_result.CTRL_OK else ctrl_result.CTRL_INVALID_ID),
           listing := none, events := r.2.2, aborted := false, async := none }
  | ctrl_command.CTRL_DISMISS_ALL =>
    let r := notif_mgr_dismiss_all mgr
    some { mgr := r.1,
           reply := some (if r.2.1 then ctrl_result.CTRL_OK else ctrl_result.CTRL_ERROR),
           listing := none, events := r.2.2, aborted := false, async := none }
  | ctrl_command.CTRL_ACTIONS_BY_ID =>
    let r := actions_by_id mgr id activation_token env
    some { mgr := r.2.1, reply := if r.1 = ctrl_result.CTRL_OK then none else some r.1,
           listing := none, events := r.2.2.1, aborted := false, async := r.2.2.2 }
  | ctrl_command.CTRL_DISMISS_WITH_DEFAULT_ACTION_BY_ID =>
    match (notif_mgr_get_notif mgr id).bind (mgr.notifs[·]?) with
    | some n =>
      let sig := notif_signal_action n (some "default") activation_token
      let r := notif_mgr_dismiss_id mgr id
      some { mgr := r.1,
             reply := some (if r.2.1 then ctrl_result.CTRL_OK else ctrl_result.CTRL_INVALID_ID),
             listing := none, events := sig.2 ++ r.2.2, aborted := false, async := none }
    | none =>
      some { mgr := mgr, reply := some ctrl_result.CTRL_INVALID_ID, listing := none,
             events := [], aborted := false, async := none }

/-! ## Configuration data (`config.h`) -/

/-- Conversion of an integer value to C `int` (32 bits, two's complement). -/
def to_int (v : Int) : Int := (v + 2 ^ 31) % 2 ^ 32 - 2 ^ 31

/-- The `enum zwlr_layer_shell_v1_layer` of the layer-shell protocol. -/
inductive layer_shell_layer
  | LAYER_BACKGROUND
  | LAYER_BOTTOM
  | LAYER_TOP
  | LAYER_OVERLAY
  deriving DecidableEq, Repr

inductive progress_style
  | PROGRESS_STYLE_BAR
  | PROGRESS_STYLE_BACKGROUND
  deriving DecidableEq, Repr

inductive scaling_filter
  | SCALING_FILTER_NONE
  | SCALING_FILTER_NEAREST
  | SCALING_FILTER_BILINEAR
  | SCALING_FILTER_CUBIC
  | SCALING_FILTER_LANCZOS3
  deriving DecidableEq, Repr

inductive stacking_order
  | STACK_BOTTOM_UP
  | STACK_TOP_DOWN
  deriving DecidableEq, Repr

inductive anchor
  | ANCHOR_TOP_LEFT
  | ANCHOR_TOP_RIGHT
  | ANCHOR_BOTTOM_LEFT
  | ANCHOR_BOTTOM_RIGHT
  | ANCHOR_CENTER
  deriving DecidableEq, Repr

/-- A `pixman_color_t`: four 16-bit channels. -/
structure pixman_color_t where
  red : Nat
  green : Nat
  blue : Nat
  alpha : Nat
  deriving DecidableEq, Repr

/-- A `struct config_font`. The pattern and the two sizes are what fontconfig
makes of a font name; they are kept as the name they were parsed from.
`pattern` is `none` for a pointer that is `NULL` or was freed. -/
structure config_font where
  pattern : Option (List Char)
  sizes_of : List Char
  deriving DecidableEq, Repr

/-- The `struct urgency_config` of `config.h`. -/
structure urgency_config where
  layer : layer_shell_layer
  bg : pixman_color_t
  border_color : pixman_color_t
  border_size : Int
  border_radius : Int
  padding_vertical : Int
  padding_horizontal : Int
  app_font : config_font
  app_color : pixman_color_t
  app_format : Option (List char32_t)
  summary_font : config_font
  summary_color : pixman_color_t
  summary_format : Option (List char32_t)
  body_font : config_font
  body_color : pixman_color_t
  body_format : Option (List char32_t)
  action_font : config_font
  action_color : pixman_color_t
  progress_height : Int
  progress_color : pixman_color_t
  progress_style : progress_style
  max_timeout_secs : Int
  default_timeout_secs : Int
  idle_timeout_secs : Int
  sound_file : Option (List Char)
  icon : Option (List Char)
  deriving DecidableEq, Repr

/-- The `struct config_spawn_template` of `config.h`. -/
structure config_spawn_template where
  raw_cmd : Option (List Char)
  argv : Option (List (List Char))
  deriving DecidableEq, Repr

/-- The `struct config` of `config.h`; `by_urgency[3]` is the three fields
`low`, `normal`, `critical`. -/
structure config where
  output : Option (List Char)
  min_width : Int
  max_width : Int
  max_height : Int
  dpi_aware : Bool
  icon_theme_name : Option (List Char)
  max_icon_size : Int
  stacking_order : stacking_order
  anchor : anchor
  margins_vertical : Int
  margins_horizontal : Int
  margins_between : Int
  low : urgency_config
  normal : urgency_config
  critical : urgency_config
  selection_helper : Option (List Char)
  selection_helper_uses_null_separator : Bool
  play_sound : config_spawn_template
  scaling_filter : scaling_filter
  deriving DecidableEq, Repr

/-- `conf->by_urgency[u]`; `none` for an index outside the array. -/
def by_urgency (conf : config) (u : urgency) : Option urgency_config :=
  match u with
  | 0 => some conf.low
  | 1 => some conf.normal
  | 2 => some conf.critical
  | _ => none

/-! ## Timeouts (`notification.c`, `wayland.c`) -/

/-- A seat of `wayland.c`, reduced to its `is_idle[3]` flags. -/
structure seat where
  is_idle : List Bool
  deriving DecidableEq, Repr

/-- `wayl_is_idle_for_urgency`: the conjunction over all seats (true without
seats). -/
def wayl_is_idle_for_urgency (seats : List seat) (u : urgency) : Bool :=
  seats.all (fun s => s.is_idle.getD u false)

/-- How `notif_reload_timeout` ends: reading `by_urgency` outside the array,
failing `assert(timeout_ms >= 0)`, or returning `ret` with the timer it
leaves armed (`it_value` as seconds and nanoseconds). -/
inductive reload_result
  | bad_index
  | assert_failed
  | done (ret : Bool) (timer : Option (Int × Int))
  deriving DecidableEq, Repr

/-- `notif_reload_timeout`. The products are C `int` products; `timer_ok`
tells whether `timerfd_create`, `timerfd_settime` and `fdm_add` succeed. -/
def notif_reload_timeout (conf : config) (seats : List seat) (n : notif) (timer_ok : Bool) :
    reload_result :=
  match by_urgency conf n.urgency with
  | none => reload_result.bad_index
  | some urgency =>
    let notif_timeout_ms := n.timeout_ms
    let max_timeout_ms := to_int (urgency.max_timeout_secs * 1000)
    let default_timeout_ms := to_int (urgency.default_timeout_secs * 1000)
    let timeout_ms := if notif_timeout_ms = -1 then default_timeout_ms else notif_timeout_ms
    if timeout_ms < 0 then reload_result.assert_failed
    else
      let timeout_ms :=
        if max_timeout_ms > 0 then
          if timeout_ms > 0 then min timeout_ms max_timeout_ms else max_timeout_ms
        else timeout_ms
      if wayl_is_idle_for_urgency seats n.urgency then reload_result.done true none
      else if timeout_ms = 0 then reload_result.done true none
      else if timer_ok then
        let nsecs := timeout_ms * 1000000
        reload_result.done true (some (nsecs / 1000000000, nsecs % 1000000000))
      else reload_result.done false none

/-- The effective timeout of the specification, in exact arithmetic. -/
def effective_ms (timeout_ms default_timeout_secs max_timeout_secs : Int) : Int :=
  let e := if timeout_ms = -1 then default_timeout_secs * 1000 else timeout_ms
  if max_timeout_secs > 0 then
    if e > 0 then min e (max_timeout_secs * 1000) else if e = 0 then max_timeout_secs * 1000 else e
  else e

/-- The initial `struct config` of `config_load`, before a file is parsed
(the fonts are parsed from "sans serif", the sound command is tokenized). -/
def config_defaults : config :=
  let font : config_font :=
    { pattern := some "sans serif".toList, sizes_of := "sans serif".toList }
  let white : pixman_color_t := { red := 0xffff, green := 0xffff, blue := 0xffff, alpha := 0xffff }
  let grey : pixman_color_t := { red := 0x8888, green := 0x8888, blue := 0x8888, alpha := 0xffff }
  let border : pixman_color_t := { red := 0x9090, green := 0x9090, blue := 0x9090, alpha := 0xffff }
  let level (bg text : pixman_color_t) : urgency_config :=
    { layer := layer_shell_layer.LAYER_TOP
      bg := bg
      border_color := border
      border_size := 1
      border_radius := 0
      padding_vertical := 20
      padding_horizontal := 20
      app_font := font
      app_color := text
      app_format := some (ambstoc32 "<i>%a%A</i>".toList)
      summary_font := font
      summary_color := text
      summary_format := some (ambstoc32 "<b>%s</b>\\n".toList)
      body_font := font
      body_color := text
      body_format := some (ambstoc32 "%b".toList)
      action_font := font
      action_color := text
      progress_height := 20
      progress_color := white
      progress_style := progress_style.PROGRESS_STYLE_BAR
      max_timeout_secs := 0
      default_timeout_secs := 0
      idle_timeout_secs := 0
      sound_file := none
      icon := none }
  { output := none
    min_width := 0
    max_width := 0
    max_height := 0
    dpi_aware := false
    icon_theme_name := some "default".toList
    max_icon_size := 48
    stacking_order := stacking_order.STACK_BOTTOM_UP
    anchor := anchor.ANCHOR_TOP_RIGHT
    margins_vertical := 10
    margins_horizontal := 10
    margins_between := 10
    low := level { red := 0x2b2b, green := 0x2b2b, blue := 0x2b2b, alpha := 0xffff } grey
    normal := level { red := 0x3f3f, green := 0x5f5f, blue := 0x3f3f, alpha := 0xffff } white
    critical := level { red := 0x6c6c, green := 0x3333, blue := 0x3333, alpha := 0xffff } white
    selection_helper := some "dmenu".toList
    selection_helper_uses_null_separator := false
    play_sound :=
      { raw_cmd := some "aplay $\x7bfilename\x7d".toList
        argv := some ["aplay".toList, "$\x7bfilename\x7d".toList] }
    scaling_filter := scaling_filter.SCALING_FILTER_LANCZOS3 }

/-- `config_defaults` with the two timeouts of the normal level set. -/
def config_with_timeouts (default_timeout_secs max_timeout_secs : Int) : config :=
  { config_defaults with
    normal := { config_defaults.normal with
      default_timeout_secs := default_timeout_secs
      max_timeout_secs := max_timeout_secs } }

/-- One seat that is not idle. -/
def active_seat : seat := { is_idle := [false, false, false] }

/-! ## HTML entities (`notification.c`) -/

/-- Value of a digit character, as `strtoul` reads it. -/
def digit_value (c : Char) : Option Nat :=
  if '0' ≤ c ∧ c ≤ '9' then some (c.toNat - '0'.toNat)
  else if 'a' ≤ c ∧ c ≤ 'z' then some (c.toNat - 'a'.toNat + 10)
  else if 'A' ≤ c ∧ c ≤ 'Z' then some (c.toNat - 'A'.toNat + 10)
  else none

/-- Whether `c` is a digit in `base`. -/
def is_digit_in (base : Nat) (c : Char) : Bool :=
  match digit_value c with
  | some v => v < base
  | none => false

/-- The number a digit string denotes in `base`. -/
def digits_value (base : Nat) (ds : List Char) : Nat :=
  ds.foldl (fun acc c => acc * base + (digit_value c).getD 0) 0

/-- What `strtoul` hands back: the value, where `end` points, and whether
`errno` was set to `ERANGE`. -/
structure strtoul_result where
  value : Nat
  rest : List Char
  erange : Bool
  deriving DecidableEq, Repr

/-- `strtoul` of the C library for an `unsigned long` of 64 bits: leading
white space, an optional sign, for base 16 an optional `0x`, then digits; on
overflow `ULONG_MAX` and `ERANGE`; without digits 0 and `end` at the start. -/
def strtoul (s : List Char) (base : Nat) : strtoul_result :=
  let s1 := s.dropWhile isspace
  let neg := s1.head? = some '-'
  let s2 := if s1.head? = some '-' ∨ s1.head? = some '+' then s1.tail else s1
  let s3 :=
    match s2 with
    | '0' :: x :: d :: r =>
      if base = 16 ∧ (x = 'x' ∨ x = 'X') ∧ is_digit_in 16 d then d :: r else s2
    | _ => s2
  let ds := s3.takeWhile (is_digit_in base)
  if ds = [] then { value := 0, rest := s, erange := false }
  else if digits_value base ds ≥ 2 ^ 64 then
    { value := 2 ^ 64 - 1, rest := s3.drop ds.length, erange := true }
  else
    { value := if neg then (2 ^ 64 - digits_value base ds) % 2 ^ 64 else digits_value base ds
      rest := s3.drop ds.length
      erange := false }

/-- The names in the first group of `html_entity_re`, in pattern order. -/
def entity_names : List (List Char) :=
  ["nbsp".toList, "lt".toList, "gt".toList, "amp".toList, "quot".toList, "apos".toList,
    "cent".toList, "pound".toList, "yen".toList, "euro".toList, "copy".toList, "reg".toList]

/-- Which group of `html_entity_re` matched: the name (with its length), the
decimal number or the hexadecimal number. -/
inductive entity
  | named (match_len : Nat)
  | decimal
  | hex
  deriving DecidableEq, Repr

/-- Whether `s` starts with `p`. -/
def starts_with (p : List Char) (s : List Char) : Bool := s.take p.length = p

/-- The alternation of names followed by `;`, tried on the text after `&`. -/
def match_name (rest : List Char) : List (List Char) → Option Nat
  | [] => none
  | name :: names =>
    if starts_with (name ++ [';']) rest then some name.length else match_name rest names

/-- A run of one or more characters satisfying `p`, followed by `;`: the
length of the run. -/
def match_number (p : Char → Bool) (r : List Char) : Option Nat :=
  if r.takeWhile p ≠ [] ∧ (r.dropWhile p).head? = some ';' then some (r.takeWhile p).length
  else none

/-- `html_entity_re` matched at the very start of `s`: the length of the whole
match and the group that took part. The three alternatives are
`&(name);`, `&#([0-9]+);` and `&#x([0-9a-fA-F]+);`. -/
def match_here (s : List Char) : Option (Nat × entity) :=
  match s with
  | '&' :: rest =>
    match match_name rest entity_names with
    | some n => some (n + 2, entity.named n)
    | none =>
      match rest with
      | '#' :: 'x' :: r => (match_number (is_digit_in 16) r).map (fun n => (n + 4, entity.hex))
      | '#' :: r => (match_number (is_digit_in 10) r).map (fun n => (n + 3, entity.decimal))
      | _ => none
  | _ => none

/-- `regexec` with `html_entity_re`: the leftmost match, as `rm_so` and `rm_eo`
of the whole match and the group that took part; `none` for `REG_NOMATCH`. -/
def regexec : List Char → Option (Nat × Nat × entity)
  | [] => none
  | c :: cs =>
    match match_here (c :: cs) with
    | some m => some (0, m.1, m.2)
    | none => (regexec cs).map (fun m => (m.1 + 1, m.2.1 + 1, m.2.2))

/-- The chain of `strncmp(match, "name", match_len)` tests on the text `m` of
the name group; `none` is the final `assert(false)`. -/
def named_char (m : List Char) (match_len : Nat) : Option char32_t :=
  if strncmp_eq m "nbsp".toList match_len then some ' '.toNat
  else if strncmp_eq m "lt".toList match_len then some '<'.toNat
  else if strncmp_eq m "gt".toList match_len then some '>'.toNat
  else if strncmp_eq m "amp".toList match_len then some '&'.toNat
  else if strncmp_eq m "quot".toList match_len then some '"'.toNat
  else if strncmp_eq m "apos".toList match_len then some 39
  else if strncmp_eq m "cent".toList match_len then some '¢'.toNat
  else if strncmp_eq m "pound".toList match_len then some '£'.toNat
  else if strncmp_eq m "yen".toList match_len then some '¥'.toNat
  else if strncmp_eq m "euro".toList match_len then some '€'.toNat
  else if strncmp_eq m "copy".toList match_len then some '©'.toNat
  else if strncmp_eq m "reg".toList match_len then some '®'.toNat
  else none

/-- What one match appends, `m` being the text from the start of the match:
the character of a name, or the number converted by `strtoul` and cast to
`char32_t`; nothing when `strtoul` set `errno`. -/
def entity_append (e : entity) (m : List Char) : List char32_t :=
  match e with
  | entity.named match_len =>
    match named_char (m.drop 1) match_len with
    | some c => [c]
    | none => []
  | entity.decimal =>
    if (strtoul (m.drop 2) 10).erange then [] else [(strtoul (m.drop 2) 10).value % 2 ^ 32]
  | entity.hex =>
    if (strtoul (m.drop 3) 16).erange then [] else [(strtoul (m.drop 3) 16).value % 2 ^ 32]

/-- The `while (true)` loop of `decode_html_entities`, `fuel` bounding the
number of matches: the text before the leftmost match is copied, the match
appends its character, and the loop goes on after the match. -/
def decode_loop : Nat → List Char → List char32_t
  | 0, _ => []
  | fuel + 1, s =>
    match regexec s with
    | none => ambstoc32 s
    | some m =>
      ambstoc32 (s.take m.1) ++ entity_append m.2.2 (s.drop m.1)
        ++ decode_loop fuel (s.drop m.2.1)

/-- `decode_html_entities`: the characters written to `result` before the
terminator. Every match consumes at least one character, so the length of `s`
plus one bounds the number of rounds. -/
def decode_html_entities (s : List Char) : List char32_t :=
  decode_loop (s.length + 1) s

/-- `notif_set_summary` on the notification at position `i`: what is kept is
the string the returned pointer designates. -/
def notif_set_summary (mgr : notif_mgr) (i : Nat) (text : List Char) : notif_mgr :=
  match mgr.notifs[i]? with
  | none => mgr
  | some n => store mgr i { n with summary := c32str (decode_html_entities text) }

/-- `notif_set_body` on the notification at position `i`. -/
def notif_set_body (mgr : notif_mgr) (i : Nat) (text : List Char) : notif_mgr :=
  match mgr.notifs[i]? with
  | none => mgr
  | some n => store mgr i { n with body := c32str (decode_html_entities text) }

/-- The single pass of the specification: `skip` characters belong to an
entity already replaced; at any other position a recognised entity is
replaced by what it stands for and every other character is copied. -/
def scan_entities : Nat → List Char → List char32_t
  | _, [] => []
  | skip + 1, _ :: cs => scan_entities skip cs
  | 0, c :: cs =>
    match match_here (c :: cs) with
    | some m => entity_append m.2 (c :: cs) ++ scan_entities (m.1 - 1) cs
    | none => c.toNat :: scan_entities 0 cs

/-! ## Format strings (`notification.c`) -/

/-- The local `enum` of `expand_format_string`. -/
inductive escape
  | ESCAPE_NONE
  | ESCAPE_PERCENT
  | ESCAPE_BACKSLASH
  deriving DecidableEq, Repr

/-- What the `ESCAPE_PERCENT` case appends for the character `c`. -/
def percent_append (n : notif) (c : char32_t) : List char32_t :=
  if c = 'a'.toNat then c32str n.app
  else if c = 's'.toNat then c32str n.summary
  else if c = 'b'.toNat then c32str n.body
  else if c = 'A'.toNat then (if n.actions.length > 0 then ['*'.toNat] else [])
  else if c = '%'.toNat then [c]
  else []

/-- What the `ESCAPE_BACKSLASH` case appends for the character `c`. -/
def backslash_append (c : char32_t) : List char32_t :=
  if c = 'n'.toNat then ['\n'.toNat] else []

/-- The `for` loop of `expand_format_string` over the characters of `fmt`,
with the state `escape`: what is copied to `ret`. -/
def expand_loop (n : notif) : escape → List char32_t → List char32_t
  | _, [] => []
  | escape.ESCAPE_NONE, c :: cs =>
    if c = '%'.toNat then expand_loop n escape.ESCAPE_PERCENT cs
    else if c = '\\'.toNat then expand_loop n escape.ESCAPE_BACKSLASH cs
    else c :: expand_loop n escape.ESCAPE_NONE cs
  | escape.ESCAPE_PERCENT, c :: cs => percent_append n c ++ expand_loop n escape.ESCAPE_NONE cs
  | escape.ESCAPE_BACKSLASH, c :: cs => backslash_append c ++ expand_loop n escape.ESCAPE_NONE cs

/-- `expand_format_string`, allocation succeeding: `NULL` for a `NULL` format
and when nothing was copied (`ret_idx == 0`), else the copied characters. -/
def expand_format_string (n : notif) (fmt : Option (List char32_t)) : Option (List char32_t) :=
  match fmt with
  | none => none
  | some f =>
    if (expand_loop n escape.ESCAPE_NONE (c32str f)).length = 0 then none
    else some (expand_loop n escape.ESCAPE_NONE (c32str f))

/-- The concatenation the specification describes: the format is read from
left to right; a percent sign or a backslash takes the next character with it
and the pair is replaced as a whole, a lone one at the end by nothing; any
other character stands for itself. -/
def format_expansion (n : notif) : List char32_t → List char32_t
  | [] => []
  | [c] => if c = '%'.toNat ∨ c = '\\'.toNat then [] else [c]
  | c :: d :: rest =>
    if c = '%'.toNat then
      (if d = 'a'.toNat then c32str n.app
        else if d = 's'.toNat then c32str n.summary
        else if d = 'b'.toNat then c32str n.body
        else if d = 'A'.toNat then (if n.actions ≠ [] then ['*'.toNat] else [])
        else if d = '%'.toNat then ['%'.toNat]
        else []) ++ format_expansion n rest
    else if c = '\\'.toNat then
      (if d = 'n'.toNat then ['\n'.toNat] else []) ++ format_expansion n rest
    else c :: format_expansion n (d :: rest)

/-! ## The `Notify` method (`dbus.c`) -/

/-- The value inside the variant of one hint, by its D-Bus type: a byte, a
string, an `int32`, a struct (with whether its fields have the types the
image branch reads), or any other type. Decoding the image is not modelled. -/
inductive hint_variant
  | byte (level : Nat)
  | string (s : String)
  | int32 (v : Int)
  | image_struct (well_typed : Bool)
  | other
  deriving DecidableEq, Repr

/-- One element of the hints array: a dict entry with a string key and a
variant value, or anything else. -/
inductive hint_entry
  | malformed
  | entry (name : String) (value : hint_variant)
  deriving DecidableEq, Repr

/-- The arguments of a `Notify` call. `args_ok` says whether
`dbus_message_get_args` finds the five leading arguments of types
`s u s s s`; `actions` and `hints` are `none` when the argument is not an
array, and an element of `actions` is `none` when it is not a string;
`expire_timeout` is `none` when the last argument is not an `int32`. -/
structure notify_msg where
  args_ok : Bool
  app_name : String
  replaces_id : Nat
  app_icon : String
  summary : String
  body : String
  actions : Option (List (Option String))
  hints : Option (List hint_entry)
  expire_timeout : Option Int
  deriving DecidableEq, Repr

/-- The loop over the actions array: ids and labels come in pairs; `none` is
`goto err`. -/
def actions_loop : List (Option String) → Option (List action)
  | [] => some []
  | [_] => none
  | none :: _ :: _ => none
  | some _ :: none :: _ => none
  | some id :: some label :: rest =>
    match actions_loop rest with
    | none => none
    | some as => some ({ id := id, label := label.toList } :: as)

/-- The locals of `notify` that the hints set. -/
structure hint_state where
  urgency : urgency
  sync_tag : Option String
  progress_percent : Int
  deriving DecidableEq, Repr

/-- One round of the loop over the hints; `none` is `goto err`. -/
def hint_step (st : hint_state) : hint_entry → Option hint_state
  | hint_entry.malformed => none
  | hint_entry.entry name value =>
    if name = "urgency" then
      match value with
      | hint_variant.byte level => some { st with urgency := level }
      | _ => none
    else if name = "x-canonical-private-synchronous" then
      match value with
      | hint_variant.string s => some { st with sync_tag := some s }
      | _ => none
    else if name = "value" then
      match value with
      | hint_variant.int32 progress =>
        some { st with progress_percent := min 100 (max 0 progress) }
      | _ => none
    else if name = "image-path" ∨ name = "image_path" then
      match value with
      | hint_variant.string _ => some st
      | _ => none
    else if name = "image-data" ∨ name = "image_data" ∨ name = "icon_data" then
      match value with
      | hint_variant.image_struct true => some st
      | _ => none
    else some st

/-- The loop over the hints array. -/
def hints_loop (st : hint_state) : List hint_entry → Option hint_state
  | [] => some st
  | h :: hs =>
    match hint_step st h with
    | none => none
    | some st' => hints_loop st' hs

/-- The `tll_foreach(actions, it) notif_add_action(...)` of `notify`. -/
def add_actions (mgr : notif_mgr) (i : Nat) : List action → notif_mgr
  | [] => mgr
  | a :: as => add_actions (notif_add_action mgr i a.id a.label) i as

/-- What `notify` leaves behind: the manager, its return value, the id sent in
the method return (`none` when no reply is sent) and the position of the
notification it worked on. -/
structure notify_result where
  mgr : notif_mgr
  ret : Bool
  reply : Option Nat
  notif : Option Nat
  deriving DecidableEq, Repr

/-- The calls of `notify` once all arguments have been read: create or look up
the notification and set its fields. The icon and the sound are not part of
the state. -/
def notify_apply (mgr : notif_mgr) (msg : notify_msg) (actions : List action) (st : hint_state)
    (timeout_ms : Int) : notif_mgr × Nat :=
  let c := notif_mgr_create_notif mgr msg.replaces_id st.sync_tag
  let m2 := notif_set_application c.1 c.2 (String.mk (rstrip msg.app_name.toList))
  let m3 := notif_set_summary m2 c.2 (rstrip msg.summary.toList)
  let m4 := notif_set_body m3 c.2 (rstrip msg.body.toList)
  let u := notif_set_urgency m4 c.2 st.urgency
  let m6 := notif_set_progress u.1 u.2 st.progress_percent
  let m7 := if timeout_ms ≥ 0 then notif_set_timeout m6 u.2 timeout_ms else m6
  (add_actions m7 u.2 actions, u.2)

/-- `notify`: the handler of the `Notify` method, with the reply built and
sent without error. `replaces_id` is a local initialised to 0 and read from
the message only when the manager is not paused. -/
def notify (mgr : notif_mgr) (msg : notify_msg) : notify_result :=
  if notif_mgr_is_paused mgr then { mgr := mgr, ret := true, reply := some 0, notif := none }
  else if !msg.args_ok then { mgr := mgr, ret := false, reply := none, notif := none }
  else
    match msg.actions.bind actions_loop with
    | none => { mgr := mgr, ret := false, reply := none, notif := none }
    | some actions =>
      match msg.hints.bind
        (hints_loop { urgency := URGENCY_NORMAL, sync_tag := none, progress_percent := -1 }) with
      | none => { mgr := mgr, ret := false, reply := none, notif := none }
      | some st =>
        match msg.expire_timeout with
        | none => { mgr := mgr, ret := false, reply := none, notif := none }
        | some timeout_ms =>
          let r := notify_apply mgr msg actions st timeout_ms
          { mgr := r.1, ret := true, reply := (r.1.notifs[r.2]?).map (·.id), notif := some r.2 }

/-- A well-formed request without actions, with the given `replaces_id` and
hints. -/
def plain_msg (replaces_id : Nat) (hints : List hint_entry) : notify_msg :=
  { args_ok := true, app_name := "mail", replaces_id := replaces_id, app_icon := "",
    summary := "A &amp; B ", body := "", actions := some [], hints := some hints,
    expire_timeout := some (-1) }

/-- An element of the hints array that is an entry named `value`. -/
def is_value_hint : hint_entry → Bool
  | hint_entry.entry name _ => name = "value"
  | hint_entry.malformed => false

/-! ## The selector command line (`notification.c`) -/

/-- `push_argv`, allocation succeeding: an argument starting with `%` is not
stored; `none` is the `NULL` that ends the vector. -/
def push_argv (argv : List (Option (List Char))) (arg : Option (List Char)) :
    List (Option (List Char)) :=
  match arg with
  | some (c :: cs) => if c = '%' then argv else argv ++ [some (c :: cs)]
  | _ => argv ++ [arg]

/-- The test `*p == '"' || *p == '\''`. -/
def is_quote (c : Char) : Bool := c = '"' || c = '\''

/-- The choice of `delim` made before the loop of `tokenize_cmdline` and at
the end of each round: a quote at `p` becomes the delimiter and is stepped
over, otherwise the delimiter is the space. -/
def next_delim (p : List Char) : Char × List Char :=
  if is_quote (p.headD '\x00') then (p.headD '\x00', p.tail) else (' ', p)

/-- The `while (*p != '\0')` loop of `tokenize_cmdline` with what follows it;
`fuel` bounds the number of rounds and `none` is the return value `false`. -/
def tokenize_loop : Nat → Char → List Char → List (Option (List Char)) →
    Option (List (Option (List Char)))
  | 0, _, _, _ => none
  | fuel + 1, delim, p, argv =>
    if p = [] then some (push_argv argv none)
    else
      match p.dropWhile (fun c => c != delim) with
      | [] => if delim ≠ ' ' then none else some (push_argv (push_argv argv (some p)) none)
      | _ :: after =>
        tokenize_loop fuel
          (next_delim ((after.dropWhile (fun c => c == delim)).dropWhile (fun c => c == ' '))).1
          (next_delim ((after.dropWhile (fun c => c == delim)).dropWhile (fun c => c == ' '))).2
          (push_argv argv (some (p.takeWhile (fun c => c != delim))))

/-- `tokenize_cmdline`: the vector written to `*argv`, or `none` when it
returns `false`. Every round steps over at least one character, so the length
of the command line plus one bounds the number of rounds. -/
def tokenize_cmdline (cmdline : List Char) : Option (List (Option (List Char))) :=
  tokenize_loop (cmdline.length + 1) (next_delim cmdline).1 (next_delim cmdline).2 []

/-- A word of a command line as the specification reads it: a plain word, or
a span between two quotes `q`. -/
inductive word
  | plain (w : List Char)
  | quoted (q : Char) (w : List Char)
  deriving DecidableEq, Repr

/-- How a word is written on the command line. -/
def word_text : word → List Char
  | word.plain w => w
  | word.quoted q w => q :: w ++ [q]

/-- The argument a word stands for: the quotes are removed. -/
def word_arg : word → List Char
  | word.plain w => w
  | word.quoted _ w => w

/-- A plain word is not empty, has no space and does not start with a quote; a
quoted span is enclosed in a quote that does not occur inside it. -/
def word_ok : word → Bool
  | word.plain w => w ≠ [] && !w.contains ' ' && !is_quote (w.headD '\x00')
  | word.quoted q w => is_quote q && !w.contains q

/-- A command line written from words, each followed by a number of spaces. -/
def render : List (word × Nat) → List Char
  | [] => []
  | x :: rest => word_text x.1 ++ List.replicate x.2 ' ' ++ render rest

/-- Every word but the last is followed by at least one space. -/
def seps_ok : List (word × Nat) → Bool
  | [] => true
  | [_] => true
  | x :: y :: rest => decide (1 ≤ x.2) && seps_ok (y :: rest)

/-- The arguments of the words that do not start with `%`, in order. -/
def kept_args (ws : List (word × Nat)) : List (List Char) :=
  (ws.map (fun x => word_arg x.1)).filter (fun a => a.head? != some '%')

/-- An unterminated quoted span: an opening quote and a non-empty span in
which the quote does not occur again. -/
def open_tail (T : List Char) : Prop :=
  ∃ q w, T = q :: w ∧ is_quote q = true ∧ q ∉ w ∧ w ≠ []

/-! ## Configuration file (`config.c`) -/

/-- What the configuration parser gets from outside this repository:
whether `FcNameParse` of fontconfig accepts a font name, and
`tokenize_cmdline` of `tokenize.h` (`none` when it returns `false`). -/
structure config_env where
  fc_name_parse : List Char → Bool
  tokenize : List Char → Option (List (List Char))

/-- `strcasecmp(s, t) == 0`. -/
def strcasecmp_eq (s : List Char) (t : String) : Bool :=
  s.map Char.toLower == t.toList.map Char.toLower

/-- `str_to_bool`. -/
def str_to_bool (s : List Char) : Option Bool :=
  if strcasecmp_eq s "on" ∨ strcasecmp_eq s "true" ∨ strcasecmp_eq s "yes"
      ∨ strcasecmp_eq s "1" then some true
  else if strcasecmp_eq s "off" ∨ strcasecmp_eq s "false" ∨ strcasecmp_eq s "no"
      ∨ strcasecmp_eq s "0" then some false
  else none

/-- `str_to_ulong`: succeeds when `strtoul` set no error and stopped at the
end of the string (an empty string gives 0). -/
def str_to_ulong (s : List Char) (base : Nat) : Option Nat :=
  if ¬ (strtoul s base).erange ∧ (strtoul s base).rest = [] then some (strtoul s base).value
  else none

/-- `color_hex_to_pixman_with_alpha`, in 32-bit unsigned arithmetic, each
channel stored in 16 bits. -/
def color_hex_to_pixman_with_alpha (color alpha : Nat) : pixman_color_t :=
  { red := (((color >>> 16 &&& 0xff) ||| (color >>> 8 &&& 0xff00)) * alpha % 2 ^ 32 / 0xffff)
      % 2 ^ 16
    green := (((color >>> 8 &&& 0xff) ||| (color &&& 0xff00)) * alpha % 2 ^ 32 / 0xffff)
      % 2 ^ 16
    blue := (((color &&& 0xff) ||| (color <<< 8 &&& 0xff00)) * alpha % 2 ^ 32 / 0xffff)
      % 2 ^ 16
    alpha := alpha }

/-- `str_to_color`: eight characters read as a hexadecimal number. -/
def str_to_color (s : List Char) : Option pixman_color_t :=
  if s.length ≠ 8 then none
  else
    match str_to_ulong s 16 with
    | none => none
    | some value =>
      some (color_hex_to_pixman_with_alpha ((value >>> 8) % 2 ^ 32)
        (((value &&& 0xff) ||| ((value &&& 0xff) <<< 8)) % 2 ^ 16))

/-- `str_to_spawn_template`. -/
def str_to_spawn_template (env : config_env) (s : List Char) : Option config_spawn_template :=
  if s.length = 0 then some { raw_cmd := none, argv := none }
  else
    match env.tokenize s with
    | none => none
    | some argv => some { raw_cmd := some s, argv := some argv }

/-- `free(font->pattern); config_font_parse(value, font);`: when fontconfig
rejects the name the font keeps its sizes and its pattern stays freed. -/
def config_font_parse (env : config_env) (pattern : List Char) (font : config_font) :
    config_font :=
  if env.fc_name_parse pattern then { pattern := some pattern, sizes_of := pattern }
  else { font with pattern := none }

/-- The chain of `strcasecmp` tests on the value of `layer`. -/
def layer_of_value (value : List Char) : Option layer_shell_layer :=
  if strcasecmp_eq value "background" then some layer_shell_layer.LAYER_BACKGROUND
  else if strcasecmp_eq value "top" then some layer_shell_layer.LAYER_TOP
  else if strcasecmp_eq value "bottom" then some layer_shell_layer.LAYER_BOTTOM
  else if strcasecmp_eq value "overlay" then some layer_shell_layer.LAYER_OVERLAY
  else none

/-- The chain of `strcasecmp` tests on the value of `progress-style`. -/
def style_of_value (value : List Char) : Option progress_style :=
  if strcasecmp_eq value "bar" then some progress_style.PROGRESS_STYLE_BAR
  else if strcasecmp_eq value "background" then some progress_style.PROGRESS_STYLE_BACKGROUND
  else none

/-- A string option: `strlen(value) > 0 ? strdup(value) : NULL`. -/
def nonempty_or_null (value : List Char) : Option (List Char) :=
  if value.length > 0 then some value else none

/-- `parse_section_urgency`: one `key=value` line of a `[low]`, `[normal]` or
`[critical]` section; `none` is the return value `false`. The test for
`progress-style` sits inside the branch of the key `layer`, after the four
layer names, as in the source. -/
def parse_section_urgency (env : config_env) (key : String) (value : List Char)
    (conf : urgency_config) : Option urgency_config :=
  if key = "layer" then
    match layer_of_value value with
    | some layer => some { conf with layer := layer }
    | none =>
      if key = "progress-style" then
        match style_of_value value with
        | some style =>
          some { conf with progress_style := style, layer := layer_shell_layer.LAYER_BACKGROUND }
        | none => none
      else none
  else if key = "background" then
    (str_to_color value).map (fun c => { conf with bg := c })
  else if key = "border-color" then
    (str_to_color value).map (fun c => { conf with border_color := c })
  else if key = "border-radius" then
    (str_to_ulong value 10).map (fun (v : Nat) => { conf with border_radius := to_int v })
  else if key = "border-size" then
    (str_to_ulong value 10).map (fun (v : Nat) => { conf with border_size := to_int v })
  else if key = "padding-vertical" then
    (str_to_ulong value 10).map (fun (v : Nat) => { conf with padding_vertical := to_int v })
  else if key = "padding-horizontal" then
    (str_to_ulong value 10).map (fun (v : Nat) => { conf with padding_horizontal := to_int v })
  else if key = "title-font" then
    some { conf with app_font := config_font_parse env value conf.app_font }
  else if key = "summary-font" then
    some { conf with summary_font := config_font_parse env value conf.summary_font }
  else if key = "body-font" then
    some { conf with body_font := config_font_parse env value conf.body_font }
  else if key = "action-font" then
    some { conf with action_font := config_font_parse env value conf.action_font }
  else if key = "title-color" then
    (str_to_color value).map (fun c => { conf with app_color := c })
  else if key = "summary-color" then
    (str_to_color value).map (fun c => { conf with summary_color := c })
  else if key = "body-color" then
    (str_to_color value).map (fun c => { conf with body_color := c })
  else if key = "action-color" then
    (str_to_color value).map (fun c => { conf with action_color := c })
  else if key = "title-format" then
    some { conf with app_format := some (ambstoc32 value) }
  else if key = "summary-format" then
    some { conf with summary_format := some (ambstoc32 value) }
  else if key = "body-format" then
    some { conf with body_format := some (ambstoc32 value) }
  else if key = "progress-color" ∨ key = "progress-bar-color" then
    (str_to_color value).map (fun c => { conf with progress_color := c })
  else if key = "progress-bar-height" then
    (str_to_ulong value 10).map (fun (v : Nat) => { conf with progress_height := to_int v })
  else if key = "max-timeout" then
    (str_to_ulong value 10).map (fun (v : Nat) => { conf with max_timeout_secs := to_int v })
  else if key = "default-timeout" then
    (str_to_ulong value 10).map (fun (v : Nat) => { conf with default_timeout_secs := to_int v })
  else if key = "idle-timeout" then
    (str_to_ulong value 10).map (fun (v : Nat) => { conf with idle_timeout_secs := to_int v })
  else if key = "sound-file" then
    some { conf with sound_file := nonempty_or_null value }
  else if key = "icon" then
    some { conf with icon := nonempty_or_null value }
  else none

/-- The loops `for (int i = 0; i < 3; i++)` of `parse_section_main`: the same
assignment to each element of `by_urgency`. -/
def each_urgency (conf : config) (f : urgency_config → urgency_config) : config :=
  { conf with low := f conf.low, normal := f conf.normal, critical := f conf.critical }

/-- The chain of `strcasecmp` tests on the value of `anchor`. -/
def anchor_of_value (value : List Char) : Option anchor :=
  if strcasecmp_eq value "top-left" then some anchor.ANCHOR_TOP_LEFT
  else if strcasecmp_eq value "top-right" then some anchor.ANCHOR_TOP_RIGHT
  else if strcasecmp_eq value "bottom-left" then some anchor.ANCHOR_BOTTOM_LEFT
  else if strcasecmp_eq value "bottom-right" then some anchor.ANCHOR_BOTTOM_RIGHT
  else if strcasecmp_eq value "center" then some anchor.ANCHOR_CENTER
  else none

/-- The chain of `strcasecmp` tests on the value of `scaling-filter`. -/
def filter_of_value (value : List Char) : Option scaling_filter :=
  if strcasecmp_eq value "none" then some scaling_filter.SCALING_FILTER_NONE
  else if strcasecmp_eq value "nearest" then some scaling_filter.SCALING_FILTER_NEAREST
  else if strcasecmp_eq value "bilinear" then some scaling_filter.SCALING_FILTER_BILINEAR
  else if strcasecmp_eq value "cubic" then some scaling_filter.SCALING_FILTER_CUBIC
  else if strcasecmp_eq value "lanczos3" then some scaling_filter.SCALING_FILTER_LANCZOS3
  else none

/-- The chain of `strcasecmp` tests on the value of `stacking-order`. -/
def stacking_of_value (value : List Char) : Option stacking_order :=
  if strcasecmp_eq value "bottom-up" then some stacking_order.STACK_BOTTOM_UP
  else if strcasecmp_eq value "top-down" then some stacking_order.STACK_TOP_DOWN
  else none

/-- `parse_section_main`: one `key=value` line of the `[main]` section; `none`
is the return value `false`. -/
def parse_section_main (env : config_env) (key : String) (value : List Char) (conf : config) :
    Option config :=
  if key = "output" then some { conf with output := some value }
  else if key = "max-width" then
    (str_to_ulong value 10).map (fun (v : Nat) => { conf with max_width := to_int v })
  else if key = "min-width" then
    (str_to_ulong value 10).map (fun (v : Nat) => { conf with min_width := to_int v })
  else if key = "max-height" then
    (str_to_ulong value 10).map (fun (v : Nat) => { conf with max_height := to_int v })
  else if key = "dpi-aware" then
    (str_to_bool value).map (fun b => { conf with dpi_aware := b })
  else if key = "icon-theme" then some { conf with icon_theme_name := some value }
  else if key = "max-icon-size" then
    (str_to_ulong value 10).map (fun (v : Nat) => { conf with max_icon_size := to_int v })
  else if key = "stacking-order" then
    (stacking_of_value value).map (fun o => { conf with stacking_order := o })
  else if key = "layer" then
    (layer_of_value value).map (fun l => each_urgency conf (fun u => { u with layer := l }))
  else if key = "anchor" then
    (anchor_of_value value).map (fun a => { conf with anchor := a })
  else if key = "edge-margin-vertical" then
    (str_to_ulong value 10).map (fun (v : Nat) => { conf with margins_vertical := to_int v })
  else if key = "edge-margin-horizontal" then
    (str_to_ulong value 10).map (fun (v : Nat) => { conf with margins_horizontal := to_int v })
  else if key = "notification-margin" then
    (str_to_ulong value 10).map (fun (v : Nat) => { conf with margins_between := to_int v })
  else if key = "selection-helper" then some { conf with selection_helper := some value }
  else if key = "selection-helper-uses-null-separator" then
    (str_to_bool value).map (fun b => { conf with selection_helper_uses_null_separator := b })
  else if key = "play-sound" then
    (str_to_spawn_template env value).map (fun t => { conf with play_sound := t })
  else if key = "scaling-filter" then
    (filter_of_value value).map (fun f => { conf with scaling_filter := f })
  else if key = "background" then
    (str_to_color value).map (fun c => each_urgency conf (fun u => { u with bg := c }))
  else if key = "border-color" then
    (str_to_color value).map (fun c => each_urgency conf (fun u => { u with border_color := c }))
  else if key = "border-radius" then
    (str_to_ulong value 10).map
      (fun (v : Nat) => each_urgency conf (fun u => { u with border_radius := to_int v }))
  else if key = "border-size" then
    (str_to_ulong value 10).map
      (fun (v : Nat) => each_urgency conf (fun u => { u with border_size := to_int v }))
  else if key = "padding-vertical" then
    (str_to_ulong value 10).map
      (fun (v : Nat) => each_urgency conf (fun u => { u with padding_vertical := to_int v }))
  else if key = "padding-horizontal" then
    (str_to_ulong value 10).map
      (fun (v : Nat) => each_urgency conf (fun u => { u with padding_horizontal := to_int v }))
  else if key = "title-font" then
    some (each_urgency conf (fun u => { u with app_font := config_font_parse env value u.app_font }))
  else if key = "summary-font" then
    some (each_urgency conf
      (fun u => { u with summary_font := config_font_parse env value u.summary_font }))
  else if key = "body-font" then
    some (each_urgency conf
      (fun u => { u with body_font := config_font_parse env value u.body_font }))
  else if key = "action-font" then
    some (each_urgency conf
      (fun u => { u with action_font := config_font_parse env value u.action_font }))
  else if key = "title-color" then
    (str_to_color value).map (fun c => each_urgency conf (fun u => { u with app_color := c }))
  else if key = "summary-color" then
    (str_to_color value).map (fun c => each_urgency conf (fun u => { u with summary_color := c }))
  else if key = "body-color" then
    (str_to_color value).map (fun c => each_urgency conf (fun u => { u with body_color := c }))
  else if key = "action-color" then
    (str_to_color value).map (fun c => each_urgency conf (fun u => { u with action_color := c }))
  else if key = "title-format" then
    some (each_urgency conf (fun u => { u with app_format := some (ambstoc32 value) }))
  else if key = "summary-format" then
    some (each_urgency conf (fun u => { u with summary_format := some (ambstoc32 value) }))
  else if key = "body-format" then
    some (each_urgency conf (fun u => { u with body_format := some (ambstoc32 value) }))
  else if key = "progress-color" ∨ key = "progress-bar-color" then
    (str_to_color value).map
      (fun c => each_urgency conf (fun u => { u with progress_color := c }))
  else if key = "progress-bar-height" then
    (str_to_ulong value 10).map
      (fun (v : Nat) => each_urgency conf (fun u => { u with progress_height := to_int v }))
  else if key = "progress-style" then
    (style_of_value value).map
      (fun s => each_urgency conf (fun u => { u with progress_style := s }))
  else if key = "max-timeout" then
    (str_to_ulong value 10).map
      (fun (v : Nat) => each_urgency conf (fun u => { u with max_timeout_secs := to_int v }))
  else if key = "default-timeout" then
    (str_to_ulong value 10).map
      (fun (v : Nat) => each_urgency conf (fun u => { u with default_timeout_secs := to_int v }))
  else if key = "idle-timeout" then
    (str_to_ulong value 10).map
      (fun (v : Nat) => each_urgency conf (fun u => { u with idle_timeout_secs := to_int v }))
  else if key = "sound-file" then
    some (each_urgency conf (fun u => { u with sound_file := nonempty_or_null value }))
  else if key = "icon" then
    some (each_urgency conf (fun u => { u with icon := nonempty_or_null value }))
  else none

/-- The `enum section` of `config.c` (`section` is a reserved word here). -/
inductive config_section
  | SECTION_MAIN
  | SECTION_LOW
  | SECTION_NORMAL
  | SECTION_CRITICAL
  deriving DecidableEq, Repr

/-- The loop over `section_names`: the section a header names, if any. -/
def section_of_name (name : List Char) : Option config_section :=
  if name = "main".toList then some config_section.SECTION_MAIN
  else if name = "low".toList then some config_section.SECTION_LOW
  else if name = "normal".toList then some config_section.SECTION_NORMAL
  else if name = "critical".toList then some config_section.SECTION_CRITICAL
  else none

/-- The `section_parser_map`: `parse_section_main`, `parse_section_low`,
`parse_section_normal` and `parse_section_critical`. -/
def section_parser_map (env : config_env) (sec : config_section) (key : String)
    (value : List Char) (conf : config) : Option config :=
  match sec with
  | config_section.SECTION_MAIN => parse_section_main env key value conf
  | config_section.SECTION_LOW =>
    (parse_section_urgency env key value conf.low).map (fun u => { conf with low := u })
  | config_section.SECTION_NORMAL =>
    (parse_section_urgency env key value conf.normal).map (fun u => { conf with normal := u })
  | config_section.SECTION_CRITICAL =>
    (parse_section_urgency env key value conf.critical).map
      (fun u => { conf with critical := u })

/-- What one line of the file is, once stripped: nothing (empty or a
comment); a section header; a header without `]` or with an unknown name; a
`key=value` pair; or a line without a key or whose key starts with white
space, which the source asserts against. -/
inductive config_line
  | blank
  | header (sec : config_section)
  | bad_header
  | pair (key : String) (value : List Char)
  | bad_pair
  deriving DecidableEq, Repr

/-- The part of the loop body of `parse_config_file_section` that takes a
line apart: white space is stripped, `strtok(line, "#")` cuts a trailing
comment, a line starting with `[` is a header, and otherwise
`strtok(key_value, "=")` gives the key and the rest of the line the value. -/
def split_line (raw : List Char) : config_line :=
  let line := rstrip (raw.dropWhile isspace)
  if line = [] ∨ line.head? = some '#' then config_line.blank
  else
    let key_value := line.takeWhile (fun c => c != '#')
    if key_value.head? = some '[' then
      if key_value.contains ']' then
        match section_of_name (key_value.tail.takeWhile (fun c => c != ']')) with
        | some s => config_line.header s
        | none => config_line.bad_header
      else config_line.bad_header
    else
      let kv := key_value.dropWhile (fun c => c == '=')
      if kv = [] then config_line.bad_pair
      else
        let key := kv.takeWhile (fun c => c != '=')
        let rest := (kv.dropWhile (fun c => c != '=')).tail
        if isspace (key.headD '\x00') then config_line.bad_pair
        else config_line.pair (String.mk (rstrip key)) (rstrip (rest.dropWhile isspace))

/-- The `while (true)` loop of `parse_config_file_section` over the lines of
the file, reading without error; `none` is `goto err`. A header is checked in
every pass; a pair is taken apart and handed to the section parser only
while inside the target section, and a failed assertion counts as an
error. -/
def section_loop (env : config_env) (target_sec : config_section) :
    Bool → List (List Char) → config → Option config
  | _, [], conf => some conf
  | inside_target_sec, raw :: rest, conf =>
    match split_line raw with
    | config_line.blank => section_loop env target_sec inside_target_sec rest conf
    | config_line.header s => section_loop env target_sec (decide (s = target_sec)) rest conf
    | config_line.bad_header => none
    | config_line.bad_pair =>
      if inside_target_sec then none
      else section_loop env target_sec inside_target_sec rest conf
    | config_line.pair key value =>
      if inside_target_sec then
        match section_parser_map env target_sec key value conf with
        | none => none
        | some conf' => section_loop env target_sec inside_target_sec rest conf'
      else section_loop env target_sec inside_target_sec rest conf

/-- `parse_config_file_section`: one pass over the file for `target_sec`;
the pass for the main section starts inside it. -/
def parse_config_file_section (env : config_env) (lines : List (List Char)) (conf : config)
    (target_sec : config_section) : Option config :=
  section_loop env target_sec (decide (target_sec = config_section.SECTION_MAIN)) lines conf

/-- `parse_config_file`: the file is rewound and read once for each section,
in the order main, low, normal, critical; `none` is the return value
`false`. -/
def parse_config_file (env : config_env) (lines : List (List Char)) (conf : config) :
    Option config :=
  ((((parse_config_file_section env lines conf config_section.SECTION_MAIN).bind
    (fun c => parse_config_file_section env lines c config_section.SECTION_LOW)).bind
    (fun c => parse_config_file_section env lines c config_section.SECTION_NORMAL)).bind
    (fun c => parse_config_file_section env lines c config_section.SECTION_CRITICAL))

/-- An environment in which fontconfig accepts every name and a command line
is split at its spaces. -/
def plain_env : config_env :=
  { fc_name_parse := fun _ => true
    tokenize := fun s => some ((s.splitOn ' ').filter (fun w => w ≠ [])) }

/-- The existing notification a request replaces: the one carrying the
request's sync tag, else the one whose id is a non-zero `replaces_id`. -/
def replaced_notif (mgr : notif_mgr) (replaces_id : Nat) (sync_tag : Option String) :
    Option Nat :=
  match notif_mgr_get_notif_for_sync_tag mgr sync_tag with
  | some i => some i
  | none => if replaces_id ≠ 0 then notif_mgr_get_notif mgr replaces_id else none

/-- A well-formed request with the given `replaces_id` and one action. -/
def action_msg (replaces_id : Nat) (id label : String) : notify_msg :=
  { plain_msg replaces_id [] with actions := some [some id, some label] }

/-- The manager after a first request carrying the action "default". -/
def opened_mgr : notif_mgr := (notify notif_mgr_new (action_msg 0 "default" "Open")).mgr

/-! ## Command templates

`spawn_expand_template` of `spawn.c`. A C string is the list of its characters
before the terminator; a `char *` into a string is the rest of the string from
that point on. -/

/-- `strstr(s, needle)`: the offset of the first occurrence of `needle` in
`s`, `none` for NULL. -/
def strstr : List Char → List Char → Option Nat
  | [], needle => if needle = [] then some 0 else none
  | c :: rest, needle =>
    if needle.isPrefixOf (c :: rest) then some 0
    else (strstr rest needle).map (fun (k : Nat) => k + 1)

/-- The loop over the keys in `spawn_expand_template`: the value of the first
key `j` with `strncmp(start, key_names[j], end - start) == 0`; `none` when the
loop ends with `valid_key` false. The two arrays are given as a list of
`(key_names[j], key_values[j])`. -/
def expand_key (start : List Char) (n : Nat) :
    List (List Char × List Char) → Option (List Char)
  | [] => none
  | (name, value) :: keys =>
    if strncmp_eq start name n then some value else expand_key start n keys

/-- The `while ((start = strstr(last_end, "$\x7b")) != NULL)` loop of
`spawn_expand_template` together with the final `append`, for one argument:
`last_end` is the text not yet consumed and `expanded` the output so far. The
first argument bounds the number of iterations; `none` when it is exhausted. -/
def template_loop (keys : List (List Char × List Char)) :
    Nat → List Char → List Char → Option (List Char)
  | 0, _, _ => none
  | fuel + 1, last_end, expanded =>
    match strstr last_end "$\x7b".toList with
    | none => some (expanded ++ last_end)
    | some ofs =>
      let expanded := expanded ++ last_end.take ofs
      let start := last_end.drop (ofs + 2)
      match strstr start "\x7d".toList with
      | none => some (expanded ++ last_end.drop ofs)
      | some e =>
        let expanded :=
          match expand_key start e keys with
          | some value => expanded ++ value
          | none => expanded ++ (last_end.drop ofs).take (e + 3)
        template_loop keys fuel (start.drop (e + 1)) expanded

/-- One iteration of the loop `for (size_t i = 0; i < *argc; i++)`: the
expansion of one template argument. Each iteration of the inner loop consumes
at least three characters, so the length of the argument bounds it. -/
def expand_arg (keys : List (List Char × List Char)) (arg : List Char) :
    Option (List Char) :=
  template_loop keys (arg.length + 1) arg []

/-- The function `spawn_expand_template`: the expanded `argv`, one entry per
template argument. -/
def spawn_expand_template (keys : List (List Char × List Char)) :
    List (List Char) → Option (List (List Char))
  | [] => some []
  | arg :: template =>
    match expand_arg keys arg with
    | none => none
    | some expanded =>
      (spawn_expand_template keys template).map (fun argv => expanded :: argv)

/-- The template expansion on strings. -/
def expand_template (template : List String) (keys : List (String × String)) :
    Option (List String) :=
  (spawn_expand_template (keys.map (fun kv => (kv.1.toList, kv.2.toList)))
    (template.map String.toList)).map (fun argv => argv.map String.mk)

/-! ## Images

The image fields of `struct notif` and `notif_set_image_internal`. The pixman
image is represented by its width and height; the transform and the filter
the function sets on it do not change the fields and are left out. -/

/-- The fields `pix`, `image_width`, `image_height` and `image_is_custom` of
`struct notif`; `pix` is `none` for NULL and else the width and height that
`pixman_image_get_width` and `pixman_image_get_height` report. -/
structure notif_image where
  pix : Option (Int × Int)
  image_width : Int
  image_height : Int
  image_is_custom : Bool
  deriving DecidableEq, Repr

/-- The function `notif_reset_image`. -/
def notif_reset_image (img : notif_image) : notif_image :=
  if img.pix = none then img
  else { img with pix := none, image_is_custom := false }

/-- The function `notif_set_image_internal`, with `max_size` the
`max_icon_size` of the configuration. `scale_w` and `scale_h` are quotients of
two `int`s, hence integer quotients, stored in a `double`;
`image_width /= scale` divides in `double` and converts back to `int`, which
for `int` operands is the quotient truncated towards zero. The result is
`none` when `scale` is zero, where that conversion is undefined. -/
def notif_set_image_internal (max_size : Int) (img : notif_image) (pix : Int × Int)
    (custom : Bool) : Option notif_image :=
  let img := notif_reset_image img
  let img := { img with image_is_custom := custom, pix := some pix,
                        image_width := pix.1, image_height := pix.2 }
  if max_size = 0 then some (notif_reset_image img)
  else if img.image_width ≤ max_size ∧ img.image_height ≤ max_size then some img
  else
    let scale_w := Int.tdiv img.image_width max_size
    let scale_h := Int.tdiv img.image_height max_size
    let scale := if scale_w > scale_h then scale_w else scale_h
    if scale = 0 then none
    else some { img with image_width := Int.tdiv img.image_width scale,
                         image_height := Int.tdiv img.image_height scale }

/-- The function `notif_set_image`. -/
def notif_set_image (max_size : Int) (img : notif_image) (pix : Int × Int) :
    Option notif_image :=
  notif_set_image_internal max_size img pix true

/-- The image fields of a notification without an image. -/
def no_image : notif_image :=
  { pix := none, image_width := 0, image_height := 0, image_is_custom := false }

/-! ## Idle events (`wayland.c`) -/

/-- The assignment `timer->seat->is_idle[timer->urgency] = v` of `idle_idled`
and `idle_resumed`, for the seat at position `seat_idx` of the list of seats. -/
def set_is_idle (seats : List seat) (seat_idx : Nat) (u : urgency) (v : Bool) : List seat :=
  match seats[seat_idx]? with
  | none => seats
  | some s => seats.set seat_idx { s with is_idle := s.is_idle.set u v }

/-- The loop of `notif_mgr_notifs_reload_timeout`, with the outcome of
`notif_reload_timeout` for each notification in list order. The program stops
at an out-of-bounds read or a failed assertion, which then is the last
outcome. -/
def notifs_reload_timeout (conf : config) (seats : List seat) (timer_ok : Bool) :
    List notif → List reload_result
  | [] => []
  | n :: rest =>
    match notif_reload_timeout conf seats n timer_ok with
    | reload_result.done ret timer =>
      reload_result.done ret timer :: notifs_reload_timeout conf seats timer_ok rest
    | fault => [fault]

/-- The function `notif_mgr_notifs_reload_timeout`. -/
def notif_mgr_notifs_reload_timeout (conf : config) (seats : List seat) (mgr : notif_mgr)
    (timer_ok : Bool) : List reload_result :=
  notifs_reload_timeout conf seats timer_ok mgr.notifs

/-- The function `idle_idled` for the idle timer of urgency `u` of the seat at
`seat_idx`: the seats afterwards and the outcome of the reload for each
notification. -/
def idle_idled (conf : config) (seats : List seat) (mgr : notif_mgr) (seat_idx : Nat)
    (u : urgency) (timer_ok : Bool) : List seat × List reload_result :=
  let seats := set_is_idle seats seat_idx u true
  (seats, notif_mgr_notifs_reload_timeout conf seats mgr timer_ok)

/-- The function `idle_resumed` for the idle timer of urgency `u` of the seat
at `seat_idx`. -/
def idle_resumed (conf : config) (seats : List seat) (mgr : notif_mgr) (seat_idx : Nat)
    (u : urgency) (timer_ok : Bool) : List seat × List reload_result :=
  let seats := set_is_idle seats seat_idx u false
  (seats, notif_mgr_notifs_reload_timeout conf seats mgr timer_ok)

/-- The notification's urgency indexes `by_urgency` within the array, the two
configured timeouts of that level are between 0 and 2147483 seconds, and the
notification's timeout is -1 or at least 0. -/
def timeouts_in_range (conf : config) (n : notif) : Bool :=
  match by_urgency conf n.urgency with
  | none => false
  | some c =>
    decide (0 ≤ c.default_timeout_secs ∧ c.default_timeout_secs ≤ 2147483 ∧
      0 ≤ c.max_timeout_secs ∧ c.max_timeout_secs ≤ 2147483 ∧
      (n.timeout_ms = -1 ∨ 0 ≤ n.timeout_ms))

/-- The remaining duration of the specification: what is left of an effective
timeout of `effective` milliseconds once `elapsed` milliseconds have run. -/
def spec_remaining_ms (effective elapsed : Int) : Int :=
  effective - elapsed

/-- A manager with one notification of normal urgency that expires after the
default timeout. -/
def waiting_mgr : notif_mgr :=
  { notif_mgr_new with notifs := [{ notif_init 1 none with timeout_ms := -1 }], next_id := 2 }

/-! ## Text layout (`notification.c`)

`notif_layout` in its three parts: the loop that cuts the text at the tags
and rasterizes the pieces into glyph runs, the computation of the distance
from the first glyph of a word to the word's end, and the loop that places the
glyphs. The fcft library and the locale are parameters. A text is read
through `text[i]`, which is 0 at and after the terminator. Coordinates are
C `int`s, taken here without overflow. -/

/-- The fields of `struct fcft_glyph` the layout reads (`advance_x` is
`advance.x`). -/
structure fcft_glyph where
  cp : char32_t
  cols : Int
  advance_x : Int
  deriving DecidableEq, Repr

/-- The fields of `struct fcft_font` the layout reads. -/
structure fcft_font where
  name : String
  height : Int
  ascent : Int
  underline_position : Int
  underline_thickness : Int
  deriving DecidableEq, Repr

/-- The `struct font_set`; `none` is a NULL variant. -/
structure font_set where
  regular : fcft_font
  bold : Option fcft_font
  italic : Option fcft_font
  bold_italic : Option fcft_font
  deriving DecidableEq, Repr

/-- The `struct glyph_run`: `items` pairs `cluster[i]` with `glyphs[i]` for
`i < count`. -/
structure glyph_run where
  items : List (Nat × fcft_glyph)
  underline : Bool
  font : fcft_font
  deriving DecidableEq, Repr

/-- The `struct text_run_cache`; `run` holds the clusters and glyphs of the
cached run (the clusters already moved by `ofs`). -/
structure text_run_cache where
  hash : Nat
  font : fcft_font
  subpixel : Nat
  ofs : Nat
  run : List (Nat × fcft_glyph)
  deriving DecidableEq, Repr

/-- The `struct glyph_layout`, without the colour. -/
structure glyph_layout where
  glyph : fcft_glyph
  x : Int
  y : Int
  underline_draw : Bool
  underline_y : Int
  underline_thickness : Int
  deriving DecidableEq, Repr

/-- The fcft library: whether `fcft_capabilities()` has
`FCFT_CAPABILITY_TEXT_RUN_SHAPING`, `fcft_rasterize_char_utf32` (`none` for
NULL) and `fcft_rasterize_text_run_utf32` (`none` for NULL, else the clusters
and glyphs of the run). -/
structure fcft where
  text_run_shaping : Bool
  rasterize_char_utf32 : fcft_font → char32_t → Nat → Option fcft_glyph
  rasterize_text_run_utf32 : fcft_font → List char32_t → Nat → Option (List (Nat × fcft_glyph))

/-- The `LC_CTYPE` locale: `lower` is the lowercase letter the locale gives
for a letter (the letter itself when it gives none), `iswspace` is the
function of that name. -/
structure ctype where
  lower : char32_t → char32_t
  iswspace : char32_t → Bool

/-- The terminator and the characters `<`, `/` and `>`. -/
def is_mark (c : char32_t) : Bool :=
  c = 0 || c = 60 || c = 47 || c = 62

/-- The function `towlower` of the locale. It returns its argument unless
that is an uppercase letter for which the locale has a lowercase letter, which
it then returns. The terminator and the characters `<`, `/` and `>` are not
letters: they are returned as they are and are the lowercase of nothing. -/
def towlower (loc : ctype) (c : char32_t) : char32_t :=
  if is_mark c then c
  else if is_mark (loc.lower c) then c
  else loc.lower c

/-- `text[i]` for a terminated string. -/
def char_at (text : List char32_t) (i : Nat) : char32_t := text.getD i 0

/-- `wcsncasecmp(s1, s2, n) == 0`, through which `c32ncasecmp` goes: at most
`n` characters are compared after `towlower`, and the comparison stops after a
terminator. -/
def c32ncasecmp_eq (loc : ctype) : List char32_t → List char32_t → Nat → Bool
  | _, _, 0 => true
  | s1, s2, n + 1 =>
    let c1 := towlower loc (s1.headD 0)
    let c2 := towlower loc (s2.headD 0)
    if c1 ≠ c2 then false
    else if c1 = 0 then true
    else c32ncasecmp_eq loc s1.tail s2.tail n

/-- The function `sdbm_hash`, in `uint64_t` arithmetic; each character goes
through `int c`. -/
def sdbm_hash (s : List char32_t) : Nat :=
  s.foldl (fun (hash : Nat) (c : char32_t) =>
    ((to_int c + hash * 2 ^ 6 + hash * 2 ^ 16 - hash) % 2 ^ 64).toNat) 0

/-- The function `notify_rasterize_text_run`: the clusters and glyphs of the
run, and the cache afterwards. -/
def notify_rasterize_text_run (lib : fcft) (cache : List text_run_cache) (font : fcft_font)
    (subpixel : Nat) (text : List char32_t) (ofs : Nat) :
    List (Nat × fcft_glyph) × List text_run_cache :=
  let hash := sdbm_hash text
  match cache.find? (fun it =>
      decide (it.hash = hash ∧ it.font = font ∧ it.subpixel = subpixel ∧ it.ofs = ofs)) with
  | some it => (it.run, cache)
  | none =>
    match lib.rasterize_text_run_utf32 font text subpixel with
    | none => ([], cache)
    | some run =>
      let run := run.map (fun cg => (cg.1 + ofs, cg.2))
      (run, { hash := hash, font := font, subpixel := subpixel, ofs := ofs, run := run } :: cache)

/-- The loop of `notify_rasterize_glyphs` from index `i` on. -/
def rasterize_glyphs_loop (lib : fcft) (font : fcft_font) (subpixel : Nat) (ofs : Nat) :
    Nat → List char32_t → List (Nat × fcft_glyph)
  | _, [] => []
  | i, c :: cs =>
    match lib.rasterize_char_utf32 font c subpixel with
    | none => rasterize_glyphs_loop lib font subpixel ofs (i + 1) cs
    | some glyph => (ofs + i, glyph) :: rasterize_glyphs_loop lib font subpixel ofs (i + 1) cs

/-- The function `notify_rasterize_glyphs`. -/
def notify_rasterize_glyphs (lib : fcft) (font : fcft_font) (subpixel : Nat)
    (text : List char32_t) (ofs : Nat) : List (Nat × fcft_glyph) :=
  rasterize_glyphs_loop lib font subpixel ofs 0 text

/-- The function `notify_rasterize` for the `len` characters `text`. -/
def notify_rasterize (lib : fcft) (cache : List text_run_cache) (font : fcft_font)
    (subpixel : Nat) (text : List char32_t) (ofs : Nat) :
    List (Nat × fcft_glyph) × List text_run_cache :=
  if text.length = 0 then ([], cache)
  else if lib.text_run_shaping then notify_rasterize_text_run lib cache font subpixel text ofs
  else (notify_rasterize_glyphs lib font subpixel text ofs, cache)

/-- The test at the head of the first loop of `notif_layout`: `*wc` is the
terminator or one of the six tags starts at `wc` (`rest` is the text from `wc`
on). -/
def at_boundary (loc : ctype) (rest : List char32_t) : Bool :=
  rest.headD 0 = 0 ||
  c32ncasecmp_eq loc rest [60, 98, 62] 3 ||
  c32ncasecmp_eq loc rest [60, 105, 62] 3 ||
  c32ncasecmp_eq loc rest [60, 117, 62] 3 ||
  c32ncasecmp_eq loc rest [60, 47, 98, 62] 4 ||
  c32ncasecmp_eq loc rest [60, 47, 105, 62] 4 ||
  c32ncasecmp_eq loc rest [60, 47, 117, 62] 4

/-- The formatter state `bold`, `italic`, `underline` of `notif_layout`. -/
structure formatters where
  bold : Bool
  italic : Bool
  underline : Bool
  deriving DecidableEq, Repr

/-- "Select font based on formatters currently enabled". -/
def select_font (fonts : font_set) (f : formatters) : fcft_font :=
  let font : Option fcft_font :=
    if f.bold && f.italic then fonts.bold_italic
    else if f.bold then fonts.bold
    else if f.italic then fonts.italic
    else none
  match font with
  | none => fonts.regular
  | some font => font

/-- "Update formatter state", from `wc[1]` and `wc[2]`. -/
def update_formatters (f : formatters) (wc1 wc2 : char32_t) : formatters :=
  let new_value := if wc1 = 47 then false else true
  let formatter := if wc1 = 47 then wc2 else wc1
  let f := if formatter = 98 ∨ formatter = 66 then { f with bold := new_value } else f
  let f := if formatter = 105 ∨ formatter = 73 then { f with italic := new_value } else f
  if formatter = 117 ∨ formatter = 85 then { f with underline := new_value } else f

/-- The first loop of `notif_layout`, from the position `wc` on, where `rest`
is the text from `wc` on and `t` the position `_t`. The result is `none` when
`wc - _t` is computed with `wc` before `_t`. -/
def runs_loop (lib : fcft) (loc : ctype) (fonts : font_set) (subpixel : Nat)
    (text : List char32_t) :
    List char32_t → Nat → Nat → formatters → List glyph_run → List text_run_cache →
      Option (List glyph_run × List text_run_cache)
  | [], wc, t, f, runs, cache =>
    if wc < t then none
    else
      let font := select_font fonts f
      let r := notify_rasterize lib cache font subpixel ((text.drop t).take (wc - t)) t
      let runs :=
        if r.1.length > 0 then runs ++ [{ items := r.1, underline := f.underline, font := font }]
        else runs
      some (runs, r.2)
  | c :: cs, wc, t, f, runs, cache =>
    if ¬ at_boundary loc (c :: cs) then
      runs_loop lib loc fonts subpixel text cs (wc + 1) t f runs cache
    else if wc < t then none
    else
      let font := select_font fonts f
      let r := notify_rasterize lib cache font subpixel ((text.drop t).take (wc - t)) t
      let runs :=
        if r.1.length > 0 then runs ++ [{ items := r.1, underline := f.underline, font := font }]
        else runs
      if c = 0 then some (runs, r.2)
      else
        let f := update_formatters f (cs.headD 0) (cs.tail.headD 0)
        let t := wc + (if cs.headD 0 = 47 then 4 else 3)
        runs_loop lib loc fonts subpixel text cs (wc + 1) t f runs r.2

/-- The first loop of `notif_layout` for `text`: the glyph runs and the text
run cache afterwards. -/
def layout_runs (lib : fcft) (loc : ctype) (fonts : font_set) (subpixel : Nat)
    (text : List char32_t) (cache : List text_run_cache) :
    Option (List glyph_run × List text_run_cache) :=
  runs_loop lib loc fonts subpixel text text 0 0
    { bold := false, italic := false, underline := false } [] cache

/-- The loops `for (ssize_t j = ..., dist = 0; j >= 0; j--)` that walk back
over a word; the first argument is `j + 1`. `cluster` and `glyphs` are the
flat arrays. -/
def back_fill (loc : ctype) (text : List char32_t) (cluster : List Nat)
    (glyphs : List fcft_glyph) : Nat → Int → List Int → List Int
  | 0, _, distance => distance
  | j + 1, dist, distance =>
    if loc.iswspace (char_at text (cluster.getD j 0)) then distance
    else
      let distance :=
        if j = 0 ∨ (j > 0 ∧ loc.iswspace (char_at text (cluster.getD (j - 1) 0))) then
          distance.set j dist
        else distance
      match glyphs[j]? with
      | none => distance
      | some glyph => back_fill loc text cluster glyphs j (dist + glyph.advance_x) distance

/-- The loop "Loop glyph runs, looking for word boundaries" from the glyph
`idx` on; the list holds the clusters of the glyphs from `idx` on. -/
def distance_loop (loc : ctype) (text : List char32_t) (cluster : List Nat)
    (glyphs : List fcft_glyph) : Nat → List Nat → List Int → List Int
  | _, [], distance => distance
  | idx, c :: cs, distance =>
    let distance := distance.set idx 0
    if ¬ loc.iswspace (char_at text c) then
      distance_loop loc text cluster glyphs (idx + 1) cs distance
    else
      distance_loop loc text cluster glyphs (idx + 1) cs
        (back_fill loc text cluster glyphs idx 0 distance)

/-- The array `distance` of `notif_layout` for the glyph runs `runs`. -/
def word_distances (loc : ctype) (text : List char32_t) (runs : List glyph_run) : List Int :=
  let items := runs.flatMap (fun run => run.items)
  let cluster := items.map (fun cg => cg.1)
  let glyphs := items.map (fun cg => cg.2)
  let distance := distance_loop loc text cluster glyphs 0 cluster (List.replicate items.length 0)
  back_fill loc text cluster glyphs items.length 0 distance

/-- The variables of the last loop of `notif_layout`. -/
structure layout_state where
  x : Int
  y : Int
  width : Int
  height : Int
  idx : Nat
  glyph_list : List glyph_layout
  deriving DecidableEq, Repr

/-- The inner loop `for (size_t i = 0; i < run->count; i++, idx++)` of the
last loop of `notif_layout`, over the remaining glyphs of `run`. A `break`
leaves `idx` where it is. -/
def layout_run (loc : ctype) (text : List char32_t) (fonts : font_set) (max_width : Int)
    (left_pad right_pad max_y : Int) (distance : List Int) (run : glyph_run) :
    List (Nat × fcft_glyph) → layout_state → layout_state
  | [], st => st
  | (cl, glyph) :: rest, st =>
    let wc := char_at text cl
    let dist := distance.getD st.idx 0
    let wrap : Bool :=
      decide ((st.x > left_pad ∧ max_width > 0 ∧
        st.x + glyph.advance_x + dist + right_pad > max_width) ∨ wc = 10)
    let st :=
      if wrap then
        { st with width := max st.width (st.x + right_pad)
                  height := st.height + fonts.regular.height
                  x := left_pad
                  y := st.y + fonts.regular.height }
      else st
    if wrap && loc.iswspace wc then
      layout_run loc text fonts max_width left_pad right_pad max_y distance run rest
        { st with idx := st.idx + 1 }
    else if max_y ≥ 0 ∧ st.y + fonts.regular.height > max_y then st
    else if glyph.cols ≤ 0 then
      layout_run loc text fonts max_width left_pad right_pad max_y distance run rest
        { st with idx := st.idx + 1 }
    else
      layout_run loc text fonts max_width left_pad right_pad max_y distance run rest
        { st with
          glyph_list := st.glyph_list ++
            [{ glyph := glyph
               x := st.x
               y := st.y + run.font.ascent
               underline_draw := run.underline
               underline_y := st.y + run.font.ascent - run.font.underline_position
               underline_thickness := run.font.underline_thickness }]
          x := st.x + glyph.advance_x
          idx := st.idx + 1 }

/-- The result of `notif_layout`: `*width`, `*height`, the glyph list and the
text run cache. -/
structure layout_result where
  width : Int
  height : Int
  glyph_list : List glyph_layout
  cache : List text_run_cache
  deriving DecidableEq, Repr

/-- The part of `notif_layout` after the first loop: the distances and the
placement of the glyphs of `runs`. -/
def layout_glyphs (loc : ctype) (min_width max_width : Int) (fonts : font_set)
    (text : List char32_t) (left_pad right_pad y max_y : Int) (glyph_list : List glyph_layout)
    (runs : List glyph_run) : layout_state :=
  let distance := word_distances loc text runs
  let st : layout_state :=
    { x := left_pad, y := y, width := if min_width ≠ 0 then min_width else 0, height := 0,
      idx := 0, glyph_list := glyph_list }
  let st := runs.foldl (fun st run =>
    layout_run loc text fonts max_width left_pad right_pad max_y distance run run.items st) st
  { st with width := max st.width (st.x + right_pad)
            height := st.height + fonts.regular.height }

/-- The function `notif_layout`, with `min_width` and `max_width` of the
configuration; `none` as for `runs_loop`. -/
def notif_layout (lib : fcft) (loc : ctype) (min_width max_width : Int)
    (cache : List text_run_cache) (fonts : font_set) (subpixel : Nat) (text : List char32_t)
    (left_pad right_pad y max_y : Int) (glyph_list : List glyph_layout) :
    Option layout_result :=
  match layout_runs lib loc fonts subpixel text cache with
  | none => none
  | some (runs, cache) =>
    let st := layout_glyphs loc min_width max_width fonts text left_pad right_pad y max_y
      glyph_list runs
    some { width := st.width, height := st.height, glyph_list := st.glyph_list, cache := cache }

/-- The locale "C": the letters `A` to `Z` have the lowercase letters `a` to
`z`, and `iswspace` holds for the space and the characters 9 to 13. -/
def c_locale : ctype :=
  { lower := fun c => if 65 ≤ c ∧ c ≤ 90 then c + 32 else c
    iswspace := fun c => c = 32 || (9 ≤ c && c ≤ 13) }

/-- A font of height 20. -/
def plain_font (name : String) : fcft_font :=
  { name := name, height := 20, ascent := 15, underline_position := -2, underline_thickness := 1 }

/-- A font set with the four variants. -/
def four_fonts : font_set :=
  { regular := plain_font "regular", bold := some (plain_font "bold"),
    italic := some (plain_font "italic"), bold_italic := some (plain_font "bold italic") }

/-- An fcft without text-run shaping in which every character has a glyph of
one column and advance 10. -/
def fixed_fcft : fcft :=
  { text_run_shaping := false
    rasterize_char_utf32 := fun _ c _ => some { cp := c, cols := 1, advance_x := 10 }
    rasterize_text_run_utf32 := fun _ _ _ => none }

/-- The text of a string. -/
def c32 (s : String) : List char32_t := s.toList.map Char.toNat

/-- The sum of the advances of the glyphs `items`. -/
def adv_sum (items : List (Nat × fcft_glyph)) : Int :=
  (items.map (fun cg => cg.2.advance_x)).sum

/-- The glyphs `items` of `run` side by side on the line at `y`, the first one
at `x`. -/
def side_by_side (run : glyph_run) (y : Int) : Int → List (Nat × fcft_glyph) → List glyph_layout
  | _, [] => []
  | x, (_, glyph) :: rest =>
    { glyph := glyph
      x := x
      y := y + run.font.ascent
      underline_draw := run.underline
      underline_y := y + run.font.ascent - run.font.underline_position
      underline_thickness := run.font.underline_thickness } ::
      side_by_side run y (x + glyph.advance_x) rest

/-- No glyph of `items`, laid side by side from `x` on with the first one at
index `idx` of `distance`, meets the wrap condition of the layout loop. -/
def no_wrap (max_width left_pad right_pad : Int) (distance : List Int) :
    Int → Nat → List (Nat × fcft_glyph) → Prop
  | _, _, [] => True
  | x, idx, (_, glyph) :: rest =>
    ¬ (x > left_pad ∧ max_width > 0 ∧
        x + glyph.advance_x + distance.getD idx 0 + right_pad > max_width) ∧
    no_wrap max_width left_pad right_pad distance (x + glyph.advance_x) (idx + 1) rest

/-- The character `c` is folded to the lowercase of `b`, `i` or `u` exactly
when it is that letter in one of its two ASCII cases. -/
def letter_folds (loc : ctype) (c : char32_t) : Bool :=
  decide ((towlower loc c = towlower loc 98 ↔ (c = 98 ∨ c = 66)) ∧
    (towlower loc c = towlower loc 105 ↔ (c = 105 ∨ c = 73)) ∧
    (towlower loc c = towlower loc 117 ↔ (c = 117 ∨ c = 85)))

/-- Every character of the text is folded as `letter_folds` says. -/
def folds_as_ascii (loc : ctype) (text : List char32_t) : Bool :=
  text.all (letter_folds loc)

/-- The letter of a tag, in either case: `b`, `i` or `u`. -/
def spec_letter (c : char32_t) : Option char32_t :=
  if c = 98 ∨ c = 66 then some 98
  else if c = 105 ∨ c = 73 then some 105
  else if c = 117 ∨ c = 85 then some 117
  else none

/-- The tag of the specification at the head of a text, if there is one: its
length, its letter and whether it opens. The tags are `<b>`, `<i>`, `<u>`,
`</b>`, `</i>`, `</u>` in any letter case. -/
def spec_tag_at : List char32_t → Option (Nat × char32_t × Bool)
  | a :: b :: c :: rest =>
    if a = 60 ∧ c = 62 then (spec_letter b).map (fun l => (3, l, true))
    else if a = 60 ∧ b = 47 ∧ rest.headD 0 = 62 then (spec_letter c).map (fun l => (4, l, false))
    else none
  | _ => none

/-- The formatters after a tag with letter `l` that opens or closes. -/
def spec_apply (f : formatters) (l : char32_t) (opens : Bool) : formatters :=
  if l = 98 then { f with bold := opens }
  else if l = 105 then { f with italic := opens }
  else { f with underline := opens }

/-- The pieces of a text between the tags of the specification, each with the
formatters in force and its offset in the text; `seg` is the piece begun at
`ofs` and `rest` the text still to be read (at most `fuel` characters). -/
def spec_segments : Nat → formatters → Nat → List char32_t → List char32_t →
    List (formatters × Nat × List char32_t)
  | 0, f, ofs, seg, _ => [(f, ofs, seg)]
  | _ + 1, f, ofs, seg, [] => [(f, ofs, seg)]
  | fuel + 1, f, ofs, seg, c :: cs =>
    if c = 0 then [(f, ofs, seg)]
    else
      match spec_tag_at (c :: cs) with
      | some (len, l, opens) =>
        (f, ofs, seg) ::
          spec_segments fuel (spec_apply f l opens) (ofs + seg.length + len) [] ((c :: cs).drop len)
      | none => spec_segments fuel f ofs (seg ++ [c]) cs

/-- The font of the specification for a piece: bold-italic when both are on,
bold when only bold, italic when only italic, regular otherwise and when the
variant is missing. -/
def spec_font (fonts : font_set) (f : formatters) : fcft_font :=
  match f.bold, f.italic with
  | true, true => fonts.bold_italic.getD fonts.regular
  | true, false => fonts.bold.getD fonts.regular
  | false, true => fonts.italic.getD fonts.regular
  | false, false => fonts.regular

/-- The glyph runs of the specification: each piece is rasterized on its own
with its font, a piece without glyphs gives no run, and the glyphs of a run
are underlined iff underline is on. -/
def spec_runs (lib : fcft) (fonts : font_set) (subpixel : Nat) :
    List (formatters × Nat × List char32_t) → List text_run_cache →
      List glyph_run × List text_run_cache
  | [], cache => ([], cache)
  | (f, ofs, seg) :: more, cache =>
    let r := notify_rasterize lib cache (spec_font fonts f) subpixel seg ofs
    let rs := spec_runs lib fonts subpixel more r.2
    (if r.1 = [] then rs.1
      else { items := r.1, underline := f.underline, font := spec_font fonts f } :: rs.1,
     rs.2)

/-- The run `fixed_fcft` gives for a text without tags, in the regular font. -/
def fixed_run (s : String) : glyph_run :=
  { items := notify_rasterize_glyphs fixed_fcft (plain_font "regular") 0 (c32 s) 0
    underline := false
    font := plain_font "regular" }

/-- The locale "C" with, in addition, `i` as the lowercase of U+0130, its
simple lowercase mapping in Unicode (as in a UTF-8 locale). -/
def dotted_locale : ctype :=
  { lower := fun c => if c = 304 then 105 else c_locale.lower c
    iswspace := c_locale.iswspace }

/-- The locale "C" with, in addition, U+0131 as the lowercase of `I` (as in a
Turkish locale). -/
def dotless_locale : ctype :=
  { lower := fun c => if c = 73 then 305 else c_locale.lower c
    iswspace := c_locale.iswspace }

/-! ## Size of a notification (`notif_show`) -/

/-- The field `fonts` of `struct notif`. -/
structure notif_fonts where
  app : font_set
  summary : font_set
  body : font_set
  action : font_set
  deriving DecidableEq, Repr

/-- The value `FCFT_SUBPIXEL_NONE` of `enum fcft_subpixel`. -/
def FCFT_SUBPIXEL_NONE : Nat := 1

/-- The variables `width`, `height` and `glyphs` of `notif_show`, and the text
run cache of the notification. -/
structure show_state where
  width : Int
  height : Int
  glyphs : List glyph_layout
  cache : List text_run_cache
  deriving DecidableEq, Repr

/-- A text is laid out by `notif_show`: it is not NULL and not empty. -/
def is_shown (text : Option (List char32_t)) : Bool :=
  match text with
  | none => false
  | some t => char_at t 0 ≠ 0

/-- One of the three blocks `if (text != NULL && text[0] != U'\0')` of
`notif_show`, for the title, the summary or the body. -/
def show_text (lib : fcft) (loc : ctype) (conf : config) (fonts : font_set) (subpixel : Nat)
    (text : Option (List char32_t)) (indent pad_horizontal pad_vertical : Int)
    (st : show_state) : Option show_state :=
  match text with
  | none => some st
  | some t =>
    if char_at t 0 = 0 then some st
    else
      match notif_layout lib loc conf.min_width conf.max_width st.cache fonts subpixel t indent
          pad_horizontal st.height
          (if conf.max_height > 0 then conf.max_height - pad_vertical else -1) st.glyphs with
      | none => none
      | some r =>
        some { width := max st.width r.width, height := st.height + r.height,
               glyphs := r.glyph_list, cache := r.cache }

/-- The end of the size computation of `notif_show`, after the texts: the
image, the progress bar, the lower padding and the maximal height. -/
def show_finish (conf : config) (urgency : urgency_config) (n : notif) (img : notif_image)
    (body_height : Int) (width height : Int) : Int × Int :=
  let pad_horizontal := urgency.padding_horizontal
  let pad_vertical := urgency.padding_vertical
  let pbar_height := urgency.progress_height
  let height :=
    if img.pix ≠ none then max height (pad_vertical + img.image_height + pad_vertical)
    else height
  let width :=
    if img.pix ≠ none then max width (pad_horizontal + img.image_width + pad_horizontal)
    else width
  let bar : Bool :=
    decide (n.progress ≥ 0) && decide (urgency.progress_style = progress_style.PROGRESS_STYLE_BAR)
      && decide (conf.max_height = 0 ∨
        height + body_height + pbar_height ≤ conf.max_height - pad_vertical)
  let width := if bar then max width (3 * pad_horizontal) else width
  let height := if bar then height + (body_height + pbar_height) else height
  let height := height + pad_vertical
  let height := if conf.max_height > 0 then min height conf.max_height else height
  (width, height)

/-- The part of `notif_show` that computes `width` and `height`, up to the
scale rounding. The result is `none` for an urgency outside `by_urgency` and
as for `notif_layout`. -/
def notif_show_size (lib : fcft) (loc : ctype) (conf : config) (n : notif) (img : notif_image)
    (fonts : notif_fonts) (notif_subpixel : Nat) (cache : List text_run_cache) :
    Option (Int × Int) :=
  match by_urgency conf n.urgency with
  | none => none
  | some urgency =>
    let subpixel := if urgency.bg.alpha = 0xffff then notif_subpixel else FCFT_SUBPIXEL_NONE
    let pad_horizontal := urgency.padding_horizontal
    let pad_vertical := urgency.padding_vertical
    let indent :=
      if img.pix ≠ none then pad_horizontal + (img.image_width + pad_horizontal)
      else pad_horizontal
    let title := expand_format_string n urgency.app_format
    let summary := expand_format_string n urgency.summary_format
    let body := expand_format_string n urgency.body_format
    let st : show_state := { width := 0, height := pad_vertical, glyphs := [], cache := cache }
    match show_text lib loc conf fonts.app subpixel title indent pad_horizontal pad_vertical st with
    | none => none
    | some st =>
      match show_text lib loc conf fonts.summary subpixel summary indent pad_horizontal
          pad_vertical st with
      | none => none
      | some st =>
        match show_text lib loc conf fonts.body subpixel body indent pad_horizontal
            pad_vertical st with
        | none => none
        | some st =>
          some (show_finish conf urgency n img fonts.body.regular.height st.width st.height)

/-- The fonts of a notification, the same set for every text. -/
def same_fonts : notif_fonts :=
  { app := four_fonts, summary := four_fonts, body := four_fonts, action := four_fonts }

/-- The initial configuration with a minimal width of 200 and the formats
`%a`, `%s` and `%b` for all urgencies. -/
def bare_formats : config :=
  let level (u : urgency_config) : urgency_config :=
    { u with app_format := some (c32 "%a"), summary_format := some (c32 "%s"),
             body_format := some (c32 "%b") }
  { config_defaults with
    min_width := 200
    low := level config_defaults.low
    normal := level config_defaults.normal
    critical := level config_defaults.critical }

/-! ## Font names in a configuration file -/

theorem rscan_split (u : urgency) (r : List notif) :
    ∃ a b, r = a ++ b ∧ b.length = rscan u r ∧ (∀ y ∈ a, y.urgency < u) ∧
      (b = [] ∨ ∃ y b', b = y :: b' ∧ y.urgency ≥ u) := by
  induction r with
  | nil => exact ⟨[], [], rfl, rfl, by simp, Or.inl rfl⟩
  | cons n ns ih =>
    by_cases h : n.urgency ≥ u
    · exact ⟨[], n :: ns, rfl, by simp [rscan, h], by simp, Or.inr ⟨n, ns, rfl, h⟩⟩
    · obtain ⟨a, b, hab, hlen, ha, hb⟩ := ih
      refine ⟨n :: a, b, by simp [hab], by simp [rscan, h, hlen], ?_, hb⟩
      intro y hy
      rcases List.mem_cons.1 hy with rfl | hy
      · exact Nat.lt_of_not_le h
      · exact ha y hy

theorem stack_pos_split (u : urgency) (l : List notif) :
    ∃ l1 l2, l = l1 ++ l2 ∧ l1.length = stack_pos u l ∧ (∀ y ∈ l2, y.urgency < u) ∧
      (l1 = [] ∨ ∃ l1' y, l1 = l1' ++ [y] ∧ y.urgency ≥ u) := by
  obtain ⟨a, b, hab, hlen, ha, hb⟩ := rscan_split u l.reverse
  refine ⟨b.reverse, a.reverse, ?_, by simpa [stack_pos] using hlen, ?_, ?_⟩
  · have := congrArg List.reverse hab
    simpa using this
  · intro y hy
    exact ha y (List.mem_reverse.1 hy)
  · rcases hb with rfl | ⟨y, b', rfl, hy⟩
    · exact Or.inl rfl
    · exact Or.inr ⟨b'.reverse, y, by simp, hy⟩

theorem link_at_split (x : notif) (l1 l2 : List notif) :
    link_at l1.length x (l1 ++ l2) = l1 ++ x :: l2 := by
  simp [link_at]

theorem stack_pos_le (u : urgency) (l : List notif) : stack_pos u l ≤ l.length := by
  obtain ⟨l1, l2, hl, hlen, -, -⟩ := stack_pos_split u l
  rw [← hlen, hl]; simp

/-- Linking by urgency: the node lands after every item of urgency at least
its own and before the items of lower urgency that follow; on a sorted list
the result is sorted. -/
theorem stack_link_spec (x : notif) (l : List notif) :
    ∃ l1 l2, l = l1 ++ l2 ∧ l1.length = stack_pos x.urgency l ∧
      link_at (stack_pos x.urgency l) x l = l1 ++ x :: l2 ∧
      (∀ y ∈ l2, y.urgency < x.urgency) ∧
      (urgency_sorted l → (∀ y ∈ l1, y.urgency ≥ x.urgency) ∧ urgency_sorted (l1 ++ x :: l2)) := by
  obtain ⟨l1, l2, hl, hlen, h2, h1⟩ := stack_pos_split x.urgency l
  refine ⟨l1, l2, hl, hlen, ?_, h2, ?_⟩
  · rw [← hlen, hl, link_at_split]
  · intro hs
    have hge : ∀ y ∈ l1, y.urgency ≥ x.urgency := by
      rcases h1 with rfl | ⟨l1', y, rfl, hy⟩
      · simp
      · intro z hz
        rcases List.mem_append.1 hz with hz | hz
        · rw [hl] at hs
          have hp := (List.pairwise_append.1 (List.pairwise_append.1 hs).1).2.2
          exact le_trans hy (hp z hz y (by simp))
        · simp at hz; subst hz; exact hy
    refine ⟨hge, ?_⟩
    rw [hl] at hs
    unfold urgency_sorted at hs ⊢
    rw [List.pairwise_append] at hs ⊢
    refine ⟨hs.1, ?_, ?_⟩
    · rw [List.pairwise_cons]
      exact ⟨fun y hy => Nat.le_of_lt (h2 y hy), hs.2.1⟩
    · intro a ha b hb
      rcases List.mem_cons.1 hb with rfl | hb
      · exact hge a ha
      · exact hs.2.2 a ha b hb

theorem create_notif_cases (mgr : notif_mgr) (r : Nat) (t : Option String) :
    (∃ i, notif_mgr_create_notif mgr r t = (mgr, i)) ∨
    (notif_mgr_get_notif_for_sync_tag mgr t = none ∧
      ∃ id nid, notif_mgr_create_notif mgr r t =
        stack_new { mgr with next_id := nid } (notif_init id t)) := by
  cases h : notif_mgr_get_notif_for_sync_tag mgr t with
  | some i => exact Or.inl ⟨i, by simp [notif_mgr_create_notif, h]⟩
  | none =>
    by_cases hr : r ≠ 0
    · cases h2 : notif_mgr_get_notif mgr r with
      | some i => exact Or.inl ⟨i, by simp [notif_mgr_create_notif, h, h2, hr]⟩
      | none =>
        exact Or.inr ⟨rfl, r, mgr.next_id, by simp [notif_mgr_create_notif, h, h2, hr]⟩
    · exact Or.inr ⟨rfl, _, _, by simp [notif_mgr_create_notif, h, hr]; rfl⟩

theorem create_notif_order (mgr : notif_mgr) (r : Nat) (t : Option String)
    (hs : urgency_sorted mgr.notifs) :
    urgency_sorted (notif_mgr_create_notif mgr r t).1.notifs ∧
      ((notif_mgr_create_notif mgr r t).1.notifs = mgr.notifs ∨
        ∃ n l1 l2, mgr.notifs = l1 ++ l2 ∧
          (notif_mgr_create_notif mgr r t).1.notifs = l1 ++ n :: l2 ∧
          (notif_mgr_create_notif mgr r t).2 = l1.length ∧
          (∀ y ∈ l1, y.urgency ≥ n.urgency) ∧ (∀ y ∈ l2, y.urgency < n.urgency)) := by
  rcases create_notif_cases mgr r t with ⟨j, hj⟩ | ⟨-, id, nid, hc⟩
  · rw [hj]; exact ⟨hs, Or.inl rfl⟩
  · rw [hc]
    obtain ⟨l1, l2, hl, hlen, hlink, h2, h1⟩ :=
      stack_link_spec (notif_init id t) mgr.notifs
    have h1 := h1 hs
    simp only [stack_new]
    rw [hlink]
    exact ⟨h1.2, Or.inr ⟨_, l1, l2, hl, rfl, hlen.symm, h1.1, h2⟩⟩

theorem set_urgency_order (mgr : notif_mgr) (i : Nat) (u : urgency) (x : notif)
    (hs : urgency_sorted mgr.notifs) (hx : mgr.notifs[i]? = some x) :
    urgency_sorted (notif_set_urgency mgr i u).1.notifs ∧
      (x.urgency = u → (notif_set_urgency mgr i u).1.notifs = mgr.notifs) ∧
      (x.urgency ≠ u →
        ∃ l1 l2, mgr.notifs.eraseIdx i = l1 ++ l2 ∧
          (notif_set_urgency mgr i u).1.notifs = l1 ++ { x with urgency := u } :: l2 ∧
          (notif_set_urgency mgr i u).2 = l1.length ∧
          (∀ y ∈ l1, y.urgency ≥ u) ∧ (∀ y ∈ l2, y.urgency < u)) := by
  have hrest : urgency_sorted (mgr.notifs.eraseIdx i) :=
    List.Pairwise.sublist (List.eraseIdx_sublist _ _) hs
  by_cases hu : x.urgency = u
  · simp [notif_set_urgency, hx, hu, hs]
  · obtain ⟨l1, l2, hl, hlen, hlink, h2, h1⟩ :=
      stack_link_spec { x with urgency := u } (mgr.notifs.eraseIdx i)
    have h1 := h1 hrest
    by_cases hlen1 : mgr.notifs.length ≤ 1
    · have hi : i < mgr.notifs.length := by
        rcases List.getElem?_eq_some_iff.1 hx with ⟨h, -⟩; exact h
      have hi0 : i = 0 := by omega
      subst hi0
      cases hm : mgr.notifs with
      | nil => rw [hm] at hi; simp at hi
      | cons a as =>
        rw [hm] at hlen1 hx
        have has : as = [] := by
          cases as with
          | nil => rfl
          | cons b bs => simp at hlen1
        subst has
        simp at hx
        subst hx
        simp [notif_set_urgency, hm, hu, urgency_sorted]
        exact ⟨[], [], by simp⟩
    · simp only [notif_set_urgency, hx, hu, hlen1, if_false]
      rw [hlink]
      exact ⟨h1.2, fun h => absurd h (by simp), fun _ => ⟨l1, l2, hl, rfl, hlen.symm, h1.1, h2⟩⟩

/-! ### Dismiss all -/

theorem dismiss_all_loop_eq (ret : Bool) (l : List notif) :
    dismiss_all_loop ret l =
      ((l.filter (fun n => decide (n.deferred_dismissal ≠ DISMISS_IMMEDIATELY))).map
          (fun n => { n with deferred_dismissal := DISMISS_DELAYED }),
        ret,
        (l.filter (fun n => decide (n.deferred_dismissal = DISMISS_IMMEDIATELY))).map
          (fun n => event.NotificationClosed n.id 2)) := by
  induction l generalizing ret with
  | nil => rfl
  | cons n ns ih =>
    cases h : n.deferred_dismissal <;>
      simp [dismiss_all_loop, h, ih, notif_dismiss, dbus_signal_dismissed]
    · cases n; simp_all

/-- C10. `notif_mgr_dismiss_all` returns true; the list afterwards is the old
list restricted to the notifications whose `deferred_dismissal` was not
`DISMISS_IMMEDIATELY`, in the old order, each with the flag `DISMISS_DELAYED`
and nothing else changed; the signals are one `NotificationClosed(id, 2)` per
removed notification, in list order. -/
theorem notif_mgr_dismiss_all_spec (mgr : notif_mgr) :
    (notif_mgr_dismiss_all mgr).2.1 = true ∧
    (notif_mgr_dismiss_all mgr).1.notifs =
      (mgr.notifs.filter (fun n => decide (n.deferred_dismissal ≠ DISMISS_IMMEDIATELY))).map
        (fun n => { n with deferred_dismissal := DISMISS_DELAYED }) ∧
    (notif_mgr_dismiss_all mgr).2.2 =
      (mgr.notifs.filter (fun n => decide (n.deferred_dismissal = DISMISS_IMMEDIATELY))).map
        (fun n => event.NotificationClosed n.id 2) := by
  simp [notif_mgr_dismiss_all, dismiss_all_loop_eq]

/-! ### Sync tags -/

theorem tag_inv_of_sublist {l' l : List notif} (h : List.Sublist (tags l') (tags l))
    (hl : tag_inv l) : tag_inv l' :=
  List.Nodup.sublist (List.Sublist.filterMap id h) hl

theorem tags_of_shape {l' l : List notif} (h : List.Sublist (shape l') (shape l)) :
    List.Sublist (tags l') (tags l) := by
  have := List.Sublist.map Prod.fst h
  simpa [shape, tags, List.map_map, Function.comp_def] using this

theorem sorted_of_shape {l' l : List notif} (h : List.Sublist (shape l') (shape l))
    (hl : urgency_sorted l) : urgency_sorted l' := by
  have hm : ∀ l : List notif, urgency_sorted l ↔
      List.Pairwise (fun a b : Option String × urgency => a.2 ≥ b.2) (shape l) := by
    intro l
    simp [urgency_sorted, shape, List.pairwise_map]
  rw [hm] at hl ⊢
  exact List.Pairwise.sublist h hl

theorem shape_set (l : List notif) (i : Nat) (n n' : notif) (h : l[i]? = some n)
    (ht : n'.synchronous_tag = n.synchronous_tag) (hu : n'.urgency = n.urgency) :
    shape (l.set i n') = shape l := by
  induction l generalizing i with
  | nil => simp
  | cons a as ih =>
    cases i with
    | zero =>
      simp at h; subst h
      simp [shape, ht, hu]
    | succ i =>
      simp at h
      have := ih i h
      simp [shape] at this ⊢
      exact this

theorem shape_store_sub {mgr : notif_mgr} {i : Nat} {n n' : notif}
    (h : mgr.notifs[i]? = some n) (ht : n'.synchronous_tag = n.synchronous_tag)
    (hu : n'.urgency = n.urgency) :
    List.Sublist (shape (store mgr i n').notifs) (shape mgr.notifs) := by
  simp only [store]
  rw [shape_set mgr.notifs i n n' h ht hu]

theorem tags_set (l : List notif) (i : Nat) (n n' : notif) (h : l[i]? = some n)
    (ht : n'.synchronous_tag = n.synchronous_tag) : tags (l.set i n') = tags l := by
  induction l generalizing i with
  | nil => simp
  | cons a as ih =>
    cases i with
    | zero =>
      simp at h; subst h
      simp [tags, ht]
    | succ i =>
      simp at h
      have := ih i h
      simp [tags] at this ⊢
      exact this

theorem tags_store (mgr : notif_mgr) (i : Nat) (n n' : notif) (h : mgr.notifs[i]? = some n)
    (ht : n'.synchronous_tag = n.synchronous_tag) :
    tags (store mgr i n').notifs = tags mgr.notifs := by
  simpa [store] using tags_set mgr.notifs i n n' h ht

theorem tags_store_sub {mgr : notif_mgr} {i : Nat} {n n' : notif}
    (h : mgr.notifs[i]? = some n) (ht : n'.synchronous_tag = n.synchronous_tag) :
    List.Sublist (tags (store mgr i n').notifs) (tags mgr.notifs) := by
  rw [tags_store mgr i n n' h ht]

theorem find_sync_tag_none {t : String} {l : List notif} (h : find_sync_tag t l = none) :
    ∀ y ∈ l, y.synchronous_tag ≠ some t := by
  induction l with
  | nil => simp
  | cons a as ih =>
    intro y hy
    unfold find_sync_tag at h
    cases ha : a.synchronous_tag with
    | none =>
      rw [ha] at h
      simp at h
      rcases List.mem_cons.1 hy with rfl | hy
      · simp [ha]
      · exact ih h y hy
    | some s =>
      rw [ha] at h
      by_cases hs : s = t
      · simp [hs] at h
      · simp [hs] at h
        rcases List.mem_cons.1 hy with rfl | hy
        · simp [ha, hs]
        · exact ih h y hy

theorem getElem?_split {l : List notif} {i : Nat} {x : notif} (h : l[i]? = some x) :
    ∃ a b, l = a ++ x :: b ∧ a.length = i := by
  induction l generalizing i with
  | nil => simp at h
  | cons y ys ih =>
    cases i with
    | zero => simp at h; subst h; exact ⟨[], ys, rfl, rfl⟩
    | succ i =>
      simp at h
      obtain ⟨a, b, hab, hlen⟩ := ih h
      exact ⟨y :: a, b, by simp [hab], by simp [hlen]⟩

theorem eraseIdx_split (a b : List notif) (x : notif) :
    (a ++ x :: b).eraseIdx a.length = a ++ b := by
  induction a with
  | nil => simp
  | cons y ys ih => simp [ih]

theorem tag_inv_link (l : List notif) (k : Nat) (n : notif)
    (hn : ∀ t, n.synchronous_tag = some t → ∀ y ∈ l, y.synchronous_tag ≠ some t)
    (hl : tag_inv l) : tag_inv (link_at k n l) := by
  have hp : List.Perm (link_at k n l) (n :: l) := by
    unfold link_at
    refine List.Perm.trans List.perm_middle ?_
    rw [List.take_append_drop]
  have hp2 : List.Perm ((tags (link_at k n l)).filterMap id) ((tags (n :: l)).filterMap id) :=
    List.Perm.filterMap id (List.Perm.map _ hp)
  unfold tag_inv
  rw [List.Perm.nodup_iff hp2]
  cases ht : n.synchronous_tag with
  | none => simpa [tag_inv, tags, ht] using hl
  | some t =>
    have := hn t ht
    simp only [tags, List.map_cons, ht, List.filterMap_cons, id]
    rw [List.nodup_cons]
    refine ⟨?_, hl⟩
    intro hmem
    simp only [List.mem_filterMap, List.mem_map, id] at hmem
    obtain ⟨a, ⟨y, hy, hya⟩, hat⟩ := hmem
    exact this y hy (by rw [hya, hat])

theorem del_loop_shape {id : Nat} {l r : List notif} (h : del_loop id l = some r) :
    List.Sublist (shape r) (shape l) := by
  induction l generalizing r with
  | nil => simp [del_loop] at h
  | cons a as ih =>
    unfold del_loop at h
    by_cases ha : a.id ≠ id
    · rw [if_pos ha] at h
      cases hd : del_loop id as with
      | none => simp [hd] at h
      | some r' =>
        simp [hd] at h
        subst h
        simpa [shape] using ih hd
    · rw [if_neg ha] at h
      simp at h
      subst h
      simp [shape]

theorem dismiss_loop_shape {id : Nat} {l : List notif} {r : List notif × Bool × List event}
    (h : dismiss_loop id l = some r) : List.Sublist (shape r.1) (shape l) := by
  induction l generalizing r with
  | nil => simp [dismiss_loop] at h
  | cons a as ih =>
    unfold dismiss_loop at h
    by_cases ha : a.id ≠ id
    · rw [if_pos ha] at h
      cases hd : dismiss_loop id as with
      | none => simp [hd] at h
      | some r' =>
        simp [hd] at h
        subst h
        simpa [shape] using ih hd
    · rw [if_neg ha] at h
      cases hdd : a.deferred_dismissal <;> simp [hdd] at h <;> subst h <;> simp [shape]

theorem expire_loop_shape {id : Nat} {l : List notif} {r : List notif × Bool × List event}
    (h : expire_loop id l = some r) : List.Sublist (shape r.1) (shape l) := by
  induction l generalizing r with
  | nil => simp [expire_loop] at h
  | cons a as ih =>
    unfold expire_loop at h
    by_cases ha : a.id ≠ id
    · rw [if_pos ha] at h
      cases hd : expire_loop id as with
      | none => simp [hd] at h
      | some r' =>
        simp [hd] at h
        subst h
        simpa [shape] using ih hd
    · rw [if_neg ha] at h
      cases hdd : a.deferred_expiral <;> simp [hdd] at h <;> subst h <;> simp [shape]

theorem dismiss_all_loop_shape (ret : Bool) (l : List notif) :
    List.Sublist (shape (dismiss_all_loop ret l).1) (shape l) := by
  induction l generalizing ret with
  | nil => simp [dismiss_all_loop]
  | cons a as ih =>
    unfold dismiss_all_loop
    cases hdd : a.deferred_dismissal
    · simp only [shape, List.map_cons]
      exact List.Sublist.cons _ (ih _)
    · simp only [shape, List.map_cons]
      exact List.Sublist.cons₂ _ (ih _)
    · simp only [shape, List.map_cons]
      exact List.Sublist.cons₂ _ (ih _)

theorem dismiss_id_shape (mgr : notif_mgr) (id : Nat) :
    List.Sublist (shape (notif_mgr_dismiss_id mgr id).1.notifs) (shape mgr.notifs) := by
  unfold notif_mgr_dismiss_id notif_mgr_dismiss_id_internal
  by_cases h0 : id = 0
  · rw [if_pos h0]
    unfold notif_mgr_dismiss_current
    cases hl : mgr.notifs with
    | nil => simp [hl]
    | cons a as =>
      cases hdd : a.deferred_dismissal <;> simp [shape, hl, hdd]
  · rw [if_neg h0]
    cases hd : dismiss_loop id mgr.notifs with
    | none => simp
    | some r => simpa using dismiss_loop_shape hd

theorem expire_id_shape (mgr : notif_mgr) (id : Nat) :
    List.Sublist (shape (notif_mgr_expire_id mgr id).1.notifs) (shape mgr.notifs) := by
  unfold notif_mgr_expire_id
  by_cases h0 : id = 0
  · rw [if_pos h0]
    unfold notif_mgr_expire_current
    cases hl : mgr.notifs with
    | nil => simp [hl]
    | cons a as =>
      cases hdd : a.deferred_expiral <;> simp [shape, hl, hdd]
  · rw [if_neg h0]
    cases hd : expire_loop id mgr.notifs with
    | none => simp
    | some r => simpa using expire_loop_shape hd

theorem create_notif_tag_inv (mgr : notif_mgr) (r : Nat) (t : Option String)
    (h : tag_inv mgr.notifs) : tag_inv (notif_mgr_create_notif mgr r t).1.notifs := by
  rcases create_notif_cases mgr r t with ⟨j, hj⟩ | ⟨hnone, id, nid, hc⟩
  · rw [hj]; exact h
  · rw [hc]
    simp only [stack_new]
    apply tag_inv_link _ _ _ _ h
    intro s hs y hy
    have ht : t = some s := by simpa [notif_init] using hs
    subst ht
    exact find_sync_tag_none (by simpa [notif_mgr_get_notif_for_sync_tag] using hnone) y hy

theorem set_urgency_tag_inv (mgr : notif_mgr) (i : Nat) (u : urgency)
    (h : tag_inv mgr.notifs) : tag_inv (notif_set_urgency mgr i u).1.notifs := by
  unfold notif_set_urgency
  cases hx : mgr.notifs[i]? with
  | none => exact h
  | some x =>
    by_cases hu : x.urgency = u
    · simpa [hu] using h
    · by_cases hlen : mgr.notifs.length ≤ 1
      · simp only [hu, hlen, if_true, if_false]
        exact tag_inv_of_sublist (tags_store_sub hx rfl) h
      · simp only [hu, hlen, if_false]
        obtain ⟨a, b, hab, hlen'⟩ := getElem?_split hx
        have he : mgr.notifs.eraseIdx i = a ++ b := by
          rw [hab, ← hlen', eraseIdx_split]
        rw [he]
        have hsub : tag_inv (a ++ b) := by
          apply tag_inv_of_sublist _ h
          rw [hab]
          simp [tags]
        have hp : List.Perm ((tags (a ++ x :: b)).filterMap id)
            ((tags (x :: (a ++ b))).filterMap id) :=
          List.Perm.filterMap id (List.Perm.map _ List.perm_middle)
        have hx' : tag_inv (x :: (a ++ b)) := by
          unfold tag_inv
          rw [← List.Perm.nodup_iff hp, ← hab]
          exact h
        apply tag_inv_link _ _ _ _ hsub
        intro s hs y hy
        cases hxs : x.synchronous_tag with
        | none => simp [hxs] at hs
        | some s' =>
          simp only [hxs, Option.some.injEq] at hs
          subst hs
          unfold tag_inv at hx'
          simp only [tags, List.map_cons, hxs, List.filterMap_cons, id, List.nodup_cons] at hx'
          intro hys
          apply hx'.1
          simp only [List.mem_filterMap, List.mem_map, id]
          exact ⟨some s', ⟨y, hy, hys⟩, rfl⟩

theorem get_notif_some {mgr : notif_mgr} {id i : Nat} (h : notif_mgr_get_notif mgr id = some i) :
    i < mgr.notifs.length := by
  unfold notif_mgr_get_notif at h
  by_cases h0 : id = 0 ∧ mgr.notifs.length > 0
  · rw [if_pos h0] at h
    simp at h; omega
  · rw [if_neg h0] at h
    clear h0
    generalize mgr.notifs = l at h
    induction l generalizing i with
    | nil => simp [find_id] at h
    | cons a as ih =>
      unfold find_id at h
      by_cases ha : a.id = id
      · simp [ha] at h; subst h; simp
      · simp only [ha, if_false] at h
        cases hf : find_id id as with
        | none => simp [hf] at h
        | some j =>
          simp [hf] at h
          subst h
          have := ih hf
          simp; omega

theorem select_action_shape (mgr : notif_mgr) (i : Nat) (cb : notif_select_action_cb)
    (env : spawn_outcome) (r : notif_mgr × List event × Option action_async)
    (hr : notif_select_action mgr i cb env = some r)
    : List.Sublist (shape r.1.notifs) (shape mgr.notifs) := by
  unfold notif_select_action at hr
  cases hx : mgr.notifs[i]? with
  | none => simp [hx] at hr
  | some x =>
    have herr : ∀ n : notif, n.synchronous_tag = x.synchronous_tag → n.urgency = x.urgency →
        select_action_err mgr i n cb = some r →
          List.Sublist (shape r.1.notifs) (shape mgr.notifs) := by
      intro n hn hnu he
      unfold select_action_err at he
      cases hcb : cb (some n) none with
      | none => simp [hcb] at he
      | some evs =>
        simp [hcb] at he
        subst he
        exact shape_store_sub hx (by simpa using hn) (by simpa using hnu)
    simp only [hx] at hr
    by_cases ha : x.actions.length = 0
    · rw [if_pos ha] at hr
      exact herr x rfl rfl hr
    · rw [if_neg ha] at hr
      cases env with
      | err_before_fork => exact herr x rfl rfl (by simpa using hr)
      | err_in_parent =>
        exact herr { x with deferred_dismissal := DISMISS_DEFER, deferred_expiral := EXPIRE_DEFER }
          rfl rfl (by simpa using hr)
      | started =>
        simp at hr
        subst hr
        exact shape_store_sub hx rfl rfl

theorem action_reader_shape (mgr mgr' : notif_mgr) (async : action_async) (rd : read_result)
    (status : child_status) (cb : notif_select_action_cb) (trace : List event)
    (hr : fdm_action_reader mgr async rd status cb = reader_result.finished mgr' trace)
    : List.Sublist (shape mgr'.notifs) (shape mgr.notifs) := by
  unfold fdm_action_reader at hr
  cases rd with
  | eintr => simp at hr
  | error => simp at hr
  | data buf => simp at hr
  | eof =>
    simp only at hr
    split at hr
    · simp at hr
    · rename_i evs hcb
      split at hr
      · rename_i i n hi hn
        have hin : mgr.notifs[i]? = some n := by
          rw [hi] at hn
          simpa using hn
        split at hr
        · simp only [reader_result.finished.injEq] at hr
          rw [← hr.1]
          exact List.Sublist.trans (expire_id_shape _ _) (shape_store_sub hin rfl rfl)
        · split at hr
          · simp only [reader_result.finished.injEq] at hr
            rw [← hr.1]
            exact List.Sublist.trans (dismiss_id_shape _ _) (shape_store_sub hin rfl rfl)
          · simp only [reader_result.finished.injEq] at hr
            rw [← hr.1]
            exact shape_store_sub hin rfl rfl
      · simp at hr

/-- Every operation other than creation and re-stacking only removes nodes or
rewrites fields other than the sync tag and the urgency. -/
theorem step_shape {mgr mgr' : notif_mgr} {o : op} (hs : step mgr o = some mgr') :
    List.Sublist (shape mgr'.notifs) (shape mgr.notifs) ∨
    (∃ r t, mgr' = (notif_mgr_create_notif mgr r t).1) ∨
    (∃ i u, mgr' = (notif_set_urgency mgr i u).1) := by
  cases o with
  | create_notif r t =>
    simp only [step, Option.some.injEq] at hs
    exact Or.inr (Or.inl ⟨r, t, hs.symm⟩)
  | add_action i id label =>
    simp only [step] at hs
    split at hs
    · simp only [Option.some.injEq] at hs
      subst hs
      left
      unfold notif_add_action
      cases hx : mgr.notifs[i]? with
      | none => exact List.Sublist.refl _
      | some x => exact shape_store_sub hx rfl rfl
    · simp at hs
  | set_urgency i u =>
    simp only [step] at hs
    split at hs
    · simp only [Option.some.injEq] at hs
      exact Or.inr (Or.inr ⟨i, u, hs.symm⟩)
    · simp at hs
  | set_application i text =>
    simp only [step] at hs
    split at hs
    · simp only [Option.some.injEq] at hs
      subst hs
      left
      unfold notif_set_application
      cases hx : mgr.notifs[i]? with
      | none => exact List.Sublist.refl _
      | some x => exact shape_store_sub hx rfl rfl
    · simp at hs
  | set_progress i progress =>
    simp only [step] at hs
    split at hs
    · simp only [Option.some.injEq] at hs
      subst hs
      left
      unfold notif_set_progress
      cases hx : mgr.notifs[i]? with
      | none => exact List.Sublist.refl _
      | some x =>
        by_cases hp : x.progress = progress
        · simp [hp]
        · simp only [hp, if_false]
          exact shape_store_sub hx rfl rfl
    · simp at hs
  | set_timeout i timeout_ms =>
    simp only [step] at hs
    split at hs
    · simp only [Option.some.injEq] at hs
      subst hs
      left
      unfold notif_set_timeout
      cases hx : mgr.notifs[i]? with
      | none => exact List.Sublist.refl _
      | some x => exact shape_store_sub hx rfl rfl
    · simp at hs
  | del_notif id =>
    simp only [step, Option.some.injEq] at hs
    subst hs
    left
    unfold notif_mgr_del_notif
    by_cases h0 : id = 0
    · simp [h0]
    · rw [if_neg h0]
      cases hd : del_loop id mgr.notifs with
      | none => exact List.Sublist.refl _
      | some l => exact del_loop_shape hd
  | dismiss_id id =>
    simp only [step, Option.some.injEq] at hs
    subst hs
    exact Or.inl (dismiss_id_shape mgr id)
  | expire_id id =>
    simp only [step, Option.some.injEq] at hs
    subst hs
    exact Or.inl (expire_id_shape mgr id)
  | dismiss_all =>
    simp only [step, Option.some.injEq] at hs
    subst hs
    exact Or.inl (dismiss_all_loop_shape true mgr.notifs)
  | pause =>
    simp only [step, Option.some.injEq] at hs
    subst hs
    exact Or.inl (List.Sublist.refl _)
  | unpause =>
    simp only [step, Option.some.injEq] at hs
    subst hs
    exact Or.inl (List.Sublist.refl _)
  | select_action i tok env =>
    simp only [step] at hs
    cases hr : notif_select_action mgr i (actions_complete tok) env with
    | none => simp [hr] at hs
    | some r =>
      simp [hr] at hs
      subst hs
      exact Or.inl (select_action_shape mgr i _ env r hr)
  | action_reader async rd status tok =>
    simp only [step] at hs
    split at hs
    · rename_i m tr hr
      simp only [Option.some.injEq] at hs
      subst hs
      exact Or.inl (action_reader_shape mgr _ async rd status _ tr hr)
    · simp only [Option.some.injEq] at hs; subst hs; exact Or.inl (List.Sublist.refl _)
    · simp only [Option.some.injEq] at hs; subst hs; exact Or.inl (List.Sublist.refl _)
    · simp at hs

theorem step_tag_inv {mgr mgr' : notif_mgr} {o : op} (hs : step mgr o = some mgr')
    (h : tag_inv mgr.notifs) : tag_inv mgr'.notifs := by
  rcases step_shape hs with hsub | ⟨r, t, rfl⟩ | ⟨i, u, rfl⟩
  · exact tag_inv_of_sublist (tags_of_shape hsub) h
  · exact create_notif_tag_inv mgr r t h
  · exact set_urgency_tag_inv mgr i u h

theorem run_tag_inv {ops : List op} {mgr mgr' : notif_mgr} (hr : run mgr ops = some mgr')
    (h : tag_inv mgr.notifs) : tag_inv mgr'.notifs := by
  induction ops generalizing mgr with
  | nil =>
    simp only [run, Option.some.injEq] at hr
    subst hr; exact h
  | cons o os ih =>
    simp only [run] at hr
    cases hs : step mgr o with
    | none => simp [hs] at hr
    | some m =>
      simp only [hs] at hr
      exact ih hr (step_tag_inv hs h)

theorem tag_inv_unique {l : List notif} (h : tag_inv l) : sync_tags_unique l := by
  unfold tag_inv tags at h
  rw [List.filterMap_map] at h
  unfold List.Nodup at h
  rw [List.pairwise_filterMap] at h
  rw [List.pairwise_iff_getElem] at h
  intro i j hi hj t hti htj
  rcases Nat.lt_trichotomy i j with hlt | heq | hgt
  · exact absurd rfl (h i j hi hj hlt t (by simpa using hti) t (by simpa using htj))
  · exact heq
  · exact absurd rfl (h j i hj hi hgt t (by simpa using htj) t (by simpa using hti))

/-- C2. In every manager reached from the empty one by any sequence of
operations, no two notifications carry the same non-null sync tag. A call of
`notif_mgr_create_notif` either leaves the list as it is, or found no
notification for the tag and links one new node carrying it, the old nodes
untouched. -/
theorem sync_tag_unique_reachable (ops : List op) (mgr : notif_mgr)
    (r : Nat) (t : Option String)
    (hrun : run notif_mgr_new ops = some mgr) :
    sync_tags_unique mgr.notifs ∧
    ((notif_mgr_create_notif mgr r t).1.notifs = mgr.notifs ∨
      (notif_mgr_get_notif_for_sync_tag mgr t = none ∧
        ∃ k n, n.synchronous_tag = t ∧
          (notif_mgr_create_notif mgr r t).1.notifs = link_at k n mgr.notifs)) := by
  refine ⟨tag_inv_unique (run_tag_inv hrun (by simp [tag_inv, tags, notif_mgr_new])), ?_⟩
  rcases create_notif_cases mgr r t with ⟨j, hj⟩ | ⟨hnone, id, nid, hc⟩
  · rw [hj]; exact Or.inl rfl
  · rw [hc]
    exact Or.inr ⟨hnone, _, _, rfl, rfl⟩

theorem find_id_none {id : Nat} {l : List notif} (h : ∀ y ∈ l, y.id ≠ id) :
    find_id id l = none := by
  induction l with
  | nil => rfl
  | cons a as ih =>
    have ha : a.id ≠ id := h a (by simp)
    have := ih (fun y hy => h y (by simp [hy]))
    simp [find_id, ha, this]

theorem find_id_split {id : Nat} (l1 l2 : List notif) (x : notif)
    (h1 : ∀ y ∈ l1, y.id ≠ id) (hx : x.id = id) :
    find_id id (l1 ++ x :: l2) = some l1.length := by
  induction l1 with
  | nil => simp [find_id, hx]
  | cons a as ih =>
    have ha : a.id ≠ id := h1 a (by simp)
    have := ih (fun y hy => h1 y (by simp [hy]))
    simp [find_id, ha, this]

theorem find_sync_tag_none_of {t : String} {l : List notif}
    (h : ∀ y ∈ l, y.synchronous_tag ≠ some t) : find_sync_tag t l = none := by
  induction l with
  | nil => rfl
  | cons a as ih =>
    have ha : a.synchronous_tag ≠ some t := h a (by simp)
    have := ih (fun y hy => h y (by simp [hy]))
    unfold find_sync_tag
    cases hs : a.synchronous_tag with
    | none => simp [this]
    | some s =>
      have : s ≠ t := by intro hst; exact ha (by rw [hs, hst])
      simp [this, *]

theorem find_sync_tag_split {t : String} (l1 l2 : List notif) (x : notif)
    (h1 : ∀ y ∈ l1, y.synchronous_tag ≠ some t) (hx : x.synchronous_tag = some t) :
    find_sync_tag t (l1 ++ x :: l2) = some l1.length := by
  induction l1 with
  | nil => simp [find_sync_tag, hx]
  | cons a as ih =>
    have ha : a.synchronous_tag ≠ some t := h1 a (by simp)
    have := ih (fun y hy => h1 y (by simp [hy]))
    simp only [List.cons_append, List.length_cons]
    unfold find_sync_tag
    cases hs : a.synchronous_tag with
    | none => simp [this]
    | some s =>
      have : s ≠ t := by intro hst; exact ha (by rw [hs, hst])
      simp [this, *]

/-- C5. For `k != 0` that is not the id of a notification in the list,
`notif_mgr_create_notif(k, NULL)` makes the list one longer, the list without
the returned node is the old list, and calling `notif_mgr_create_notif` again
with the id of the returned node returns the same position and the same
manager. -/
theorem create_notif_replaces_missing (mgr : notif_mgr) (k : Nat) (hk : k ≠ 0)
    (hfree : ∀ y ∈ mgr.notifs, y.id ≠ k) :
    (notif_mgr_create_notif mgr k none).1.notifs.length = mgr.notifs.length + 1 ∧
    (notif_mgr_create_notif mgr k none).1.notifs.eraseIdx (notif_mgr_create_notif mgr k none).2
      = mgr.notifs ∧
    ∃ x, (notif_mgr_create_notif mgr k none).1.notifs[(notif_mgr_create_notif mgr k none).2]?
        = some x ∧
      notif_mgr_create_notif (notif_mgr_create_notif mgr k none).1 x.id none
        = notif_mgr_create_notif mgr k none := by
  have hget : notif_mgr_get_notif mgr k = none := by
    simp [notif_mgr_get_notif, hk, find_id_none hfree]
  have hc : notif_mgr_create_notif mgr k none = stack_new mgr (notif_init k none) := by
    simp [notif_mgr_create_notif, notif_mgr_get_notif_for_sync_tag, hk, hget]
  obtain ⟨l1, l2, hl, hlen, hlink, -, -⟩ := stack_link_spec (notif_init k none) mgr.notifs
  rw [hc]
  simp only [stack_new]
  rw [hlink, ← hlen]
  refine ⟨by rw [hl]; simp; omega, by rw [eraseIdx_split, hl], notif_init k none,
    by rw [List.getElem?_append_right (le_refl _)]; simp, ?_⟩
  have hfree1 : ∀ y ∈ l1, y.id ≠ k := fun y hy => hfree y (by rw [hl]; simp [hy])
  have hget2 : notif_mgr_get_notif
      { mgr with notifs := l1 ++ notif_init k none :: l2 } (notif_init k none).id
      = some l1.length := by
    simp only [notif_mgr_get_notif, notif_init, hk, false_and, if_false]
    exact find_id_split l1 l2 _ hfree1 rfl
  simp only [notif_mgr_create_notif, notif_mgr_get_notif_for_sync_tag, hget2]
  simp [notif_init, hk]

/-- C5 at the empty manager with `k = 1`. -/
theorem create_notif_replaces_missing_witness :
    (1 : Nat) ≠ 0 ∧ (∀ y ∈ notif_mgr_new.notifs, y.id ≠ 1) ∧
    (notif_mgr_create_notif notif_mgr_new 1 none).1.notifs.length = 1 :=
  ⟨by decide, by simp [notif_mgr_new],
    (create_notif_replaces_missing notif_mgr_new 1 (by decide) (by simp [notif_mgr_new])).1⟩

theorem create_notif_tag_hit (mgr : notif_mgr) (t : String) (r i : Nat)
    (h : notif_mgr_get_notif_for_sync_tag mgr (some t) = some i) :
    notif_mgr_create_notif mgr r (some t) = (mgr, i) := by
  simp [notif_mgr_create_notif, h]

theorem stack_new_tag_hit (mgr : notif_mgr) (t : String) (id : Nat)
    (h : notif_mgr_get_notif_for_sync_tag mgr (some t) = none) (nid : Nat) :
    notif_mgr_get_notif_for_sync_tag
        (stack_new { mgr with next_id := nid } (notif_init id (some t))).1 (some t)
      = some (stack_new { mgr with next_id := nid } (notif_init id (some t))).2 := by
  obtain ⟨l1, l2, hl, hlen, hlink, -, -⟩ := stack_link_spec (notif_init id (some t)) mgr.notifs
  have hnone := find_sync_tag_none (by simpa [notif_mgr_get_notif_for_sync_tag] using h)
  simp only [stack_new, notif_mgr_get_notif_for_sync_tag]
  rw [hlink, ← hlen]
  exact find_sync_tag_split l1 l2 _ (fun y hy => hnone y (by rw [hl]; simp [hy])) rfl

/-- C4, as amended. For a non-null tag `t`: when some notification carries
`t`, or `r1` is 0, or `r1` is not found by `notif_mgr_get_notif`, or `r2 = r1`,
then `notif_mgr_create_notif(r2, t)` after `notif_mgr_create_notif(r1, t)`
returns the same position and leaves the manager unchanged. A notification
found by tag is returned whatever `replaces_id` is. -/
theorem create_notif_sync_tag_twice (mgr : notif_mgr) (t : String) (r1 r2 : Nat)
    (h : notif_mgr_get_notif_for_sync_tag mgr (some t) ≠ none ∨ r1 = 0 ∨
      notif_mgr_get_notif mgr r1 = none ∨ r2 = r1) :
    notif_mgr_create_notif (notif_mgr_create_notif mgr r1 (some t)).1 r2 (some t)
      = notif_mgr_create_notif mgr r1 (some t) ∧
    ∀ i r, notif_mgr_get_notif_for_sync_tag mgr (some t) = some i →
      notif_mgr_create_notif mgr r (some t) = (mgr, i) := by
  refine ⟨?_, fun i r hi => create_notif_tag_hit mgr t r i hi⟩
  cases ht : notif_mgr_get_notif_for_sync_tag mgr (some t) with
  | some i =>
    rw [create_notif_tag_hit mgr t r1 i ht]
    exact create_notif_tag_hit mgr t r2 i ht
  | none =>
    by_cases hr : r1 = 0
    · have hc : notif_mgr_create_notif mgr r1 (some t) =
          stack_new { mgr with next_id := (mgr.next_id + 1) % 2 ^ 64 }
            (notif_init (mgr.next_id % 2 ^ 32) (some t)) := by
        simp [notif_mgr_create_notif, ht, hr]
      rw [hc]
      exact create_notif_tag_hit _ t r2 _ (stack_new_tag_hit mgr t _ ht _)
    · cases hg : notif_mgr_get_notif mgr r1 with
      | none =>
        have hc : notif_mgr_create_notif mgr r1 (some t) =
            stack_new { mgr with next_id := mgr.next_id } (notif_init r1 (some t)) := by
          simp [notif_mgr_create_notif, ht, hr, hg]
        rw [hc]
        exact create_notif_tag_hit _ t r2 _ (stack_new_tag_hit mgr t _ ht _)
      | some i =>
        have h2 : r2 = r1 := by
          rcases h with h | h | h | h
          · exact absurd ht h
          · exact absurd h hr
          · rw [hg] at h; simp at h
          · exact h
        subst h2
        have hc : notif_mgr_create_notif mgr r2 (some t) = (mgr, i) := by
          simp [notif_mgr_create_notif, ht, hr, hg]
        rw [hc]
        exact hc

/-- C4 fails as stated: with one untagged notification of id 1,
`create_notif(1, "t")` returns it (position 0, list of length 1) without
storing the tag, and `create_notif(0, "t")` then links a second node
(position 1, list of length 2). -/
theorem create_notif_sync_tag_counterexample :
    (notif_mgr_create_notif (notif_mgr_create_notif notif_mgr_new 0 none).1 1 (some "t")).2 = 0 ∧
    (notif_mgr_create_notif (notif_mgr_create_notif notif_mgr_new 0 none).1 1
      (some "t")).1.notifs.length = 1 ∧
    (notif_mgr_create_notif
      (notif_mgr_create_notif (notif_mgr_create_notif notif_mgr_new 0 none).1 1 (some "t")).1
      0 (some "t")).2 = 1 ∧
    (notif_mgr_create_notif
      (notif_mgr_create_notif (notif_mgr_create_notif notif_mgr_new 0 none).1 1 (some "t")).1
      0 (some "t")).1.notifs.length = 2 := by
  decide

theorem dismiss_loop_split (id : Nat) (l1 l2 : List notif) (x : notif)
    (h1 : ∀ y ∈ l1, y.id ≠ id) (hx : x.id = id) :
    dismiss_loop id (l1 ++ x :: l2) =
      match x.deferred_dismissal with
      | DISMISS_IMMEDIATELY => some (l1 ++ l2, true, [event.NotificationClosed id 2])
      | DISMISS_DEFER =>
        some (l1 ++ { x with deferred_dismissal := DISMISS_DELAYED } :: l2, true, [])
      | DISMISS_DELAYED => some (l1 ++ x :: l2, true, []) := by
  induction l1 with
  | nil =>
    cases hd : x.deferred_dismissal <;>
      simp [dismiss_loop, hx, hd, notif_dismiss, dbus_signal_dismissed]
  | cons a as ih =>
    have ha : a.id ≠ id := h1 a (by simp)
    have := ih (fun y hy => h1 y (by simp [hy]))
    cases hd : x.deferred_dismissal <;> rw [hd] at this <;>
      simp [dismiss_loop, ha, this]

theorem expire_loop_split (id : Nat) (l1 l2 : List notif) (x : notif)
    (h1 : ∀ y ∈ l1, y.id ≠ id) (hx : x.id = id) :
    expire_loop id (l1 ++ x :: l2) =
      match x.deferred_expiral with
      | EXPIRE_IMMEDIATELY => some (l1 ++ l2, true, [event.NotificationClosed id 1])
      | EXPIRE_DEFER =>
        some (l1 ++ { x with deferred_expiral := EXPIRE_DELAYED } :: l2, true, [])
      | EXPIRE_DELAYED => some (l1 ++ x :: l2, true, []) := by
  induction l1 with
  | nil =>
    cases hd : x.deferred_expiral <;>
      simp [expire_loop, hx, hd, notif_expire, dbus_signal_expired]
  | cons a as ih =>
    have ha : a.id ≠ id := h1 a (by simp)
    have := ih (fun y hy => h1 y (by simp [hy]))
    cases hd : x.deferred_expiral <;> rw [hd] at this <;>
      simp [expire_loop, ha, this]

/-- C6, as amended. Let `x` be the first notification of the list with id
`n != 0`. `notif_mgr_dismiss_id(n)` returns true and: from `DISMISS_DEFER` the
flag becomes `DISMISS_DELAYED`, the list is otherwise unchanged and nothing is
signalled; from `DISMISS_DELAYED` nothing changes and nothing is signalled;
from `DISMISS_IMMEDIATELY` the node is unlinked and `NotificationClosed(n, 2)`
is signalled. `notif_mgr_expire_id(n)` does the same with `deferred_expiral`
and reason 1. -/
theorem dismiss_expire_id_spec (mgr : notif_mgr) (n : Nat) (l1 l2 : List notif) (x : notif)
    (hn : n ≠ 0) (hl : mgr.notifs = l1 ++ x :: l2) (hx : x.id = n)
    (h1 : ∀ y ∈ l1, y.id ≠ n) :
    notif_mgr_dismiss_id mgr n =
      (match x.deferred_dismissal with
        | DISMISS_DEFER =>
          ({ mgr with notifs := l1 ++ { x with deferred_dismissal := DISMISS_DELAYED } :: l2 },
            true, [])
        | DISMISS_DELAYED => (mgr, true, [])
        | DISMISS_IMMEDIATELY =>
          ({ mgr with notifs := l1 ++ l2 }, true, [event.NotificationClosed n 2])) ∧
    notif_mgr_expire_id mgr n =
      (match x.deferred_expiral with
        | EXPIRE_DEFER =>
          ({ mgr with notifs := l1 ++ { x with deferred_expiral := EXPIRE_DELAYED } :: l2 },
            true, [])
        | EXPIRE_DELAYED => (mgr, true, [])
        | EXPIRE_IMMEDIATELY =>
          ({ mgr with notifs := l1 ++ l2 }, true, [event.NotificationClosed n 1])) := by
  constructor
  · simp only [notif_mgr_dismiss_id, notif_mgr_dismiss_id_internal, hn, if_false, hl,
      dismiss_loop_split n l1 l2 x h1 hx]
    cases hd : x.deferred_dismissal <;> simp
    cases mgr; simp_all
  · simp only [notif_mgr_expire_id, hn, if_false, hl, expire_loop_split n l1 l2 x h1 hx]
    cases hd : x.deferred_expiral <;> simp
    cases mgr; simp_all

theorem find_id_some {id i : Nat} {l : List notif} (h : find_id id l = some i) :
    ∃ l1 x l2, l = l1 ++ x :: l2 ∧ l1.length = i ∧ x.id = id ∧ ∀ y ∈ l1, y.id ≠ id := by
  induction l generalizing i with
  | nil => simp [find_id] at h
  | cons a as ih =>
    unfold find_id at h
    by_cases ha : a.id = id
    · simp [ha] at h
      subst h
      exact ⟨[], a, as, rfl, rfl, ha, by simp⟩
    · simp only [ha, if_false] at h
      cases hf : find_id id as with
      | none => simp [hf] at h
      | some j =>
        simp [hf] at h
        subst h
        obtain ⟨l1, x, l2, hl, hlen, hx, h1⟩ := ih hf
        refine ⟨a :: l1, x, l2, by simp [hl], by simp [hlen], hx, ?_⟩
        intro y hy
        rcases List.mem_cons.1 hy with rfl | hy
        · exact ha
        · exact h1 y hy

theorem get_notif_split {mgr : notif_mgr} {id i : Nat} {n : notif}
    (hi : notif_mgr_get_notif mgr id = some i) (hn : mgr.notifs[i]? = some n) :
    ∃ l1 l2, mgr.notifs = l1 ++ n :: l2 ∧ l1.length = i ∧ (∀ y ∈ l1, y.id ≠ n.id) ∧
      (n.id = 0 → l1 = []) := by
  unfold notif_mgr_get_notif at hi
  by_cases h0 : id = 0 ∧ mgr.notifs.length > 0
  · rw [if_pos h0] at hi
    simp at hi
    subst hi
    obtain ⟨a, b, hab, hlen⟩ := getElem?_split hn
    have ha : a = [] := List.length_eq_zero.1 hlen
    subst ha
    exact ⟨[], b, hab, rfl, by simp, fun _ => rfl⟩
  · rw [if_neg h0] at hi
    obtain ⟨l1, x, l2, hl, hlen, hx, h1⟩ := find_id_some hi
    have hxn : x = n := by
      rw [hl, ← hlen] at hn
      rw [List.getElem?_append_right (le_refl _)] at hn
      simpa using hn
    subst hxn
    refine ⟨l1, l2, hl, hlen, by rw [hx]; exact h1, ?_⟩
    intro hz
    exfalso
    apply h0
    refine ⟨by rw [← hx, hz], ?_⟩
    rw [hl]; simp

theorem expire_id_at (mgr : notif_mgr) (l1 l2 : List notif) (x : notif)
    (hl : mgr.notifs = l1 ++ x :: l2) (h1 : ∀ y ∈ l1, y.id ≠ x.id) (h0 : x.id = 0 → l1 = [])
    (hd : x.deferred_expiral = EXPIRE_IMMEDIATELY) :
    notif_mgr_expire_id mgr x.id =
      ({ mgr with notifs := l1 ++ l2 }, true, [event.NotificationClosed x.id 1]) := by
  by_cases hz : x.id = 0
  · have := h0 hz
    subst this
    simp [notif_mgr_expire_id, hz, notif_mgr_expire_current, hl, hd, notif_expire,
      dbus_signal_expired]
  · simp [notif_mgr_expire_id, hz, hl, expire_loop_split x.id l1 l2 x h1 rfl, hd]

theorem dismiss_id_at (mgr : notif_mgr) (l1 l2 : List notif) (x : notif)
    (hl : mgr.notifs = l1 ++ x :: l2) (h1 : ∀ y ∈ l1, y.id ≠ x.id) (h0 : x.id = 0 → l1 = [])
    (hd : x.deferred_dismissal = DISMISS_IMMEDIATELY) :
    notif_mgr_dismiss_id mgr x.id =
      ({ mgr with notifs := l1 ++ l2 }, true, [event.NotificationClosed x.id 2]) := by
  by_cases hz : x.id = 0
  · have := h0 hz
    subst this
    simp [notif_mgr_dismiss_id, notif_mgr_dismiss_id_internal, hz, notif_mgr_dismiss_current,
      hl, hd, notif_dismiss, dbus_signal_dismissed]
  · simp [notif_mgr_dismiss_id, notif_mgr_dismiss_id_internal, hz, hl,
      dismiss_loop_split x.id l1 l2 x h1 rfl, hd]

theorem set_split (l1 l2 : List notif) (x y : notif) :
    (l1 ++ x :: l2).set l1.length y = l1 ++ y :: l2 := by
  induction l1 with
  | nil => simp
  | cons a as ih => simp [ih]

theorem actions_complete_some (tok : Option String) (n : notif) (action_id : Option String) :
    ∃ evs, actions_complete tok (some n) action_id = some evs ∧
      ∀ id r, event.NotificationClosed id r ∉ evs := by
  cases action_id with
  | none => exact ⟨_, rfl, by simp⟩
  | some a =>
    refine ⟨_, rfl, ?_⟩
    intro id r
    simp only [notif_signal_action]
    split <;> cases tok <;> simp

/-- C7. At end of file, when `notif_mgr_get_notif` finds the saved id at
position `i`, `fdm_action_reader` finishes; its output starts with what the
completion callback `actions_complete` sent, which holds no
`NotificationClosed`; then with `deferred_expiral = EXPIRE_DELAYED` the node is
unlinked and `NotificationClosed(id, 1)` follows, else with
`deferred_dismissal = DISMISS_DELAYED` the node is unlinked and
`NotificationClosed(id, 2)` follows, else the node stays with both flags
immediate and nothing follows. -/
theorem action_reader_live (mgr : notif_mgr) (async : action_async) (status : child_status)
    (tok : Option String) (i : Nat) (n : notif)
    (hi : notif_mgr_get_notif mgr async.notif_id = some i) (hn : mgr.notifs[i]? = some n) :
    ∃ cb_events,
      actions_complete tok (some n) (chosen_action status (rstrip async.output) (some n))
        = some cb_events ∧
      (∀ id r, event.NotificationClosed id r ∉ cb_events) ∧
      fdm_action_reader mgr async read_result.eof status (actions_complete tok) =
        if n.deferred_expiral = EXPIRE_DELAYED then
          reader_result.finished { mgr with notifs := mgr.notifs.eraseIdx i }
            (cb_events ++ [event.NotificationClosed n.id 1])
        else if n.deferred_dismissal = DISMISS_DELAYED then
          reader_result.finished { mgr with notifs := mgr.notifs.eraseIdx i }
            (cb_events ++ [event.NotificationClosed n.id 2])
        else
          reader_result.finished
            (store mgr i { n with deferred_expiral := EXPIRE_IMMEDIATELY
                                  deferred_dismissal := DISMISS_IMMEDIATELY })
            cb_events := by
  obtain ⟨cb_events, hcb, hclosed⟩ := actions_complete_some tok n
    (chosen_action status (rstrip async.output) (some n))
  refine ⟨cb_events, hcb, hclosed, ?_⟩
  obtain ⟨l1, l2, hl, hlen, h1, h0⟩ := get_notif_split hi hn
  have hbind : ((some i : Option Nat).bind fun x => mgr.notifs[x]?) = some n := by
    simpa using hn
  simp only [fdm_action_reader, hi, hbind, hcb]
  have herase : mgr.notifs.eraseIdx i = l1 ++ l2 := by
    rw [hl, ← hlen, eraseIdx_split]
  by_cases he : n.deferred_expiral = EXPIRE_DELAYED
  · simp only [he, if_true]
    have := expire_id_at
      (store mgr i { n with deferred_expiral := EXPIRE_IMMEDIATELY }) l1 l2
      { n with deferred_expiral := EXPIRE_IMMEDIATELY }
      (by simp only [store]; rw [hl, ← hlen, set_split]) h1 h0 rfl
    simp only at this
    rw [this, herase]
    simp [store]
  · simp only [he, if_false]
    by_cases hd : n.deferred_dismissal = DISMISS_DELAYED
    · simp only [hd, if_true]
      have := dismiss_id_at
        (store mgr i { n with deferred_expiral := EXPIRE_IMMEDIATELY
                              deferred_dismissal := DISMISS_IMMEDIATELY }) l1 l2
        { n with deferred_expiral := EXPIRE_IMMEDIATELY
                 deferred_dismissal := DISMISS_IMMEDIATELY }
        (by simp only [store]; rw [hl, ← hlen, set_split]) h1 h0 rfl
      simp only at this
      rw [this, herase]
      simp [store]
    · simp only [hd, if_false]

theorem selecting_mgr_reachable : run notif_mgr_new selecting_ops = some selecting_mgr := by
  decide

/-- C1, evaluated: `create_notif(1, NULL)` on the empty manager takes id 1
without advancing `next_id`, and `create_notif(0, NULL)` then allocates id 1
again: the list holds two notifications with id 1. -/
theorem create_notif_duplicate_id :
    (run notif_mgr_new [op.create_notif 1 none, op.create_notif 0 none]).map
        (fun m => m.notifs.map (·.id)) = some [1, 1] ∧
    ¬ ids_unique [notif_init 1 none, notif_init 1 none] := by
  refine ⟨by decide, ?_⟩
  intro h
  have := h 0 1 (by decide) (by decide) rfl
  exact absurd this (by decide)

/-- C8, evaluated: after `notif_mgr_del_notif(1)` removed the notification
whose helper is running, `fdm_action_reader` at end of file calls the callback
with `NULL`, `NULL` and then reads `notif->deferred_expiral` through the `NULL`
pointer. -/
theorem action_reader_missing_notif :
    run notif_mgr_new (selecting_ops ++ [op.del_notif 1]) =
      some { notifs := [], paused := false, next_id := 2 } ∧
    fdm_action_reader { notifs := [], paused := false, next_id := 2 }
        { notif_id := 1, output := ['O', 'p', 'e', 'n', '\n'] } read_result.eof
        (child_status.exited 0) (actions_complete none)
      = reader_result.null_deref [event.reply ctrl_result.CTRL_INVALID_ID] := by
  decide

/-- C9, evaluated: with the single action ("default", "Open") and exit status
0, an empty output and the output "Op" are both mapped to "default", since
`strncmp` compares only `chosen_len` characters; with the empty output
`ActionInvoked(1, "default")` is signalled. -/
theorem action_reader_label_mismatch :
    run notif_mgr_new selecting_ops = some selecting_mgr ∧
    chosen_action (child_status.exited 0) (rstrip ['\n']) (some selecting_notif)
      = some "default" ∧
    chosen_action (child_status.exited 0) (rstrip ['O', 'p', '\n']) (some selecting_notif)
      = some "default" ∧
    fdm_action_reader selecting_mgr { notif_id := 1, output := [] } read_result.eof
        (child_status.exited 0) (actions_complete none)
      = reader_result.finished
          { notifs := [{ selecting_notif with
              deferred_dismissal := DISMISS_IMMEDIATELY
              deferred_expiral := EXPIRE_IMMEDIATELY }], paused := false, next_id := 2 }
          [event.ActionInvoked 1 "default", event.reply ctrl_result.CTRL_OK] := by
  decide

theorem step_sorted {mgr mgr' : notif_mgr} {o : op} (hs : step mgr o = some mgr')
    (h : urgency_sorted mgr.notifs) : urgency_sorted mgr'.notifs := by
  rcases step_shape hs with hsub | ⟨r, t, rfl⟩ | ⟨i, u, rfl⟩
  · exact sorted_of_shape hsub h
  · exact (create_notif_order mgr r t h).1
  · cases hx : mgr.notifs[i]? with
    | none => simpa [notif_set_urgency, hx] using h
    | some x => exact (set_urgency_order mgr i u x h hx).1

theorem run_sorted {ops : List op} {mgr mgr' : notif_mgr} (hr : run mgr ops = some mgr')
    (h : urgency_sorted mgr.notifs) : urgency_sorted mgr'.notifs := by
  induction ops generalizing mgr with
  | nil =>
    simp only [run, Option.some.injEq] at hr
    subst hr; exact h
  | cons o os ih =>
    simp only [run] at hr
    cases hs : step mgr o with
    | none => simp [hs] at hr
    | some m =>
      simp only [hs] at hr
      exact ih hr (step_sorted hs h)

/-- C3. Every manager reached from the empty one is ordered by urgency, highest
first. On any sorted list, `notif_mgr_create_notif` and `notif_set_urgency`
leave the list sorted; a created node, and a node whose urgency changed, lands
after every node of urgency at least its own (so after all equal ones) and
before the lower ones, and the other nodes keep their relative order (the list
without the node is the old list, respectively the old list without it). -/
theorem urgency_order_preserved (ops : List op) (reached : notif_mgr)
    (mgr : notif_mgr) (r : Nat) (t : Option String) (i : Nat) (u : urgency) (x : notif)
    (hrun : run notif_mgr_new ops = some reached)
    (hs : urgency_sorted mgr.notifs) (hx : mgr.notifs[i]? = some x) :
    urgency_sorted reached.notifs ∧
    (urgency_sorted (notif_mgr_create_notif mgr r t).1.notifs ∧
      ((notif_mgr_create_notif mgr r t).1.notifs = mgr.notifs ∨
        ∃ n l1 l2, mgr.notifs = l1 ++ l2 ∧
          (notif_mgr_create_notif mgr r t).1.notifs = l1 ++ n :: l2 ∧
          (notif_mgr_create_notif mgr r t).2 = l1.length ∧
          (∀ y ∈ l1, y.urgency ≥ n.urgency) ∧ (∀ y ∈ l2, y.urgency < n.urgency))) ∧
    (urgency_sorted (notif_set_urgency mgr i u).1.notifs ∧
      (x.urgency = u → (notif_set_urgency mgr i u).1.notifs = mgr.notifs) ∧
      (x.urgency ≠ u →
        ∃ l1 l2, mgr.notifs.eraseIdx i = l1 ++ l2 ∧
          (notif_set_urgency mgr i u).1.notifs = l1 ++ { x with urgency := u } :: l2 ∧
          (notif_set_urgency mgr i u).2 = l1.length ∧
          (∀ y ∈ l1, y.urgency ≥ u) ∧ (∀ y ∈ l2, y.urgency < u))) :=
  ⟨run_sorted hrun (by simp [urgency_sorted, notif_mgr_new]),
    create_notif_order mgr r t hs, set_urgency_order mgr i u x hs hx⟩

/-! ### Worked instances -/

/-- C2 at `tagged_ops`: the second request reuses the notification tagged
"up". -/
theorem sync_tag_unique_reachable_witness :
    run notif_mgr_new tagged_ops = some tagged_mgr ∧ sync_tags_unique tagged_mgr.notifs :=
  ⟨by decide, (sync_tag_unique_reachable tagged_ops tagged_mgr 0 none (by decide)).1⟩

/-- C3 at two normal notifications, the second raised to critical. -/
theorem urgency_order_preserved_witness :
    run notif_mgr_new [op.create_notif 0 none, op.create_notif 0 none] = some pair_mgr ∧
    urgency_sorted pair_mgr.notifs ∧
    pair_mgr.notifs[1]? = some (notif_init 2 none) ∧
    urgency_sorted (notif_set_urgency pair_mgr 1 URGENCY_CRITICAL).1.notifs :=
  ⟨by decide, by simp [urgency_sorted, pair_mgr, notif_init], by decide,
    (urgency_order_preserved [op.create_notif 0 none, op.create_notif 0 none] pair_mgr
      pair_mgr 0 none 1 URGENCY_CRITICAL (notif_init 2 none) (by decide)
      (by simp [urgency_sorted, pair_mgr, notif_init]) (by decide)).2.2.1⟩

/-- C4 at `pair_mgr` with `r1 = 0`, `r2 = 2`: the second call returns the
notification tagged by the first, not the one with id 2. -/
theorem create_notif_sync_tag_twice_witness :
    (notif_mgr_get_notif_for_sync_tag pair_mgr (some "up") ≠ none ∨ (0 : Nat) = 0 ∨
      notif_mgr_get_notif pair_mgr 0 = none ∨ (2 : Nat) = 0) ∧
    notif_mgr_create_notif (notif_mgr_create_notif pair_mgr 0 (some "up")).1 2 (some "up")
      = notif_mgr_create_notif pair_mgr 0 (some "up") :=
  ⟨Or.inr (Or.inl rfl),
    (create_notif_sync_tag_twice pair_mgr "up" 0 2 (Or.inr (Or.inl rfl))).1⟩

/-- C6 at `selecting_mgr`: dismissing while the helper runs only marks the
notification. -/
theorem dismiss_expire_id_spec_witness :
    (1 : Nat) ≠ 0 ∧ selecting_mgr.notifs = [] ++ selecting_notif :: [] ∧
    selecting_notif.id = 1 ∧ (∀ y ∈ ([] : List notif), y.id ≠ 1) ∧
    notif_mgr_dismiss_id selecting_mgr 1 = (delayed_mgr, true, []) :=
  ⟨by decide, rfl, rfl, by simp,
    (dismiss_expire_id_spec selecting_mgr 1 [] [] selecting_notif (by decide) rfl rfl
      (by simp)).1⟩

/-- C6 fails as stated: the notification of `delayed_mgr` has id 1 and
`deferred_dismissal = DISMISS_DELAYED` (not `DISMISS_DEFER`), and
`notif_mgr_dismiss_id(1)` returns true with the list unchanged and no signal. -/
theorem dismiss_id_delayed_counterexample :
    run notif_mgr_new (selecting_ops ++ [op.dismiss_id 1]) = some delayed_mgr ∧
    delayed_mgr.notifs.map (fun n => (n.id, n.deferred_dismissal)) = [(1, DISMISS_DELAYED)] ∧
    notif_mgr_dismiss_id delayed_mgr 1 = (delayed_mgr, true, []) := by
  decide

/-- C7 at `delayed_mgr` with output "Open": the callback output is followed
by `NotificationClosed(1, 2)` and the list is empty. -/
theorem action_reader_live_witness :
    notif_mgr_get_notif delayed_mgr 1 = some 0 ∧
    delayed_mgr.notifs[0]? = some { selecting_notif with deferred_dismissal := DISMISS_DELAYED } ∧
    ∃ cb_events,
      actions_complete none (some { selecting_notif with deferred_dismissal := DISMISS_DELAYED })
          (chosen_action (child_status.exited 0) (rstrip ['O', 'p', 'e', 'n', '\n'])
            (some { selecting_notif with deferred_dismissal := DISMISS_DELAYED }))
        = some cb_events ∧
      (∀ id r, event.NotificationClosed id r ∉ cb_events) ∧
      fdm_action_reader delayed_mgr { notif_id := 1, output := ['O', 'p', 'e', 'n', '\n'] }
          read_result.eof (child_status.exited 0) (actions_complete none) =
        reader_result.finished { delayed_mgr with notifs := [] }
          (cb_events ++ [event.NotificationClosed 1 2]) :=
  ⟨by decide, by decide,
    action_reader_live delayed_mgr { notif_id := 1, output := ['O', 'p', 'e', 'n', '\n'] }
      (child_status.exited 0) none 0
      { selecting_notif with deferred_dismissal := DISMISS_DELAYED } (by decide) (by decide)⟩

/-! ### Dismissing twice -/

theorem dismiss_loop_none {id : Nat} {l : List notif} (h : ∀ y ∈ l, y.id ≠ id) :
    dismiss_loop id l = none := by
  induction l with
  | nil => rfl
  | cons a as ih =>
    have ha : a.id ≠ id := h a (by simp)
    have := ih (fun y hy => h y (by simp [hy]))
    simp [dismiss_loop, ha, this]

/-- C11. When exactly one notification of the list has id `n != 0` and its
`deferred_dismissal` is `DISMISS_IMMEDIATELY`, `notif_mgr_dismiss_id(n)` returns
true and unlinks it; a second `notif_mgr_dismiss_id(n)` returns false, leaves
the manager as it is and signals nothing, and the control socket's
`CTRL_DISMISS_BY_ID` then replies `CTRL_INVALID_ID` with the manager unchanged. -/
theorem dismiss_id_twice (mgr : notif_mgr) (n : Nat) (l1 l2 : List notif) (x : notif)
    (tok : Option String) (env : spawn_outcome)
    (hn : n ≠ 0) (hl : mgr.notifs = l1 ++ x :: l2) (hx : x.id = n)
    (hone : ∀ y ∈ l1 ++ l2, y.id ≠ n)
    (hd : x.deferred_dismissal = DISMISS_IMMEDIATELY) :
    notif_mgr_dismiss_id mgr n =
      ({ mgr with notifs := l1 ++ l2 }, true, [event.NotificationClosed n 2]) ∧
    notif_mgr_dismiss_id (notif_mgr_dismiss_id mgr n).1 n =
      ((notif_mgr_dismiss_id mgr n).1, false, []) ∧
    fdm_client (notif_mgr_dismiss_id mgr n).1 ctrl_command.CTRL_DISMISS_BY_ID n tok env =
      some { mgr := (notif_mgr_dismiss_id mgr n).1, reply := some ctrl_result.CTRL_INVALID_ID,
             listing := none, events := [], aborted := false, async := none } := by
  have h1 : ∀ y ∈ l1, y.id ≠ n := fun y hy => hone y (by simp [hy])
  have hfirst : notif_mgr_dismiss_id mgr n =
      ({ mgr with notifs := l1 ++ l2 }, true, [event.NotificationClosed n 2]) := by
    simp [notif_mgr_dismiss_id, notif_mgr_dismiss_id_internal, hn, hl,
      dismiss_loop_split n l1 l2 x h1 hx, hd]
  have hsecond : notif_mgr_dismiss_id { mgr with notifs := l1 ++ l2 } n =
      ({ mgr with notifs := l1 ++ l2 }, false, []) := by
    simp [notif_mgr_dismiss_id, notif_mgr_dismiss_id_internal, hn, dismiss_loop_none hone]
  refine ⟨hfirst, ?_, ?_⟩
  · rw [hfirst]; exact hsecond
  · rw [hfirst]
    simp [fdm_client, hsecond]

/-- C11 at `pair_mgr`, dismissing id 2 twice. -/
theorem dismiss_id_twice_witness :
    (2 : Nat) ≠ 0 ∧ pair_mgr.notifs = [notif_init 1 none] ++ notif_init 2 none :: [] ∧
    (notif_mgr_dismiss_id pair_mgr 2).2.1 = true ∧
    (notif_mgr_dismiss_id (notif_mgr_dismiss_id pair_mgr 2).1 2).2.1 = false :=
  ⟨by decide, rfl,
    by rw [(dismiss_id_twice pair_mgr 2 [notif_init 1 none] [] (notif_init 2 none) none
      spawn_outcome.started (by decide) rfl rfl (by simp [notif_init]) rfl).1],
    by rw [(dismiss_id_twice pair_mgr 2 [notif_init 1 none] [] (notif_init 2 none) none
      spawn_outcome.started (by decide) rfl rfl (by simp [notif_init]) rfl).2.1]⟩

/-! ### Timeouts -/

theorem to_int_id {v : Int} (h0 : 0 ≤ v) (h1 : v < 2 ^ 31) : to_int v = v := by
  unfold to_int
  have : (v + 2 ^ 31) % 2 ^ 32 = v + 2 ^ 31 := by
    apply Int.emod_eq_of_lt <;> omega
  omega

theorem reload_timeout_active (conf : config) (seats : List seat) (n : notif)
    (u : urgency_config) (hu : by_urgency conf n.urgency = some u)
    (hidle : wayl_is_idle_for_urgency seats n.urgency = false)
    (hd : 0 ≤ u.default_timeout_secs ∧ u.default_timeout_secs ≤ 2147483)
    (hm : 0 ≤ u.max_timeout_secs ∧ u.max_timeout_secs ≤ 2147483)
    (ht : n.timeout_ms = -1 ∨ 0 ≤ n.timeout_ms) :
    notif_reload_timeout conf seats n true =
      reload_result.done true
        (if effective_ms n.timeout_ms u.default_timeout_secs u.max_timeout_secs > 0 then
          some (effective_ms n.timeout_ms u.default_timeout_secs u.max_timeout_secs * 1000000
                  / 1000000000,
                effective_ms n.timeout_ms u.default_timeout_secs u.max_timeout_secs * 1000000
                  % 1000000000)
        else none) := by
  have hdm : to_int (u.default_timeout_secs * 1000) = u.default_timeout_secs * 1000 :=
    to_int_id (by omega) (by omega)
  have hmm : to_int (u.max_timeout_secs * 1000) = u.max_timeout_secs * 1000 :=
    to_int_id (by omega) (by omega)
  simp only [notif_reload_timeout, hu, hidle, hdm, hmm, effective_ms]
  by_cases h1 : n.timeout_ms = -1
  · simp only [h1, if_true]
    by_cases hmax : u.max_timeout_secs * 1000 > 0
    · have hmax' : u.max_timeout_secs > 0 := by omega
      have hneg : ¬ u.default_timeout_secs * 1000 < 0 := by omega
      by_cases hpos : u.default_timeout_secs * 1000 > 0
      · have hmin : min (u.default_timeout_secs * 1000) (u.max_timeout_secs * 1000) > 0 :=
          lt_min hpos hmax
        have hne : ¬ min (u.default_timeout_secs * 1000) (u.max_timeout_secs * 1000) = 0 := by
          omega
        simp [hmax, hmax', hneg, hpos, hmin, hne]
      · have hz : u.default_timeout_secs * 1000 = 0 := by omega
        have hne : ¬ u.max_timeout_secs * 1000 = 0 := by omega
        simp [hmax, hmax', hz, hne]
    · have hmax' : ¬ u.max_timeout_secs > 0 := by omega
      have hneg : ¬ u.default_timeout_secs * 1000 < 0 := by omega
      by_cases hz : u.default_timeout_secs * 1000 = 0
      · simp [hmax, hmax', hz]
      · have hpos : u.default_timeout_secs * 1000 > 0 := by omega
        simp [hmax, hmax', hneg, hz, hpos]
  · have h0 : 0 ≤ n.timeout_ms := by
      rcases ht with h | h
      · exact absurd h h1
      · exact h
    have hneg : ¬ n.timeout_ms < 0 := by omega
    simp only [h1, if_false]
    by_cases hmax : u.max_timeout_secs * 1000 > 0
    · have hmax' : u.max_timeout_secs > 0 := by omega
      by_cases hpos : n.timeout_ms > 0
      · have hmin : min n.timeout_ms (u.max_timeout_secs * 1000) > 0 := lt_min hpos hmax
        have hne : ¬ min n.timeout_ms (u.max_timeout_secs * 1000) = 0 := by omega
        simp [hmax, hmax', hneg, hpos, hmin, hne]
      · have hz : n.timeout_ms = 0 := by omega
        have hne : ¬ u.max_timeout_secs * 1000 = 0 := by omega
        simp [hmax, hmax', hz, hne]
    · have hmax' : ¬ u.max_timeout_secs > 0 := by omega
      by_cases hz : n.timeout_ms = 0
      · simp [hmax, hmax', hz]
      · have hpos : n.timeout_ms > 0 := by omega
        simp [hmax, hmax', hneg, hz, hpos]

/-- C12, as amended. With a seat that is not idle, working timer calls, both
configured timeouts between 0 and 2147483 seconds (so that the `int` products
by 1000 are exact) and a notification timeout of -1 or at least 0:
`notif_reload_timeout` returns true and arms a timer iff the effective timeout
is positive, for exactly that many milliseconds; with a positive maximum the
effective timeout is positive and at most the maximum. -/
theorem reload_timeout_spec (conf : config) (seats : List seat) (n : notif) (u : urgency_config)
    (hu : by_urgency conf n.urgency = some u)
    (hidle : wayl_is_idle_for_urgency seats n.urgency = false)
    (hd : 0 ≤ u.default_timeout_secs ∧ u.default_timeout_secs ≤ 2147483)
    (hm : 0 ≤ u.max_timeout_secs ∧ u.max_timeout_secs ≤ 2147483)
    (ht : n.timeout_ms = -1 ∨ 0 ≤ n.timeout_ms) :
    notif_reload_timeout conf seats n true =
      reload_result.done true
        (if effective_ms n.timeout_ms u.default_timeout_secs u.max_timeout_secs > 0 then
          some (effective_ms n.timeout_ms u.default_timeout_secs u.max_timeout_secs * 1000000
                  / 1000000000,
                effective_ms n.timeout_ms u.default_timeout_secs u.max_timeout_secs * 1000000
                  % 1000000000)
        else none) ∧
    (effective_ms n.timeout_ms u.default_timeout_secs u.max_timeout_secs * 1000000 / 1000000000)
        * 1000000000
      + effective_ms n.timeout_ms u.default_timeout_secs u.max_timeout_secs * 1000000
          % 1000000000
      = effective_ms n.timeout_ms u.default_timeout_secs u.max_timeout_secs * 1000000 ∧
    (u.max_timeout_secs > 0 →
      0 < effective_ms n.timeout_ms u.default_timeout_secs u.max_timeout_secs ∧
      effective_ms n.timeout_ms u.default_timeout_secs u.max_timeout_secs
        ≤ u.max_timeout_secs * 1000) := by
  have hdm : to_int (u.default_timeout_secs * 1000) = u.default_timeout_secs * 1000 :=
    to_int_id (by omega) (by omega)
  have hmm : to_int (u.max_timeout_secs * 1000) = u.max_timeout_secs * 1000 :=
    to_int_id (by omega) (by omega)
  refine ⟨?_, ?_, ?_⟩
  · exact reload_timeout_active conf seats n u hu hidle hd hm ht
  · exact Int.ediv_add_emod' _ _
  · intro hmax
    simp only [effective_ms, hmax, if_true]
    by_cases h1 : n.timeout_ms = -1
    · simp only [h1, if_true]
      by_cases hpos : u.default_timeout_secs * 1000 > 0
      · simp only [hpos, if_true]
        exact ⟨lt_min hpos (by omega), min_le_right _ _⟩
      · have hz : u.default_timeout_secs * 1000 = 0 := by omega
        simp [hz]; omega
    · have h0 : 0 ≤ n.timeout_ms := by
        rcases ht with h | h
        · exact absurd h h1
        · exact h
      simp only [h1, if_false]
      by_cases hpos : n.timeout_ms > 0
      · simp only [hpos, if_true]
        exact ⟨lt_min hpos (by omega), min_le_right _ _⟩
      · have hz : n.timeout_ms = 0 := by omega
        simp [hz]; omega

/-- C12 at the three cases the specification lists: timeout 0 with maximum 5
and timeout 10000 with maximum 5 arm 5 seconds; timeout -1 with default 0 and
maximum 0 arms nothing. -/
theorem reload_timeout_spec_witness :
    by_urgency (config_with_timeouts 0 5) (notif_init 1 none).urgency
      = some (config_with_timeouts 0 5).normal ∧
    wayl_is_idle_for_urgency [active_seat] (notif_init 1 none).urgency = false ∧
    notif_reload_timeout (config_with_timeouts 0 5) [active_seat]
        { notif_init 1 none with timeout_ms := 0 } true
      = reload_result.done true (some (5, 0)) ∧
    notif_reload_timeout (config_with_timeouts 0 5) [active_seat]
        { notif_init 1 none with timeout_ms := 10000 } true
      = reload_result.done true (some (5, 0)) ∧
    notif_reload_timeout (config_with_timeouts 0 0) [active_seat]
        { notif_init 1 none with timeout_ms := -1 } true
      = reload_result.done true none :=
  ⟨by decide, by decide,
    (reload_timeout_spec (config_with_timeouts 0 5) [active_seat]
      { notif_init 1 none with timeout_ms := 0 } (config_with_timeouts 0 5).normal
      (by decide) (by decide) (by decide) (by decide) (by decide)).1,
    (reload_timeout_spec (config_with_timeouts 0 5) [active_seat]
      { notif_init 1 none with timeout_ms := 10000 } (config_with_timeouts 0 5).normal
      (by decide) (by decide) (by decide) (by decide) (by decide)).1,
    (reload_timeout_spec (config_with_timeouts 0 0) [active_seat]
      { notif_init 1 none with timeout_ms := -1 } (config_with_timeouts 0 0).normal
      (by decide) (by decide) (by decide) (by decide) (by decide)).1⟩

/-- C12 fails as stated: with `max-timeout = 3000000` the `int` product
`max_timeout_secs * 1000` is not 3000000000 (it wraps to a negative value), so
a notification with timeout 0 gets no timer, where the stated formula gives a
timer of 3000000000 ms. -/
theorem reload_timeout_overflow_counterexample :
    effective_ms 0 0 3000000 = 3000000000 ∧
    to_int (3000000 * 1000) = -1294967296 ∧
    notif_reload_timeout (config_with_timeouts 0 3000000) [active_seat]
        { notif_init 1 none with timeout_ms := 0 } true
      = reload_result.done true none := by
  decide

/-! ### HTML entities -/

theorem match_number_pos (p : Char → Bool) (r : List Char) (n : Nat)
    (h : match_number p r = some n) : 0 < n := by
  unfold match_number at h
  split at h
  · rename_i hc
    injection h with h
    subst h
    exact List.length_pos.mpr hc.1
  · cases h

theorem match_here_pos (s : List Char) (m : Nat × entity) (h : match_here s = some m) :
    0 < m.1 := by
  unfold match_here at h
  split at h
  · split at h
    · injection h with h; subst h; simp
    · split at h
      · simp only [Option.map_eq_some'] at h
        obtain ⟨a, _, ha⟩ := h
        subst ha; simp
      · simp only [Option.map_eq_some'] at h
        obtain ⟨a, _, ha⟩ := h
        subst ha; simp
      · cases h
  · cases h

theorem scan_entities_skip (k : Nat) (l : List Char) :
    scan_entities k l = scan_entities 0 (l.drop k) := by
  induction k generalizing l with
  | zero => simp
  | succ k ih =>
    cases l with
    | nil => simp [scan_entities]
    | cons c cs => simp [scan_entities, ih cs]

theorem decode_loop_copy (fuel : Nat) (c : Char) (cs : List Char)
    (h : match_here (c :: cs) = none) :
    decode_loop (fuel + 1) (c :: cs) = c.toNat :: decode_loop (fuel + 1) cs := by
  cases hr : regexec cs with
  | none => simp [decode_loop, regexec, h, hr, ambstoc32]
  | some m => simp [decode_loop, regexec, h, hr, ambstoc32]

theorem decode_loop_entity (fuel : Nat) (s : List Char) (m : Nat × entity)
    (h : match_here s = some m) :
    decode_loop (fuel + 1) s = entity_append m.2 s ++ decode_loop fuel (s.drop m.1) := by
  cases s with
  | nil => simp [match_here] at h
  | cons c cs => simp [decode_loop, regexec, h, ambstoc32]

theorem decode_loop_scan (fuel : Nat) (s : List Char) (h : s.length < fuel) :
    decode_loop fuel s = scan_entities 0 s := by
  induction fuel generalizing s with
  | zero => omega
  | succ fuel ih =>
    induction s with
    | nil => simp [decode_loop, regexec, ambstoc32, scan_entities]
    | cons c cs ihs =>
      cases hm : match_here (c :: cs) with
      | none =>
        rw [decode_loop_copy fuel c cs hm, ihs (by simp at h ⊢; omega)]
        simp [scan_entities, hm]
      | some m =>
        have hp := match_here_pos _ _ hm
        rw [decode_loop_entity fuel _ m hm, ih _ (by simp at h ⊢; omega)]
        simp only [scan_entities, hm]
        rw [scan_entities_skip (m.1 - 1)]
        obtain ⟨k, hk⟩ : ∃ k, m.1 = k + 1 := ⟨m.1 - 1, by omega⟩
        rw [hk]; simp

theorem decode_scan (s : List Char) : decode_html_entities s = scan_entities 0 s :=
  decode_loop_scan _ s (by simp)

theorem match_here_no_amp (c : Char) (cs : List Char) (h : c ≠ '&') :
    match_here (c :: cs) = none := by
  unfold match_here
  split
  · rename_i heq; injection heq with h1 _; exact absurd h1 h
  · rfl

theorem scan_no_amp (s : List Char) (h : '&' ∉ s) : scan_entities 0 s = ambstoc32 s := by
  induction s with
  | nil => simp [scan_entities, ambstoc32]
  | cons c cs ih =>
    simp at h
    have hc : c ≠ '&' := fun e => h.1 e.symm
    simp [scan_entities, match_here_no_amp c cs hc, ih h.2, ambstoc32]

theorem regexec_none_scan (s : List Char) (h : regexec s = none) :
    scan_entities 0 s = ambstoc32 s := by
  induction s with
  | nil => simp [scan_entities, ambstoc32]
  | cons c cs ih =>
    cases hm : match_here (c :: cs) with
    | some m => simp [regexec, hm] at h
    | none =>
      have hr : regexec cs = none := by
        cases hr : regexec cs with
        | none => rfl
        | some m => simp [regexec, hm, hr] at h
      simp [scan_entities, hm, ih hr, ambstoc32]

theorem decode_named (name : List Char) (c : char32_t) (rest : List Char)
    (hm : match_here ('&' :: (name ++ ';' :: rest)) = some (name.length + 2, entity.named name.length))
    (hc : named_char (name ++ ';' :: rest) name.length = some c) :
    decode_html_entities ('&' :: (name ++ ';' :: rest)) = c :: decode_html_entities rest := by
  rw [decode_scan, decode_scan]
  simp only [scan_entities, hm, entity_append, List.drop_succ_cons, List.drop_zero, hc]
  rw [scan_entities_skip]
  simp

theorem store_get (mgr : notif_mgr) (i : Nat) (n x : notif) (h : mgr.notifs[i]? = some n) :
    (store mgr i x).notifs[i]? = some x := by
  have hi : i < mgr.notifs.length := by
    rcases Nat.lt_or_ge i mgr.notifs.length with h1 | h1
    · exact h1
    · rw [List.getElem?_eq_none h1] at h; cases h
  simp [store, hi]

/-- C13. `decode_html_entities` is one pass from left to right over the text
(`scan_entities`): each of the twelve named entities is replaced by its single
character (a plain space for `&nbsp;`), every character that does not start a
recognised entity is copied, and what was written is not scanned again, so
`&amp;lt;` gives `&lt;`. Text without a recognised entity, in particular text
without `&`, comes back unchanged, and `notif_set_summary` with `A &amp; B`
followed by `notif_get_summary` gives `A & B`. -/
theorem decode_html_entities_spec :
    (∀ s : List Char, '&' ∉ s → decode_html_entities s = ambstoc32 s) ∧
    (∀ s : List Char, regexec s = none → decode_html_entities s = ambstoc32 s) ∧
    (∀ (c : Char) (cs : List Char), match_here (c :: cs) = none →
      decode_html_entities (c :: cs) = c.toNat :: decode_html_entities cs) ∧
    (∀ (mgr : notif_mgr) (i : Nat) (n : notif), mgr.notifs[i]? = some n →
      ((notif_set_summary mgr i "A &amp; B".toList).notifs[i]?).bind notif_get_summary
        = some "A & B".toList) ∧
    (∀ s : List Char, decode_html_entities s = scan_entities 0 s) ∧
    (∀ rest : List Char, decode_html_entities ("&nbsp;".toList ++ rest)
      = ' '.toNat :: decode_html_entities rest) ∧
    (∀ rest : List Char, decode_html_entities ("&lt;".toList ++ rest)
      = '<'.toNat :: decode_html_entities rest) ∧
    (∀ rest : List Char, decode_html_entities ("&gt;".toList ++ rest)
      = '>'.toNat :: decode_html_entities rest) ∧
    (∀ rest : List Char, decode_html_entities ("&amp;".toList ++ rest)
      = '&'.toNat :: decode_html_entities rest) ∧
    (∀ rest : List Char, decode_html_entities ("&quot;".toList ++ rest)
      = '"'.toNat :: decode_html_entities rest) ∧
    (∀ rest : List Char, decode_html_entities ("&apos;".toList ++ rest)
      = 39 :: decode_html_entities rest) ∧
    (∀ rest : List Char, decode_html_entities ("&cent;".toList ++ rest)
      = '¢'.toNat :: decode_html_entities rest) ∧
    (∀ rest : List Char, decode_html_entities ("&pound;".toList ++ rest)
      = '£'.toNat :: decode_html_entities rest) ∧
    (∀ rest : List Char, decode_html_entities ("&yen;".toList ++ rest)
      = '¥'.toNat :: decode_html_entities rest) ∧
    (∀ rest : List Char, decode_html_entities ("&euro;".toList ++ rest)
      = '€'.toNat :: decode_html_entities rest) ∧
    (∀ rest : List Char, decode_html_entities ("&copy;".toList ++ rest)
      = '©'.toNat :: decode_html_entities rest) ∧
    (∀ rest : List Char, decode_html_entities ("&reg;".toList ++ rest)
      = '®'.toNat :: decode_html_entities rest) ∧
    decode_html_entities "&amp;lt;".toList = ambstoc32 "&lt;".toList := by
  refine ⟨fun s h => by rw [decode_scan, scan_no_amp s h],
    fun s h => by rw [decode_scan, regexec_none_scan s h],
    fun c cs h => by rw [decode_scan, decode_scan]; simp [scan_entities, h],
    fun mgr i n h => ?_, decode_scan, ?_, ?_, ?_, ?_, ?_, ?_, ?_, ?_, ?_, ?_, ?_, ?_, by decide⟩
  · have hd : c32str (decode_html_entities "A &amp; B".toList) = ambstoc32 "A & B".toList := by
      decide
    simp only [notif_set_summary, h, store_get mgr i n _ h, Option.some_bind, notif_get_summary,
      hd]
    decide
  · intro rest
    exact decode_named "nbsp".toList _ rest (by simp [match_here, match_name, entity_names, starts_with])
      (by simp [named_char, strncmp_eq])
  · intro rest
    exact decode_named "lt".toList _ rest (by simp [match_here, match_name, entity_names, starts_with])
      (by simp [named_char, strncmp_eq])
  · intro rest
    exact decode_named "gt".toList _ rest (by simp [match_here, match_name, entity_names, starts_with])
      (by simp [named_char, strncmp_eq])
  · intro rest
    exact decode_named "amp".toList _ rest (by simp [match_here, match_name, entity_names, starts_with])
      (by simp [named_char, strncmp_eq])
  · intro rest
    exact decode_named "quot".toList _ rest (by simp [match_here, match_name, entity_names, starts_with])
      (by simp [named_char, strncmp_eq])
  · intro rest
    exact decode_named "apos".toList _ rest (by simp [match_here, match_name, entity_names, starts_with])
      (by simp [named_char, strncmp_eq])
  · intro rest
    exact decode_named "cent".toList _ rest (by simp [match_here, match_name, entity_names, starts_with])
      (by simp [named_char, strncmp_eq])
  · intro rest
    exact decode_named "pound".toList _ rest (by simp [match_here, match_name, entity_names, starts_with])
      (by simp [named_char, strncmp_eq])
  · intro rest
    exact decode_named "yen".toList _ rest (by simp [match_here, match_name, entity_names, starts_with])
      (by simp [named_char, strncmp_eq])
  · intro rest
    exact decode_named "euro".toList _ rest (by simp [match_here, match_name, entity_names, starts_with])
      (by simp [named_char, strncmp_eq])
  · intro rest
    exact decode_named "copy".toList _ rest (by simp [match_here, match_name, entity_names, starts_with])
      (by simp [named_char, strncmp_eq])
  · intro rest
    exact decode_named "reg".toList _ rest (by simp [match_here, match_name, entity_names, starts_with])
      (by simp [named_char, strncmp_eq])

theorem decode_html_entities_spec_witness :
    decode_html_entities "50% off".toList = ambstoc32 "50% off".toList ∧
    decode_html_entities "fish & chips".toList = ambstoc32 "fish & chips".toList ∧
    ((notif_set_summary pair_mgr 0 "A &amp; B".toList).notifs[0]?).bind notif_get_summary
      = some "A & B".toList :=
  ⟨decode_html_entities_spec.1 _ (by decide), decode_html_entities_spec.2.1 _ (by decide),
    decode_html_entities_spec.2.2.2.1 pair_mgr 0 _ rfl⟩

theorem digit_value_of_digit (base : Nat) (c : Char) (h : is_digit_in base c = true) :
    digit_value c ≠ none := by
  intro hn
  simp [is_digit_in, hn] at h

theorem digit_not_special (base : Nat) (c : Char) (h : is_digit_in base c = true) :
    isspace c = false ∧ c ≠ '-' ∧ c ≠ '+' ∧ c ≠ ';' := by
  have hv := digit_value_of_digit base c h
  refine ⟨?_, ?_, ?_, ?_⟩
  · cases hs : isspace c with
    | false => rfl
    | true =>
      simp only [isspace, Bool.or_eq_true, decide_eq_true_eq] at hs
      rcases hs with ((((rfl | rfl) | rfl) | rfl) | rfl) | rfl <;> exact absurd (by decide) hv
  all_goals (intro hc; subst hc; exact absurd (by decide) hv)

theorem digit_not_x (base : Nat) (c : Char) (hb : base ≤ 16) (h : is_digit_in base c = true) :
    c ≠ 'x' ∧ c ≠ 'X' := by
  constructor
  · intro hc; subst hc
    have : digit_value 'x' = some 33 := by decide
    simp [is_digit_in, this] at h; omega
  · intro hc; subst hc
    have : digit_value 'X' = some 33 := by decide
    simp [is_digit_in, this] at h; omega

theorem takeWhile_digits (base : Nat) (ds rest : List Char)
    (hd : ∀ c ∈ ds, is_digit_in base c = true) :
    (ds ++ ';' :: rest).takeWhile (is_digit_in base) = ds ∧
    (ds ++ ';' :: rest).dropWhile (is_digit_in base) = ';' :: rest := by
  have hs : is_digit_in base ';' = false := by
    have : digit_value ';' = none := by decide
    simp [is_digit_in, this]
  induction ds with
  | nil => simp [List.takeWhile, List.dropWhile, hs]
  | cons d ds ih =>
    have h1 := hd d (by simp)
    have h2 := ih (fun c hc => hd c (by simp [hc]))
    simp [List.takeWhile, List.dropWhile, h1, h2]

theorem strtoul_digits (base : Nat) (ds rest : List Char) (hb : base ≤ 16) (hne : ds ≠ [])
    (hd : ∀ c ∈ ds, is_digit_in base c = true) :
    strtoul (ds ++ ';' :: rest) base =
      if digits_value base ds ≥ 2 ^ 64 then
        { value := 2 ^ 64 - 1, rest := ';' :: rest, erange := true }
      else { value := digits_value base ds, rest := ';' :: rest, erange := false } := by
  obtain ⟨d, ds1, rfl⟩ := List.exists_cons_of_ne_nil hne
  have h1 := hd d (by simp)
  obtain ⟨hsp, hm, hp, _⟩ := digit_not_special base d h1
  have htw := takeWhile_digits base (d :: ds1) rest hd
  have hs3 : (match (d :: ds1 ++ ';' :: rest) with
      | '0' :: x :: d2 :: r =>
        if base = 16 ∧ (x = 'x' ∨ x = 'X') ∧ is_digit_in 16 d2 then d2 :: r
        else (d :: ds1 ++ ';' :: rest)
      | _ => (d :: ds1 ++ ';' :: rest)) = d :: ds1 ++ ';' :: rest := by
    split
    · rename_i x d2 r heq
      split
      · rename_i hc
        exfalso
        cases ds1 with
        | nil =>
          simp at heq
          rcases hc.2.1 with hx | hx <;> simp [hx] at heq
        | cons e es =>
          simp at heq
          have he := digit_not_x base e hb (hd e (by simp))
          rcases hc.2.1 with hx | hx
          · exact he.1 (heq.2.1.trans hx)
          · exact he.2 (heq.2.1.trans hx)
      · rfl
    · rfl
  unfold strtoul
  simp only [List.cons_append, List.dropWhile_cons, hsp, List.head?_cons, Option.some.injEq, hm,
    hp, or_self, if_false, Bool.false_eq_true]
  simp only [List.cons_append] at hs3 htw
  rw [hs3]
  simp only [htw.1]
  simp

theorem match_name_hash (r : List Char) : match_name ('#' :: r) entity_names = none := by
  simp [match_name, entity_names, starts_with]

theorem match_number_digits (base : Nat) (ds rest : List Char) (hne : ds ≠ [])
    (hd : ∀ c ∈ ds, is_digit_in base c = true) :
    match_number (is_digit_in base) (ds ++ ';' :: rest) = some ds.length := by
  have htw := takeWhile_digits base ds rest hd
  simp [match_number, htw.1, htw.2, hne]

theorem match_here_decimal (ds rest : List Char) (hne : ds ≠ [])
    (hd : ∀ c ∈ ds, is_digit_in 10 c = true) :
    match_here ('&' :: '#' :: (ds ++ ';' :: rest)) = some (ds.length + 3, entity.decimal) := by
  obtain ⟨d, ds1, rfl⟩ := List.exists_cons_of_ne_nil hne
  have hx := (digit_not_x 10 d (by omega) (hd d (by simp))).1
  have hn := match_number_digits 10 (d :: ds1) rest (by simp) hd
  simp only [List.cons_append] at hn
  simp only [match_here, List.cons_append, match_name_hash]
  split
  · rename_i r heq
    simp at heq
    exact absurd heq.1 hx
  · rename_i r heq
    simp at heq
    subst heq
    simp [hn]
  · rename_i h1 h2
    exact absurd rfl (h2 _)

theorem match_here_hex (ds rest : List Char) (hne : ds ≠ [])
    (hd : ∀ c ∈ ds, is_digit_in 16 c = true) :
    match_here ('&' :: '#' :: 'x' :: (ds ++ ';' :: rest)) = some (ds.length + 4, entity.hex) := by
  simp [match_here, match_name_hash, match_number_digits 16 ds rest hne hd]

theorem scan_entity_step (c : Char) (cs : List Char) (m : Nat × entity)
    (h : match_here (c :: cs) = some m) :
    scan_entities 0 (c :: cs)
      = entity_append m.2 (c :: cs) ++ scan_entities 0 (cs.drop (m.1 - 1)) := by
  simp only [scan_entities, h]
  rw [scan_entities_skip]

theorem decode_numeric (is_hex : Bool) (ds rest : List Char) (hne : ds ≠ [])
    (hd : ∀ c ∈ ds, is_digit_in (if is_hex then 16 else 10) c = true) :
    decode_html_entities ((if is_hex then "&#x".toList else "&#".toList) ++ ds ++ ';' :: rest)
      = (if digits_value (if is_hex then 16 else 10) ds ≥ 2 ^ 64 then []
          else [digits_value (if is_hex then 16 else 10) ds % 2 ^ 32])
        ++ decode_html_entities rest := by
  rw [decode_scan, decode_scan]
  cases is_hex with
  | false =>
    simp only [Bool.false_eq_true, if_false] at hd ⊢
    have hm := match_here_decimal ds rest hne hd
    have hs := strtoul_digits 10 ds rest (by omega) hne hd
    have he : ("&#".toList ++ ds ++ ';' :: rest) = '&' :: '#' :: (ds ++ ';' :: rest) := by simp
    rw [he, scan_entity_step _ _ _ hm]
    by_cases hv : digits_value 10 ds ≥ 2 ^ 64
    · rw [if_pos hv] at hs ⊢
      simp [entity_append, hs]
    · rw [if_neg hv] at hs ⊢
      simp [entity_append, hs]
  | true =>
    simp only [if_true] at hd ⊢
    have hm := match_here_hex ds rest hne hd
    have hs := strtoul_digits 16 ds rest (by omega) hne hd
    have he : ("&#x".toList ++ ds ++ ';' :: rest) = '&' :: '#' :: 'x' :: (ds ++ ';' :: rest) := by
      simp
    rw [he, scan_entity_step _ _ _ hm]
    by_cases hv : digits_value 16 ds ≥ 2 ^ 64
    · rw [if_pos hv] at hs ⊢
      simp [entity_append, hs]
    · rw [if_neg hv] at hs ⊢
      simp [entity_append, hs]

/-- C14, as amended. For a non-empty string of decimal digits (`is_hex` false,
written `&#D;`) or of hexadecimal digits (`is_hex` true, written `&#xH;`) whose
number `v` satisfies `0 < v < 2 ^ 32`, `decode_html_entities` writes exactly
the one value `v` for the entity, followed by the decoding of the text after
it, and that text is part of the resulting string: the string read up to its
terminator is `v` followed by the string decoded from the rest. -/
theorem decode_numeric_entity (is_hex : Bool) (ds rest : List Char) (hne : ds ≠ [])
    (hd : ∀ c ∈ ds, is_digit_in (if is_hex then 16 else 10) c = true)
    (hpos : 0 < digits_value (if is_hex then 16 else 10) ds)
    (hlt : digits_value (if is_hex then 16 else 10) ds < 2 ^ 32) :
    decode_html_entities ((if is_hex then "&#x".toList else "&#".toList) ++ ds ++ ';' :: rest)
      = digits_value (if is_hex then 16 else 10) ds :: decode_html_entities rest ∧
    c32str (decode_html_entities
        ((if is_hex then "&#x".toList else "&#".toList) ++ ds ++ ';' :: rest))
      = digits_value (if is_hex then 16 else 10) ds :: c32str (decode_html_entities rest) := by
  have h := decode_numeric is_hex ds rest hne hd
  have h64 : ¬ digits_value (if is_hex then 16 else 10) ds ≥ 2 ^ 64 := by omega
  have hmod : digits_value (if is_hex then 16 else 10) ds % 2 ^ 32
      = digits_value (if is_hex then 16 else 10) ds := Nat.mod_eq_of_lt hlt
  rw [if_neg h64, hmod] at h
  rw [h]
  refine ⟨rfl, ?_⟩
  have hz : digits_value (if is_hex then 16 else 10) ds ≠ 0 := by omega
  simp [c32str, List.takeWhile, hz]

theorem decode_numeric_entity_witness :
    decode_html_entities ("&#".toList ++ "8364".toList ++ ';' :: " 5".toList)
      = 8364 :: decode_html_entities " 5".toList ∧
    c32str (decode_html_entities ("&#x".toList ++ "20aC".toList ++ ';' :: " 5".toList))
      = 8364 :: c32str (decode_html_entities " 5".toList) :=
  ⟨(decode_numeric_entity false "8364".toList " 5".toList (by decide) (by decide) (by decide)
      (by decide)).1,
    (decode_numeric_entity true "20aC".toList " 5".toList (by decide) (by decide) (by decide)
      (by decide)).2⟩

/-- C14 fails as stated. `&#0;` writes the terminator, so the text after it is
not part of the decoded string; a number of `2 ^ 32` or more is cut to its low
32 bits (`&#4294967361;` gives `A`); and a number of `2 ^ 64` or more writes
nothing at all. -/
theorem decode_numeric_entity_counterexample :
    decode_html_entities "&#0;abc".toList = [0, 97, 98, 99] ∧
    c32str (decode_html_entities "&#0;abc".toList) = [] ∧
    decode_html_entities "&#4294967361;".toList = [65] ∧
    decode_html_entities "&#x10000000000000000;!".toList = [33] := by
  decide

/-! ### Format strings -/

theorem percent_append_eq (n : notif) (d : char32_t) :
    percent_append n d =
      if d = 'a'.toNat then c32str n.app
      else if d = 's'.toNat then c32str n.summary
      else if d = 'b'.toNat then c32str n.body
      else if d = 'A'.toNat then (if n.actions ≠ [] then ['*'.toNat] else [])
      else if d = '%'.toNat then ['%'.toNat]
      else [] := by
  unfold percent_append
  have h : (n.actions.length > 0) ↔ n.actions ≠ [] := List.length_pos
  by_cases h5 : d = '%'.toNat
  · subst h5; simp [h]
  · have h5n : ¬ d = 37 := h5
    simp [h, h5n]

theorem expand_loop_expansion (n : notif) (k : Nat) :
    ∀ l : List char32_t, l.length ≤ k →
      expand_loop n escape.ESCAPE_NONE l = format_expansion n l := by
  induction k with
  | zero =>
    intro l hl
    cases l with
    | nil => simp [expand_loop, format_expansion]
    | cons c cs => simp at hl
  | succ k ih =>
    intro l hl
    match l, hl with
    | [], _ => simp [expand_loop, format_expansion]
    | [c], _ =>
      by_cases h1 : c = '%'.toNat
      · simp [expand_loop, format_expansion, h1]
      · by_cases h2 : c = '\\'.toNat
        · simp [expand_loop, format_expansion, h2]
        · have h1n : ¬ c = 37 := h1
          have h2n : ¬ c = 92 := h2
          simp [expand_loop, format_expansion, h1n, h2n]
    | c :: d :: rest, hl =>
      have hr : rest.length ≤ k := by simp at hl; omega
      have hd : (d :: rest).length ≤ k := by simp at hl ⊢; omega
      by_cases h1 : c = '%'.toNat
      · rw [format_expansion, if_pos h1, ← ih rest hr, ← percent_append_eq]
        have h1n : c = 37 := h1
        simp [expand_loop, h1n]
      · by_cases h2 : c = '\\'.toNat
        · rw [format_expansion, if_neg h1, if_pos h2, ← ih rest hr]
          have h2n : c = 92 := h2
          simp [expand_loop, h2n, backslash_append]
        · rw [format_expansion, if_neg h1, if_neg h2, ← ih _ hd]
          have h1n : ¬ c = 37 := h1
          have h2n : ¬ c = 92 := h2
          simp [expand_loop, h1n, h2n]

/-- C15. `expand_format_string` gives the concatenation read off the format
from left to right (`format_expansion`): `%a`, `%s`, `%b` stand for the
application name, the summary and the body, `%A` for `*` exactly when the
notification has an action, `%%` for `%`, backslash-n for a newline, any other
percent or backslash pair and a lone one at the end for nothing, and any other
character for itself. The result is `NULL` exactly when the format is `NULL`
or that concatenation is empty. -/
theorem expand_format_string_spec (n : notif) (fmt : Option (List char32_t)) :
    expand_format_string n fmt =
      (match fmt with
        | none => none
        | some f =>
          if format_expansion n (c32str f) = [] then none
          else some (format_expansion n (c32str f))) ∧
    (expand_format_string n fmt = none ↔
      (fmt = none ∨ ∃ f, fmt = some f ∧ format_expansion n (c32str f) = [])) := by
  cases fmt with
  | none => simp [expand_format_string]
  | some f =>
    have h := expand_loop_expansion n _ (c32str f) (Nat.le_refl _)
    simp only [expand_format_string, h, List.length_eq_zero]
    by_cases he : format_expansion n (c32str f) = []
    · simp [he]
    · simp [he]

/-! ### The Notify method -/

theorem find_sync_tag_lt {t : String} {l : List notif} {i : Nat}
    (h : find_sync_tag t l = some i) : i < l.length := by
  induction l generalizing i with
  | nil => simp [find_sync_tag] at h
  | cons a as ih =>
    unfold find_sync_tag at h
    split at h
    · simp only [Option.map_eq_some'] at h
      obtain ⟨j, hj, rfl⟩ := h
      have := ih hj
      simp; omega
    · split at h
      · injection h with h; subst h; simp
      · simp only [Option.map_eq_some'] at h
        obtain ⟨j, hj, rfl⟩ := h
        have := ih hj
        simp; omega

theorem find_id_lt {id i : Nat} {l : List notif} (h : find_id id l = some i) :
    i < l.length := by
  obtain ⟨l1, x, l2, rfl, hlen, -, -⟩ := find_id_some h
  simp; omega

theorem get_notif_lt {mgr : notif_mgr} {id i : Nat} (h : notif_mgr_get_notif mgr id = some i) :
    i < mgr.notifs.length := by
  unfold notif_mgr_get_notif at h
  split at h
  · rename_i hc
    injection h with h; subst h; exact hc.2
  · exact find_id_lt h

theorem stack_new_pos (mgr : notif_mgr) (n : notif) :
    (stack_new mgr n).2 < (stack_new mgr n).1.notifs.length := by
  have := stack_pos_le n.urgency mgr.notifs
  simp [stack_new, link_at]
  omega

theorem create_notif_pos (mgr : notif_mgr) (r : Nat) (t : Option String) :
    (notif_mgr_create_notif mgr r t).2 < (notif_mgr_create_notif mgr r t).1.notifs.length := by
  unfold notif_mgr_create_notif
  cases h : notif_mgr_get_notif_for_sync_tag mgr t with
  | some i =>
    cases t with
    | none => simp [notif_mgr_get_notif_for_sync_tag] at h
    | some tag => exact find_sync_tag_lt h
  | none =>
    by_cases hr : r ≠ 0
    · simp only [hr, if_true, ne_eq, not_false_eq_true]
      cases h2 : notif_mgr_get_notif mgr r with
      | some i => exact get_notif_lt h2
      | none => exact stack_new_pos _ _
    · simp only [hr, if_false]
      exact stack_new_pos _ _

theorem store_length (mgr : notif_mgr) (i : Nat) (n : notif) :
    (store mgr i n).notifs.length = mgr.notifs.length := by
  simp [store]

theorem set_application_length (mgr : notif_mgr) (i : Nat) (text : String) :
    (notif_set_application mgr i text).notifs.length = mgr.notifs.length := by
  unfold notif_set_application
  split <;> simp [store_length]

theorem set_summary_length (mgr : notif_mgr) (i : Nat) (text : List Char) :
    (notif_set_summary mgr i text).notifs.length = mgr.notifs.length := by
  unfold notif_set_summary
  split <;> simp [store_length]

theorem set_body_length (mgr : notif_mgr) (i : Nat) (text : List Char) :
    (notif_set_body mgr i text).notifs.length = mgr.notifs.length := by
  unfold notif_set_body
  split <;> simp [store_length]

theorem set_urgency_pos (mgr : notif_mgr) (i : Nat) (u : urgency) (hi : i < mgr.notifs.length) :
    (notif_set_urgency mgr i u).2 < (notif_set_urgency mgr i u).1.notifs.length := by
  unfold notif_set_urgency
  split
  · exact hi
  · split
    · exact hi
    · split
      · simpa using hi
      · have := stack_pos_le u (mgr.notifs.eraseIdx i)
        simp [link_at]
        omega

theorem set_progress_get (mgr : notif_mgr) (k : Nat) (p : Int) (hk : k < mgr.notifs.length) :
    ∃ n, (notif_set_progress mgr k p).notifs[k]? = some n ∧ n.progress = p := by
  unfold notif_set_progress
  have hg : mgr.notifs[k]? = some (mgr.notifs[k]) := List.getElem?_eq_getElem hk
  rw [hg]
  by_cases hp : (mgr.notifs[k]).progress = p
  · exact ⟨_, by simp [hp, hg], hp⟩
  · exact ⟨_, by simp only [hp, if_false]; exact store_get mgr k _ _ hg, rfl⟩

theorem set_timeout_progress (mgr : notif_mgr) (k : Nat) (t : Int) (n : notif)
    (h : mgr.notifs[k]? = some n) :
    ∃ n', (notif_set_timeout mgr k t).notifs[k]? = some n' ∧ n'.progress = n.progress := by
  unfold notif_set_timeout
  rw [h]
  exact ⟨_, store_get mgr k _ _ h, rfl⟩

theorem add_actions_progress (as : List action) (mgr : notif_mgr) (k : Nat) (n : notif)
    (h : mgr.notifs[k]? = some n) :
    ∃ n', (add_actions mgr k as).notifs[k]? = some n' ∧ n'.progress = n.progress := by
  induction as generalizing mgr n with
  | nil => exact ⟨n, h, rfl⟩
  | cons a as ih =>
    have h1 : (notif_add_action mgr k a.id a.label).notifs[k]?
        = some { n with actions := n.actions ++ [{ id := a.id, label := a.label }] } := by
      unfold notif_add_action
      rw [h]
      exact store_get mgr k _ _ h
    obtain ⟨n', hn', hp⟩ := ih _ _ h1
    exact ⟨n', hn', hp⟩

theorem notify_apply_progress (mgr : notif_mgr) (msg : notify_msg) (actions : List action)
    (st : hint_state) (timeout_ms : Int) :
    ∃ n, (notify_apply mgr msg actions st timeout_ms).1.notifs[
        (notify_apply mgr msg actions st timeout_ms).2]? = some n ∧
      n.progress = st.progress_percent := by
  unfold notify_apply
  simp only
  have h1 := create_notif_pos mgr msg.replaces_id st.sync_tag
  rw [← set_application_length _ _ (String.mk (rstrip msg.app_name.toList)),
    ← set_summary_length _ _ (rstrip msg.summary.toList),
    ← set_body_length _ _ (rstrip msg.body.toList)] at h1
  have h2 := set_urgency_pos _ _ st.urgency h1
  obtain ⟨n6, h6, hp6⟩ := set_progress_get _ _ st.progress_percent h2
  by_cases ht : timeout_ms ≥ 0
  · rw [if_pos ht]
    obtain ⟨n7, h7, hp7⟩ := set_timeout_progress _ _ timeout_ms _ h6
    obtain ⟨n8, h8, hp8⟩ := add_actions_progress actions _ _ _ h7
    exact ⟨n8, h8, by rw [hp8, hp7, hp6]⟩
  · rw [if_neg ht]
    obtain ⟨n8, h8, hp8⟩ := add_actions_progress actions _ _ _ h6
    exact ⟨n8, h8, by rw [hp8, hp6]⟩


theorem hint_step_other {st st' : hint_state} {h : hint_entry}
    (hs : hint_step st h = some st') (hv : is_value_hint h = false) :
    st'.progress_percent = st.progress_percent := by
  cases h with
  | malformed => simp [hint_step] at hs
  | entry name value =>
    simp [is_value_hint] at hv
    unfold hint_step at hs
    simp only [hv, if_false] at hs
    split at hs
    · split at hs
      · injection hs with hs; subst hs; rfl
      · cases hs
    · split at hs
      · split at hs
        · injection hs with hs; subst hs; rfl
        · cases hs
      · split at hs
        · split at hs
          · injection hs with hs; subst hs; rfl
          · cases hs
        · split at hs
          · split at hs
            · injection hs with hs; subst hs; rfl
            · cases hs
          · injection hs with hs; subst hs; rfl

theorem hints_loop_other {l : List hint_entry} {st st' : hint_state}
    (hs : hints_loop st l = some st') (hv : ∀ e ∈ l, is_value_hint e = false) :
    st'.progress_percent = st.progress_percent := by
  induction l generalizing st with
  | nil => simp [hints_loop] at hs; subst hs; rfl
  | cons e es ih =>
    unfold hints_loop at hs
    cases h1 : hint_step st e with
    | none => simp [h1] at hs
    | some s1 =>
      simp only [h1] at hs
      rw [ih hs (fun x hx => hv x (by simp [hx])), hint_step_other h1 (hv e (by simp))]

theorem hints_loop_append (l1 l2 : List hint_entry) (st : hint_state) :
    hints_loop st (l1 ++ l2) = (hints_loop st l1).bind (fun s => hints_loop s l2) := by
  induction l1 generalizing st with
  | nil => simp [hints_loop]
  | cons e es ih =>
    simp only [List.cons_append, hints_loop]
    cases h1 : hint_step st e with
    | none => simp
    | some s1 => simp [ih]

theorem hints_loop_value {pre post : List hint_entry} {v : Int} {st st' : hint_state}
    (hs : hints_loop st (pre ++ hint_entry.entry "value" (hint_variant.int32 v) :: post)
      = some st')
    (hv : ∀ e ∈ post, is_value_hint e = false) :
    st'.progress_percent = min 100 (max 0 v) := by
  rw [hints_loop_append] at hs
  cases h1 : hints_loop st pre with
  | none => simp [h1] at hs
  | some s1 =>
    simp only [h1, Option.some_bind, hints_loop] at hs
    have h2 : hint_step s1 (hint_entry.entry "value" (hint_variant.int32 v))
        = some { s1 with progress_percent := min 100 (max 0 v) } := by
      simp [hint_step]
    rw [h2] at hs
    rw [hints_loop_other hs hv]


theorem hint_step_range {st st' : hint_state} {h : hint_entry}
    (hs : hint_step st h = some st')
    (h0 : st.progress_percent = -1 ∨ (0 ≤ st.progress_percent ∧ st.progress_percent ≤ 100)) :
    st'.progress_percent = -1 ∨ (0 ≤ st'.progress_percent ∧ st'.progress_percent ≤ 100) := by
  cases hv : is_value_hint h with
  | false => rw [hint_step_other hs hv]; exact h0
  | true =>
    cases h with
    | malformed => simp [is_value_hint] at hv
    | entry name value =>
      simp [is_value_hint] at hv
      subst hv
      cases value with
      | int32 v =>
        simp [hint_step] at hs
        subst hs
        right
        simp only
        omega
      | byte b => simp [hint_step] at hs
      | string s => simp [hint_step] at hs
      | image_struct w => simp [hint_step] at hs
      | other => simp [hint_step] at hs

theorem hints_loop_range {l : List hint_entry} {st st' : hint_state}
    (hs : hints_loop st l = some st')
    (h0 : st.progress_percent = -1 ∨ (0 ≤ st.progress_percent ∧ st.progress_percent ≤ 100)) :
    st'.progress_percent = -1 ∨ (0 ≤ st'.progress_percent ∧ st'.progress_percent ≤ 100) := by
  induction l generalizing st with
  | nil => simp [hints_loop] at hs; subst hs; exact h0
  | cons e es ih =>
    unfold hints_loop at hs
    cases h1 : hint_step st e with
    | none => simp [h1] at hs
    | some s1 =>
      simp only [h1] at hs
      exact ih hs (hint_step_range h1 h0)

theorem notify_created {mgr : notif_mgr} {msg : notify_msg} {hints : List hint_entry} {k : Nat}
    (hh : msg.hints = some hints) (hk : (notify mgr msg).notif = some k) :
    ∃ st n, hints_loop { urgency := URGENCY_NORMAL, sync_tag := none, progress_percent := -1 }
        hints = some st ∧
      (notify mgr msg).mgr.notifs[k]? = some n ∧ n.progress = st.progress_percent := by
  unfold notify at hk ⊢
  by_cases hp : notif_mgr_is_paused mgr = true
  · simp [hp] at hk
  · by_cases ha : msg.args_ok = true
    · simp only [hp, ha, if_false, Bool.not_true, Bool.false_eq_true] at hk ⊢
      cases h1 : msg.actions.bind actions_loop with
      | none => simp [h1] at hk
      | some actions =>
        simp only [h1, hh, Option.some_bind] at hk ⊢
        cases h2 : hints_loop
            { urgency := URGENCY_NORMAL, sync_tag := none, progress_percent := -1 } hints with
        | none => simp [h2] at hk
        | some st =>
          simp only [h2] at hk ⊢
          cases h3 : msg.expire_timeout with
          | none => simp [h3] at hk
          | some t =>
            simp only [h3, Option.some.injEq] at hk ⊢
            obtain ⟨n, hn, hpn⟩ := notify_apply_progress mgr msg actions st t
            subst hk
            exact ⟨st, n, rfl, hn, hpn⟩
    · simp [hp, ha] at hk

/-- C16, as amended. When `notify` has created or found a notification (at
position `k`), the progress stored on it is: -1 when the request has no hint
named `value`; and, when `value` carries the `int32` `v` (the last such hint
counting), 100 if `v > 100`, 0 if `v < 0` (the value -1 included) and `v`
otherwise. In every case the stored progress is -1 or lies between 0 and
100. -/
theorem notify_progress (mgr : notif_mgr) (msg : notify_msg) (hints : List hint_entry) (k : Nat)
    (hh : msg.hints = some hints) (hk : (notify mgr msg).notif = some k) :
    ∃ n, (notify mgr msg).mgr.notifs[k]? = some n ∧
      (n.progress = -1 ∨ (0 ≤ n.progress ∧ n.progress ≤ 100)) ∧
      ((∀ e ∈ hints, is_value_hint e = false) → n.progress = -1) ∧
      (∀ pre post v, hints = pre ++ hint_entry.entry "value" (hint_variant.int32 v) :: post →
        (∀ e ∈ post, is_value_hint e = false) →
        n.progress = if v > 100 then 100 else if v < 0 then 0 else v) := by
  obtain ⟨st, n, hst, hn, hp⟩ := notify_created hh hk
  have hval : ∀ pre post v,
      hints = pre ++ hint_entry.entry "value" (hint_variant.int32 v) :: post →
      (∀ e ∈ post, is_value_hint e = false) →
      n.progress = if v > 100 then 100 else if v < 0 then 0 else v := by
    intro pre post v he hpost
    rw [he] at hst
    rw [hp, hints_loop_value hst hpost]
    by_cases h1 : v > 100
    · rw [if_pos h1]; omega
    · rw [if_neg h1]
      by_cases h2 : v < 0
      · rw [if_pos h2]; omega
      · rw [if_neg h2]; omega
  have hnone : (∀ e ∈ hints, is_value_hint e = false) → n.progress = -1 := by
    intro hv
    rw [hp, hints_loop_other hst hv]
  refine ⟨n, hn, ?_, hnone, hval⟩
  rw [hp]
  exact hints_loop_range hst (Or.inl rfl)


theorem notify_progress_witness :
    ∃ n, (notify notif_mgr_new
        (plain_msg 0 [hint_entry.entry "value" (hint_variant.int32 250)])).mgr.notifs[0]?
        = some n ∧ n.progress = 100 := by
  obtain ⟨n, hn, -, -, h⟩ := notify_progress notif_mgr_new
    (plain_msg 0 [hint_entry.entry "value" (hint_variant.int32 250)])
    [hint_entry.entry "value" (hint_variant.int32 250)] 0 rfl (by decide)
  exact ⟨n, hn, (h [] [] 250 rfl (by simp)).trans (by decide)⟩

/-- C16 fails as stated for `v = -1`: a request whose `value` hint carries -1
leaves the progress 0 on the notification, not -1. -/
theorem notify_progress_counterexample :
    (notify notif_mgr_new
      (plain_msg 0 [hint_entry.entry "value" (hint_variant.int32 (-1))])).mgr.notifs.map
        (fun n => n.progress) = [0] := by
  decide

/-! ### Pausing -/

theorem dismiss_id_paused (mgr : notif_mgr) (id : Nat) (b : Bool) :
    notif_mgr_dismiss_id { mgr with paused := b } id
      = ({ (notif_mgr_dismiss_id mgr id).1 with paused := b }, (notif_mgr_dismiss_id mgr id).2) := by
  unfold notif_mgr_dismiss_id notif_mgr_dismiss_id_internal
  by_cases h0 : id = 0
  · simp only [h0, if_true]
    unfold notif_mgr_dismiss_current
    cases hl : mgr.notifs with
    | nil => simp [hl]
    | cons n ns =>
      simp only
      cases n.deferred_dismissal <;> simp [hl]
  · simp only [h0, if_false]
    cases hd : dismiss_loop id mgr.notifs <;> simp

/-- C17. While the manager is paused `notify` changes nothing in the manager
and creates no notification, but the id in its reply is 0 whatever
`replaces_id` the request carries: a request with `replaces_id = 7` is
answered with 0. The rest holds: pausing and then unpausing leaves the
manager not paused, and dismissing by id, dismissing all and listing the ids
do the same to the list whether or not the manager is paused. -/
theorem notify_paused_reply :
    (∀ (mgr : notif_mgr) (msg : notify_msg),
      notify (notif_mgr_pause mgr) msg
        = { mgr := notif_mgr_pause mgr, ret := true, reply := some 0, notif := none }) ∧
    (plain_msg 7 []).replaces_id = 7 ∧
    (notify (notif_mgr_pause pair_mgr) (plain_msg 7 [])).reply = some 0 ∧
    (∀ mgr : notif_mgr, notif_mgr_is_paused (notif_mgr_unpause (notif_mgr_pause mgr)) = false) ∧
    (∀ (mgr : notif_mgr) (id : Nat) (b : Bool),
      notif_mgr_dismiss_id { mgr with paused := b } id
        = ({ (notif_mgr_dismiss_id mgr id).1 with paused := b },
            (notif_mgr_dismiss_id mgr id).2)) ∧
    (∀ (mgr : notif_mgr) (b : Bool),
      notif_mgr_dismiss_all { mgr with paused := b }
        = ({ (notif_mgr_dismiss_all mgr).1 with paused := b }, (notif_mgr_dismiss_all mgr).2)) ∧
    (∀ (mgr : notif_mgr) (b ids : Bool) (max : Nat),
      notif_mgr_get_ids { mgr with paused := b } ids max = notif_mgr_get_ids mgr ids max) := by
  refine ⟨fun mgr msg => by simp [notify, notif_mgr_pause, notif_mgr_is_paused], rfl, by decide,
    fun mgr => rfl, dismiss_id_paused, fun mgr b => rfl, fun mgr b ids max => rfl⟩

/-! ### The selector command line -/

theorem dropWhile_bne_append (d : Char) (w R : List Char) (h : d ∉ w) :
    (w ++ d :: R).dropWhile (fun c => c != d) = d :: R ∧
    (w ++ d :: R).takeWhile (fun c => c != d) = w := by
  induction w with
  | nil => simp [List.dropWhile, List.takeWhile]
  | cons a as ih =>
    simp at h
    have ha : (a != d) = true := by simp [bne_iff_ne]; exact fun e => h.1 e.symm
    have := ih h.2
    simp [List.dropWhile, List.takeWhile, ha, this]

theorem dropWhile_bne_all (d : Char) (w : List Char) (h : d ∉ w) :
    w.dropWhile (fun c => c != d) = [] := by
  induction w with
  | nil => rfl
  | cons a as ih =>
    simp at h
    have ha : (a != d) = true := by simp [bne_iff_ne]; exact fun e => h.1 e.symm
    simp [List.dropWhile, ha, ih h.2]

theorem dropWhile_beq_replicate (c : Char) (k : Nat) (X : List Char) :
    (List.replicate k c ++ X).dropWhile (fun x => x == c) = X.dropWhile (fun x => x == c) := by
  induction k with
  | zero => simp
  | succ k ih => simp [List.replicate_succ, List.dropWhile, ih]

theorem dropWhile_beq_head (c : Char) (X : List Char) (h : X.head? ≠ some c) :
    X.dropWhile (fun x => x == c) = X := by
  cases X with
  | nil => rfl
  | cons a as =>
    have ha : (a == c) = false := by
      simp at h
      simpa using h
    simp [List.dropWhile, ha]

theorem is_quote_ne_space {q : Char} (h : is_quote q = true) : q ≠ ' ' := by
  intro e; subst e; revert h; decide


theorem render_head (ws : List (word × Nat)) (T : List Char)
    (hok : ∀ x ∈ ws, word_ok x.1 = true) (hT : T = [] ∨ open_tail T) :
    (render ws ++ T).head? ≠ some ' ' := by
  cases ws with
  | nil =>
    rcases hT with rfl | ⟨q, w, rfl, hq, -, -⟩
    · simp [render]
    · simp [render]; exact is_quote_ne_space hq
  | cons x rest =>
    have hx := hok x (by simp)
    obtain ⟨wd, k⟩ := x
    cases wd with
    | plain w =>
      simp [word_ok] at hx
      obtain ⟨⟨hne, hsp⟩, -⟩ := hx
      obtain ⟨c, cs, rfl⟩ := List.exists_cons_of_ne_nil hne
      simp [render, word_text]
      intro e; subst e; simp at hsp
    | quoted q w =>
      simp [word_ok] at hx
      simp [render, word_text]
      exact is_quote_ne_space hx.1


theorem push_argv_kept (argv : List (Option (List Char))) (w : List Char) :
    push_argv argv (some w)
      = argv ++ ((([w] : List (List Char)).filter (fun a => a.head? != some '%')).map some) := by
  cases w with
  | nil =>
    have h : ((none : Option Char) != some '%') = true := by decide
    simp [push_argv, List.filter_cons, h]
  | cons c cs =>
    by_cases hc : c = '%'
    · subst hc; simp [push_argv, List.filter_cons]
    · have h : (some c != some '%') = true := by simp [bne_iff_ne, hc]
      simp [push_argv, List.filter_cons, h, hc]

theorem kept_args_cons (x : word × Nat) (rest : List (word × Nat)) :
    kept_args (x :: rest)
      = ([word_arg x.1] : List (List Char)).filter (fun a => a.head? != some '%')
        ++ kept_args rest := by
  simp [kept_args, List.filter_cons]
  split <;> simp

theorem tokenize_loop_words (ws : List (word × Nat)) :
    ∀ (fuel : Nat) (argv : List (Option (List Char))) (T : List Char),
      (∀ x ∈ ws, word_ok x.1 = true) → seps_ok ws = true →
      (T = [] ∨ (open_tail T ∧ ∀ x ∈ ws, 1 ≤ x.2)) →
      (render ws ++ T).length < fuel →
      tokenize_loop fuel (next_delim (render ws ++ T)).1 (next_delim (render ws ++ T)).2 argv
        = if T = [] then some (argv ++ (kept_args ws).map some ++ [none]) else none := by
  induction ws with
  | nil =>
    intro fuel argv T _ _ hT hf
    obtain ⟨f, rfl⟩ : ∃ f, fuel = f + 1 := ⟨fuel - 1, by omega⟩
    rcases hT with rfl | ⟨⟨q, w, rfl, hq, hqw, hw⟩, -⟩
    · simp [render, next_delim, is_quote, tokenize_loop, push_argv, kept_args]
    · simp only [render, List.nil_append, next_delim, List.headD_cons, hq, if_true, List.tail_cons]
      simp [tokenize_loop, hw, dropWhile_bne_all q w hqw, is_quote_ne_space hq]
  | cons x rest ih =>
    intro fuel argv T hok hsep hT hf
    obtain ⟨f, rfl⟩ : ∃ f, fuel = f + 1 := ⟨fuel - 1, by omega⟩
    have hokr : ∀ y ∈ rest, word_ok y.1 = true := fun y hy => hok y (by simp [hy])
    have hsepr : seps_ok rest = true := by
      cases rest with
      | nil => rfl
      | cons y ys => simp [seps_ok] at hsep; exact hsep.2
    have hTr : T = [] ∨ (open_tail T ∧ ∀ y ∈ rest, 1 ≤ y.2) := by
      rcases hT with h | ⟨h1, h2⟩
      · exact Or.inl h
      · exact Or.inr ⟨h1, fun y hy => h2 y (by simp [hy])⟩
    have hT' : T = [] ∨ open_tail T := hT.imp id (fun h => h.1)
    have hX := render_head rest T hokr hT'
    -- the separator is empty only at the very end
    have hk : 1 ≤ x.2 ∨ (x.2 = 0 ∧ render rest ++ T = []) := by
      rcases Nat.eq_zero_or_pos x.2 with h0 | hpos
      · right
        refine ⟨h0, ?_⟩
        cases rest with
        | nil =>
          rcases hT with rfl | ⟨-, h2⟩
          · simp [render]
          · have := h2 x (by simp); omega
        | cons y ys => simp [seps_ok, h0] at hsep
      · exact Or.inl hpos
    have hx := hok x (by simp)
    have hkept := kept_args_cons x rest
    obtain ⟨wd, k⟩ := x
    cases wd with
    | plain w =>
      simp [word_ok] at hx
      obtain ⟨⟨hne, hsp⟩, hnq⟩ := hx
      obtain ⟨c, cs, rfl⟩ := List.exists_cons_of_ne_nil hne
      have hnd : next_delim (render ((word.plain (c :: cs), k) :: rest) ++ T)
          = (' ', render ((word.plain (c :: cs), k) :: rest) ++ T) := by
        simp at hnq
        simp [next_delim, render, word_text, hnq]
      rw [hnd]
      simp only
      rcases hk with hk | ⟨hk0, hnil⟩
      · obtain ⟨k', rfl⟩ : ∃ k', k = k' + 1 := ⟨k - 1, by omega⟩
        have hform : render ((word.plain (c :: cs), k' + 1) :: rest) ++ T
            = (c :: cs) ++ ' ' :: (List.replicate k' ' ' ++ (render rest ++ T)) := by
          simp [render, word_text, List.replicate_succ]
        have hd := dropWhile_bne_append ' ' (c :: cs) (List.replicate k' ' ' ++ (render rest ++ T))
          (by simpa using hsp)
        rw [hform]
        unfold tokenize_loop
        rw [if_neg (by simp)]
        rw [hd.1, hd.2]
        simp only
        rw [dropWhile_beq_replicate, dropWhile_beq_head ' ' _ hX, dropWhile_beq_head ' ' _ hX]
        rw [ih f _ T hokr hsepr hTr (by rw [hform] at hf; simp at hf ⊢; omega)]
        rw [push_argv_kept, hkept]
        simp [word_arg]
      · subst hk0
        have hT0 : T = [] := by
          cases T with
          | nil => rfl
          | cons a as => simp at hnil
        have hr0 : render rest = [] := by simpa [hT0] using hnil
        have hrest : rest = [] := by
          cases rest with
          | nil => rfl
          | cons y ys =>
            exfalso
            have hy := hok y (by simp)
            obtain ⟨wy, ky⟩ := y
            cases wy with
            | plain w1 =>
              have hlen := congrArg List.length hr0
              simp [render, word_text] at hlen
              simp [word_ok] at hy
              exact hy.1.1 hlen.1
            | quoted q1 w1 => simp [render, word_text] at hr0
        subst hT0; subst hrest
        simp only [render, word_text, List.replicate_zero, List.append_nil, if_true]
        unfold tokenize_loop
        rw [if_neg (by simp)]
        rw [dropWhile_bne_all ' ' (c :: cs) (by simpa using hsp)]
        simp only [ne_eq, not_true_eq_false, if_false]
        rw [push_argv_kept, hkept]
        simp [word_arg, push_argv, kept_args]
    | quoted q w =>
      simp [word_ok] at hx
      obtain ⟨hq, hqw⟩ := hx
      have hform : render ((word.quoted q w, k) :: rest) ++ T
          = q :: (w ++ q :: (List.replicate k ' ' ++ (render rest ++ T))) := by
        simp [render, word_text]
      have hnd : next_delim (render ((word.quoted q w, k) :: rest) ++ T)
          = (q, w ++ q :: (List.replicate k ' ' ++ (render rest ++ T))) := by
        rw [hform]; simp [next_delim, hq]
      rw [hnd]
      simp only
      have hd := dropWhile_bne_append q w (List.replicate k ' ' ++ (render rest ++ T)) hqw
      unfold tokenize_loop
      rw [if_neg (by simp)]
      rw [hd.1, hd.2]
      simp only
      have hskip : (List.replicate k ' ' ++ (render rest ++ T)).dropWhile (fun c => c == q)
          = List.replicate k ' ' ++ (render rest ++ T) := by
        apply dropWhile_beq_head
        rcases hk with hk | ⟨hk0, hnil⟩
        · obtain ⟨k', rfl⟩ : ∃ k', k = k' + 1 := ⟨k - 1, by omega⟩
          simp [List.replicate_succ]
          exact fun e => is_quote_ne_space hq e.symm
        · subst hk0; simp [hnil]
      rw [hskip, dropWhile_beq_replicate, dropWhile_beq_head ' ' _ hX]
      rw [ih f _ T hokr hsepr hTr (by rw [hform] at hf; simp at hf ⊢; omega)]
      rw [push_argv_kept, hkept]
      simp [word_arg]


/-- C20, as amended. For a command line written from words, each but the last
followed by at least one space, where a word is a non-empty run without a
space that does not start with a quote, or a span between two equal quotes
that does not contain that quote, `tokenize_cmdline` succeeds and returns, in
order and ended by `NULL`, the words with their quotes removed, except that
words starting with `%` are left out. When such a line (every word followed by
a space) is followed by an opening quote and a non-empty span in which that
quote does not occur again, it fails. -/
theorem tokenize_cmdline_words (ws : List (word × Nat))
    (hok : ∀ x ∈ ws, word_ok x.1 = true) (hsep : seps_ok ws = true) :
    tokenize_cmdline (render ws) = some ((kept_args ws).map some ++ [none]) ∧
    (∀ (q : Char) (w : List Char), is_quote q = true → q ∉ w → w ≠ [] →
      (∀ x ∈ ws, 1 ≤ x.2) → tokenize_cmdline (render ws ++ q :: w) = none) := by
  constructor
  · have h := tokenize_loop_words ws ((render ws).length + 1) [] [] hok hsep (Or.inl rfl)
      (by simp)
    simpa [tokenize_cmdline] using h
  · intro q w hq hqw hw hall
    have h := tokenize_loop_words ws ((render ws ++ q :: w).length + 1) [] (q :: w) hok hsep
      (Or.inr ⟨⟨q, w, rfl, hq, hqw, hw⟩, hall⟩) (by simp)
    simpa [tokenize_cmdline] using h

theorem tokenize_cmdline_words_witness :
    tokenize_cmdline (render [(word.plain "dmenu".toList, 1), (word.plain "-p".toList, 2),
        (word.quoted '\'' "pick one".toList, 1), (word.plain "%u".toList, 1),
        (word.quoted '"' "a b".toList, 0)])
      = some ((kept_args [(word.plain "dmenu".toList, 1), (word.plain "-p".toList, 2),
        (word.quoted '\'' "pick one".toList, 1), (word.plain "%u".toList, 1),
        (word.quoted '"' "a b".toList, 0)]).map some ++ [none]) ∧
    tokenize_cmdline (render [(word.plain "dmenu".toList, 1)] ++ '"' :: "b c".toList) = none :=
  ⟨(tokenize_cmdline_words _ (by decide) (by decide)).1,
    (tokenize_cmdline_words [(word.plain "dmenu".toList, 1)] (by decide) (by decide)).2
      '"' "b c".toList (by decide) (by decide) (by decide) (by decide)⟩

/-- C20 fails as stated. A word starting with `%` is lost; a leading space
gives an empty first argument; a tab does not separate words; and a command
line ending in a lone opening quote is accepted although the quote is never
closed. -/
theorem tokenize_cmdline_counterexample :
    tokenize_cmdline "dmenu %x -i".toList = some [some "dmenu".toList, some "-i".toList, none] ∧
    tokenize_cmdline " a".toList = some [some [], some "a".toList, none] ∧
    tokenize_cmdline "a\tb".toList = some [some "a\tb".toList, none] ∧
    tokenize_cmdline "a \"".toList = some [some "a".toList, none] := by
  decide

/-! ### Configuration file -/

/-- C19. In `parse_section_urgency` the key `progress-style` is rejected
whatever its value: the only test for it sits inside the branch of the key
`layer`, so the key falls through to the final "invalid key" error. A file
with `progress-style=bar` in `[low]` fails to load, while the same line in
`[main]` is accepted by `parse_section_main` and sets the style of all three
levels. -/
theorem urgency_progress_style_rejected :
    (∀ (env : config_env) (value : List Char) (conf : urgency_config),
      parse_section_urgency env "progress-style" value conf = none) ∧
    parse_config_file plain_env ["[low]".toList, "progress-style=bar".toList] config_defaults
      = none ∧
    parse_config_file plain_env ["[critical]".toList, "progress-style=BackGround".toList]
      config_defaults = none ∧
    (parse_config_file plain_env ["[main]".toList, "progress-style=BackGround".toList]
        config_defaults).map
      (fun c => (c.low.progress_style, c.normal.progress_style, c.critical.progress_style))
      = some (progress_style.PROGRESS_STYLE_BACKGROUND, progress_style.PROGRESS_STYLE_BACKGROUND,
          progress_style.PROGRESS_STYLE_BACKGROUND) := by
  refine ⟨fun env value conf => by simp [parse_section_urgency], by decide, by decide, by decide⟩

/-- C27. With id 0, `notif_mgr_dismiss_id` and `notif_mgr_expire_id` pop the
head of the list and, when its flag is already `DISMISS_DELAYED`
(`EXPIRE_DELAYED`), return without pushing it back: the head leaves the list
although it was neither destroyed nor signalled. When the flag is
`DISMISS_DEFER` (`EXPIRE_DEFER`) the head is pushed back with the flag set to
delayed. The loop taken for a non-zero id keeps a delayed notification in the
list: at `delayed_mgr`, dismissing id 1 leaves the list as it is, dismissing
id 0 empties it, and neither emits `NotificationClosed`. -/
theorem dismiss_current_delayed_dropped :
    (∀ (mgr : notif_mgr) (n : notif) (rest : List notif),
      notif_mgr_dismiss_id
          { mgr with notifs := { n with deferred_dismissal := DISMISS_DELAYED } :: rest } 0
        = ({ mgr with notifs := rest }, true, [])) ∧
    (∀ (mgr : notif_mgr) (n : notif) (rest : List notif),
      notif_mgr_expire_id
          { mgr with notifs := { n with deferred_expiral := EXPIRE_DELAYED } :: rest } 0
        = ({ mgr with notifs := rest }, true, [])) ∧
    (∀ (mgr : notif_mgr) (n : notif) (rest : List notif),
      notif_mgr_dismiss_id
          { mgr with notifs := { n with deferred_dismissal := DISMISS_DEFER } :: rest } 0
        = ({ mgr with notifs := { n with deferred_dismissal := DISMISS_DELAYED } :: rest },
            true, [])) ∧
    (∀ (mgr : notif_mgr) (n : notif) (rest : List notif),
      notif_mgr_expire_id
          { mgr with notifs := { n with deferred_expiral := EXPIRE_DEFER } :: rest } 0
        = ({ mgr with notifs := { n with deferred_expiral := EXPIRE_DELAYED } :: rest },
            true, [])) ∧
    notif_mgr_dismiss_id delayed_mgr 0 = ({ delayed_mgr with notifs := [] }, true, []) ∧
    notif_mgr_dismiss_id delayed_mgr 1 = (delayed_mgr, true, []) := by
  refine ⟨fun mgr n rest => rfl, fun mgr n rest => rfl, fun mgr n rest => rfl,
    fun mgr n rest => rfl, by decide, by decide⟩

/-! ### Replacing a notification -/

theorem set_urgency_get (mgr : notif_mgr) (i : Nat) (u : urgency) (n : notif)
    (h : mgr.notifs[i]? = some n) :
    (notif_set_urgency mgr i u).1.notifs[(notif_set_urgency mgr i u).2]?
      = some { n with urgency := u } := by
  have hi : i < mgr.notifs.length := by
    rcases Nat.lt_or_ge i mgr.notifs.length with h1 | h1
    · exact h1
    · rw [List.getElem?_eq_none h1] at h; cases h
  unfold notif_set_urgency
  rw [h]
  by_cases hu : n.urgency = u
  · subst hu
    simp [h]
  · simp only [hu, if_false]
    by_cases hl : mgr.notifs.length ≤ 1
    · simp [hl, hi]
    · simp only [hl, if_false]
      have hk := stack_pos_le u (mgr.notifs.eraseIdx i)
      simp only [link_at]
      rw [List.getElem?_append_right (by simp)]
      simp [List.length_take, Nat.min_eq_left hk]

theorem replaced_create {mgr : notif_mgr} {r i : Nat} {t : Option String}
    (h : replaced_notif mgr r t = some i) : notif_mgr_create_notif mgr r t = (mgr, i) := by
  unfold replaced_notif at h
  unfold notif_mgr_create_notif
  cases h1 : notif_mgr_get_notif_for_sync_tag mgr t with
  | some j => simp [h1] at h; subst h; rfl
  | none =>
    simp only [h1] at h ⊢
    by_cases hr : r ≠ 0
    · simp only [hr, if_true, ne_eq, not_false_eq_true] at h ⊢
      rw [h]
    · simp [hr] at h

theorem add_actions_actions (as : List action) (mgr : notif_mgr) (k : Nat) (n : notif)
    (h : mgr.notifs[k]? = some n) :
    ∃ n', (add_actions mgr k as).notifs[k]? = some n' ∧ n'.actions = n.actions ++ as ∧
      n'.id = n.id := by
  induction as generalizing mgr n with
  | nil => exact ⟨n, h, by simp, rfl⟩
  | cons a as ih =>
    have h1 : (notif_add_action mgr k a.id a.label).notifs[k]?
        = some { n with actions := n.actions ++ [{ id := a.id, label := a.label }] } := by
      unfold notif_add_action
      rw [h]
      exact store_get mgr k _ _ h
    obtain ⟨n', hn', ha, hid⟩ := ih _ _ h1
    exact ⟨n', hn', by rw [ha]; simp, hid⟩

theorem set_application_keep (mgr : notif_mgr) (i : Nat) (text : String) (n : notif)
    (h : mgr.notifs[i]? = some n) :
    ∃ n', (notif_set_application mgr i text).notifs[i]? = some n' ∧
      n'.actions = n.actions ∧ n'.id = n.id := by
  unfold notif_set_application
  rw [h]
  exact ⟨_, store_get mgr i _ _ h, rfl, rfl⟩

theorem set_summary_keep (mgr : notif_mgr) (i : Nat) (text : List Char) (n : notif)
    (h : mgr.notifs[i]? = some n) :
    ∃ n', (notif_set_summary mgr i text).notifs[i]? = some n' ∧
      n'.actions = n.actions ∧ n'.id = n.id := by
  unfold notif_set_summary
  rw [h]
  exact ⟨_, store_get mgr i _ _ h, rfl, rfl⟩

theorem set_body_keep (mgr : notif_mgr) (i : Nat) (text : List Char) (n : notif)
    (h : mgr.notifs[i]? = some n) :
    ∃ n', (notif_set_body mgr i text).notifs[i]? = some n' ∧
      n'.actions = n.actions ∧ n'.id = n.id := by
  unfold notif_set_body
  rw [h]
  exact ⟨_, store_get mgr i _ _ h, rfl, rfl⟩

theorem set_progress_keep (mgr : notif_mgr) (i : Nat) (p : Int) (n : notif)
    (h : mgr.notifs[i]? = some n) :
    ∃ n', (notif_set_progress mgr i p).notifs[i]? = some n' ∧
      n'.actions = n.actions ∧ n'.id = n.id := by
  unfold notif_set_progress
  rw [h]
  by_cases hp : n.progress = p
  · simp only [hp, if_true]
    exact ⟨_, h, rfl, rfl⟩
  · simp only [hp, if_false]
    exact ⟨_, store_get mgr i _ _ h, rfl, rfl⟩

theorem set_timeout_keep (mgr : notif_mgr) (i : Nat) (t : Int) (n : notif)
    (h : mgr.notifs[i]? = some n) :
    ∃ n', (notif_set_timeout mgr i t).notifs[i]? = some n' ∧
      n'.actions = n.actions ∧ n'.id = n.id := by
  unfold notif_set_timeout
  rw [h]
  exact ⟨_, store_get mgr i _ _ h, rfl, rfl⟩

theorem notify_apply_actions (mgr : notif_mgr) (msg : notify_msg) (actions : List action)
    (st : hint_state) (timeout_ms : Int) (i : Nat) (old : notif)
    (hc : notif_mgr_create_notif mgr msg.replaces_id st.sync_tag = (mgr, i))
    (hold : mgr.notifs[i]? = some old) :
    ∃ n, (notify_apply mgr msg actions st timeout_ms).1.notifs[
        (notify_apply mgr msg actions st timeout_ms).2]? = some n ∧
      n.actions = old.actions ++ actions ∧ n.id = old.id := by
  unfold notify_apply
  simp only [hc]
  obtain ⟨n2, h2, a2, i2⟩ :=
    set_application_keep mgr i (String.mk (rstrip msg.app_name.toList)) old hold
  obtain ⟨n3, h3, a3, i3⟩ := set_summary_keep _ i (rstrip msg.summary.toList) n2 h2
  obtain ⟨n4, h4, a4, i4⟩ := set_body_keep _ i (rstrip msg.body.toList) n3 h3
  have h5 := set_urgency_get _ i st.urgency _ h4
  obtain ⟨n6, h6, a6, i6⟩ := set_progress_keep _ _ st.progress_percent _ h5
  have e6 : n6.actions = old.actions := by rw [a6]; simp [a4, a3, a2]
  have f6 : n6.id = old.id := by rw [i6]; simp [i4, i3, i2]
  by_cases ht : timeout_ms ≥ 0
  · rw [if_pos ht]
    obtain ⟨n7, h7, a7, i7⟩ := set_timeout_keep _ _ timeout_ms _ h6
    obtain ⟨n8, h8, a8, i8⟩ := add_actions_actions actions _ _ _ h7
    exact ⟨n8, h8, by rw [a8, a7, e6], by rw [i8, i7, f6]⟩
  · rw [if_neg ht]
    obtain ⟨n8, h8, a8, i8⟩ := add_actions_actions actions _ _ _ h6
    exact ⟨n8, h8, by rw [a8, e6], by rw [i8, f6]⟩

/-- A `Notify` request that is handled (manager not paused, arguments well
formed) and replaces an existing notification, found by its sync tag or else
by a non-zero `replaces_id`, appends to the action list: the notification
keeps its id and its actions afterwards are the ones it had before followed
by the `(id, label)` pairs of the request, in request order. -/
theorem notify_replace_actions (mgr : notif_mgr) (msg : notify_msg) (acts : List action)
    (hints : List hint_entry) (st : hint_state) (t : Int) (i : Nat) (old : notif)
    (hp : notif_mgr_is_paused mgr = false) (ha : msg.args_ok = true)
    (hacts : msg.actions.bind actions_loop = some acts) (hh : msg.hints = some hints)
    (hst : hints_loop { urgency := URGENCY_NORMAL, sync_tag := none, progress_percent := -1 }
      hints = some st)
    (ht : msg.expire_timeout = some t)
    (hrep : replaced_notif mgr msg.replaces_id st.sync_tag = some i)
    (hold : mgr.notifs[i]? = some old) :
    ∃ k n, (notify mgr msg).notif = some k ∧ (notify mgr msg).mgr.notifs[k]? = some n ∧
      n.id = old.id ∧ n.actions = old.actions ++ acts ∧
      (notify mgr msg).reply = some old.id := by
  obtain ⟨n, hn, hact, hid⟩ :=
    notify_apply_actions mgr msg acts st t i old (replaced_create hrep) hold
  refine ⟨(notify_apply mgr msg acts st t).2, n, ?_, ?_, hid, hact, ?_⟩
  · simp [notify, hp, ha, hacts, hh, hst, ht]
  · simp only [notify, hp, ha, hacts, hh, hst, ht, Option.some_bind, Bool.false_eq_true,
      if_false, Bool.not_true]
    exact hn
  · simp only [notify, hp, ha, hacts, hh, hst, ht, Option.some_bind, Bool.false_eq_true,
      if_false, Bool.not_true]
    rw [hn]
    simp [hid]

theorem notify_replace_actions_witness :
    ∃ k n, (notify opened_mgr (action_msg 1 "reply" "Reply")).notif = some k ∧
      (notify opened_mgr (action_msg 1 "reply" "Reply")).mgr.notifs[k]? = some n ∧
      n.id = 1 ∧
      n.actions = [{ id := "default", label := "Open".toList },
        { id := "reply", label := "Reply".toList }] ∧
      (notify opened_mgr (action_msg 1 "reply" "Reply")).reply = some 1 := by
  obtain ⟨k, n, h1, h2, h3, h4, h5⟩ := notify_replace_actions opened_mgr
    (action_msg 1 "reply" "Reply") [{ id := "reply", label := "Reply".toList }] []
    { urgency := URGENCY_NORMAL, sync_tag := none, progress_percent := -1 } (-1) 0
    (opened_mgr.notifs.headD (notif_init 0 none)) (by decide) (by decide) (by decide) rfl
    (by decide) rfl (by decide) (by decide)
  refine ⟨k, n, h1, h2, h3.trans (by decide), h4.trans (by decide), h5.trans (by decide)⟩

/-- C28. A request that replaces a notification does not replace its
actions: `notif_add_action` appends and nothing empties the list. A request
with the action "default" creates notification 1; a second request with
`replaces_id = 1` and the action "reply" leaves it with both actions, the
earlier one first; and sending the first request again with
`replaces_id = 1` leaves it with the action "default" twice. -/
theorem notify_replace_actions_kept :
    opened_mgr.notifs.map (fun n => (n.id, n.actions.map (fun a => a.id)))
      = [(1, ["default"])] ∧
    (notify opened_mgr (action_msg 1 "reply" "Reply")).mgr.notifs.map
      (fun n => (n.id, n.actions.map (fun a => a.id))) = [(1, ["default", "reply"])] ∧
    (notify opened_mgr (action_msg 1 "default" "Open")).mgr.notifs.map
      (fun n => (n.id, n.actions.map (fun a => a.id))) = [(1, ["default", "default"])] := by
  decide

/-! ### Urgency of a request -/

/-- C29. The byte of the `urgency` hint is stored as it comes: a request
whose hint carries `b` leaves a notification of urgency `b`, also for `b = 3`
or `b = 255`. For such a notification `by_urgency` is read outside its three
elements, which is where `notif_reload_timeout` starts. -/
theorem notify_urgency_unchecked :
    (∀ b : Nat, (notify notif_mgr_new
      (plain_msg 0 [hint_entry.entry "urgency" (hint_variant.byte b)])).mgr.notifs.map
        (fun n => n.urgency) = [b]) ∧
    (∀ conf : config, by_urgency conf 3 = none ∧ by_urgency conf 255 = none) ∧
    (∀ (conf : config) (seats : List seat) (n : notif) (timer_ok : Bool),
      notif_reload_timeout conf seats { n with urgency := 3 } timer_ok
        = reload_result.bad_index) := by
  refine ⟨fun b => ?_, fun conf => ⟨rfl, rfl⟩, fun conf seats n timer_ok => rfl⟩
  by_cases hb : b = 1
  · subst hb; decide
  · have hb' : ¬ (1 = b) := fun h => hb h.symm
    simp [notify, notif_mgr_is_paused, notif_mgr_new, plain_msg, actions_loop, hints_loop,
      hint_step, notify_apply, notif_mgr_create_notif, notif_mgr_get_notif_for_sync_tag,
      stack_new, stack_pos, rscan, link_at, notif_init, notif_set_application, store,
      notif_set_summary, notif_set_body, notif_set_urgency, notif_set_progress, add_actions,
      URGENCY_NORMAL, hb, hb']

/-! ### Command templates -/

theorem strstr_bound (needle : List Char) :
    ∀ (s : List Char) (k : Nat), strstr s needle = some k → k + needle.length ≤ s.length := by
  intro s
  induction s with
  | nil =>
    intro k h
    unfold strstr at h
    split_ifs at h with hn
    simp at h
    subst hn; subst h; simp
  | cons c rest ih =>
    intro k h
    unfold strstr at h
    split_ifs at h with hp
    · simp at h
      subst h
      have := (List.isPrefixOf_iff_prefix.mp hp).length_le
      simpa using this
    · cases hr : strstr rest needle with
      | none => simp [hr] at h
      | some j =>
        simp [hr] at h
        subst h
        have := ih j hr
        simp only [List.length_cons]
        omega

theorem template_loop_total (keys : List (List Char × List Char)) :
    ∀ (fuel : Nat) (last_end expanded : List Char), last_end.length < fuel →
      ∃ out, template_loop keys fuel last_end expanded = some out := by
  intro fuel
  induction fuel with
  | zero => intro l e h; omega
  | succ fuel ih =>
    intro l e h
    unfold template_loop
    cases h1 : strstr l "$\x7b".toList with
    | none => exact ⟨_, rfl⟩
    | some ofs =>
      simp only
      cases h2 : strstr (l.drop (ofs + 2)) "\x7d".toList with
      | none => exact ⟨_, rfl⟩
      | some e' =>
        simp only
        apply ih
        have b1 := strstr_bound _ _ _ h1
        have b2 := strstr_bound _ _ _ h2
        simp only [List.length_drop] at b2 ⊢
        have : "$\x7b".toList.length = 2 := rfl
        have : "\x7d".toList.length = 1 := rfl
        omega

theorem expand_arg_total (keys : List (List Char × List Char)) (arg : List Char) :
    ∃ out, expand_arg keys arg = some out :=
  template_loop_total keys _ _ _ (Nat.lt_succ_self _)

/-- C30. `spawn_expand_template` always returns an `argv` with as many
arguments as the template, expands a name that equals a key name, copies an
unclosed template and a name that is not the beginning of a key name
unchanged; but the key test compares only the characters of the name in the
template, so a name that is a proper beginning of a key name (or empty) is
replaced by that key's value instead of being copied as-is. -/
theorem spawn_expand_template_key_prefix :
    (∀ keys template, ∃ argv, spawn_expand_template keys template = some argv ∧
      argv.length = template.length) ∧
    expand_template ["aplay", "-q", "$\x7bfilename\x7d"] [("filename", "/s.wav")]
      = some ["aplay", "-q", "/s.wav"] ∧
    expand_template ["a $\x7bname\x7d b", "$\x7bfilename"] [("filename", "/s.wav")]
      = some ["a $\x7bname\x7d b", "$\x7bfilename"] ∧
    expand_template ["$\x7bfile\x7d", "x$\x7b\x7dy"] [("filename", "/s.wav")]
      = some ["/s.wav", "x/s.wavy"] := by
  refine ⟨?_, by decide, by decide, by decide⟩
  intro keys template
  induction template with
  | nil => exact ⟨[], rfl, rfl⟩
  | cons a rest ih =>
    obtain ⟨argv, h, hl⟩ := ih
    obtain ⟨out, ho⟩ := expand_arg_total keys a
    refine ⟨out :: argv, ?_, by simp [hl]⟩
    simp [spawn_expand_template, ho, h]

/-! ### Images -/

theorem notif_set_image_zero (img : notif_image) (pix : Int × Int) :
    (notif_set_image 0 img pix).map (fun r => r.pix) = some none := by
  simp [notif_set_image, notif_set_image_internal, notif_reset_image]

theorem notif_set_image_within (m : Int) (img : notif_image) (w h : Int) (hm : m ≠ 0)
    (hw : w ≤ m) (hh : h ≤ m) :
    (notif_set_image m img (w, h)).map
      (fun r => (r.pix, r.image_width, r.image_height, r.image_is_custom))
      = some (some (w, h), w, h, true) := by
  simp [notif_set_image, notif_set_image_internal, hm, hw, hh]

theorem tdiv_lt_twice (m w k : Int) (hm : 0 < m) (hw : 0 ≤ w) (hk : 0 < k)
    (hwk : Int.tdiv w m ≤ k) : Int.tdiv w k < 2 * m := by
  rw [Int.tdiv_eq_ediv hw (le_of_lt hk)] 
  rw [Int.tdiv_eq_ediv hw (le_of_lt hm)] at hwk
  apply Int.ediv_lt_of_lt_mul hk
  have h1 : w < (w / m + 1) * m := by
    have := Int.lt_ediv_add_one_mul_self w hm
    linarith
  have h2 : (w / m + 1) * m ≤ (k + 1) * m := by
    apply Int.mul_le_mul_of_nonneg_right _ (le_of_lt hm)
    omega
  nlinarith

theorem notif_set_image_lt_twice (m : Int) (img : notif_image) (w h : Int) (hm : 0 < m)
    (hw : 0 ≤ w) (hh : 0 ≤ h) :
    ∃ r, notif_set_image m img (w, h) = some r ∧ r.pix = some (w, h) ∧
      r.image_width < 2 * m ∧ r.image_height < 2 * m := by
  have hm0 : m ≠ 0 := ne_of_gt hm
  by_cases hfit : w ≤ m ∧ h ≤ m
  · simp only [notif_set_image, notif_set_image_internal, hm0, if_false]
    rw [if_pos hfit]
    refine ⟨_, rfl, rfl, ?_, ?_⟩
    · show w < 2 * m
      omega
    · show h < 2 * m
      omega
  · have hscale : 0 < (if Int.tdiv w m > Int.tdiv h m then Int.tdiv w m else Int.tdiv h m) := by
      rw [Int.tdiv_eq_ediv hw (le_of_lt hm), Int.tdiv_eq_ediv hh (le_of_lt hm)]
      have h1 : 0 ≤ w / m := Int.ediv_nonneg hw (le_of_lt hm)
      have h2 : 0 ≤ h / m := Int.ediv_nonneg hh (le_of_lt hm)
      by_cases hwm : w ≤ m
      · have : m < h := by
          by_contra hc; exact hfit ⟨hwm, by omega⟩
        have : 1 ≤ h / m := by
          rw [Int.le_ediv_iff_mul_le hm]; omega
        split_ifs <;> omega
      · have : 1 ≤ w / m := by
          rw [Int.le_ediv_iff_mul_le hm]; omega
        split_ifs <;> omega
    simp only [notif_set_image, notif_set_image_internal, hm0, if_false]
    rw [if_neg hfit, if_neg (ne_of_gt hscale)]
    refine ⟨_, rfl, rfl, ?_, ?_⟩
    · apply tdiv_lt_twice m w _ hm hw hscale
      split_ifs <;> omega
    · apply tdiv_lt_twice m h _ hm hh hscale
      split_ifs <;> omega

/-- C26. With `max_icon_size` 0 `notif_set_image` leaves no image, and an
image within `m x m` keeps its size; but a larger image is divided by the
integer quotient of its size by `m`, so it can stay larger than `m`: with
`m = 48` a 95 x 10 image keeps its 95 x 10 and a 100 x 100 image keeps
its 100 x 100, while a 96 x 96 image becomes 48 x 48. -/
theorem notif_set_image_overshoot :
    (∀ img pix, (notif_set_image 0 img pix).map (fun r => r.pix) = some none) ∧
    (notif_set_image 48 no_image (40, 48)).map
      (fun r => (r.pix, r.image_width, r.image_height)) = some (some (40, 48), 40, 48) ∧
    (notif_set_image 48 no_image (96, 96)).map
      (fun r => (r.image_width, r.image_height)) = some (48, 48) ∧
    (notif_set_image 48 no_image (95, 10)).map
      (fun r => (r.image_width, r.image_height)) = some (95, 10) ∧
    (notif_set_image 48 no_image (100, 100)).map
      (fun r => (r.image_width, r.image_height)) = some (50, 50) := by
  refine ⟨fun img pix => ?_, by decide, by decide, by decide, by decide⟩
  simp [notif_set_image, notif_set_image_internal, notif_reset_image]

/-! ### Idle events -/

theorem set_is_idle_resumed (seats : List seat) (k : Nat) (u : urgency) (hk : k < seats.length) :
    wayl_is_idle_for_urgency (set_is_idle seats k u false) u = false := by
  unfold wayl_is_idle_for_urgency set_is_idle
  rw [List.getElem?_eq_getElem hk]
  simp only
  rw [List.all_eq_false]
  refine ⟨{ seats[k] with is_idle := seats[k].is_idle.set u false }, ?_, ?_⟩
  · exact List.mem_iff_getElem.mpr ⟨k, by simpa using hk, by simp⟩
  · simp only [List.getD_eq_getElem?_getD]
    by_cases hu : u < seats[k].is_idle.length
    · simp [List.getElem?_set_self hu]
    · simp [List.getElem?_eq_none (by simpa using hu : (seats[k].is_idle.set u false).length ≤ u)]

theorem reload_timeout_idle (conf : config) (seats : List seat) (n : notif) (timer_ok : Bool)
    (hv : timeouts_in_range conf n = true)
    (hidle : wayl_is_idle_for_urgency seats n.urgency = true) :
    notif_reload_timeout conf seats n timer_ok = reload_result.done true none := by
  unfold timeouts_in_range at hv
  cases hc : by_urgency conf n.urgency with
  | none => simp [hc] at hv
  | some c =>
    simp only [hc, decide_eq_true_eq] at hv
    obtain ⟨h1, h2, h3, h4, h5⟩ := hv
    have hdm : to_int (c.default_timeout_secs * 1000) = c.default_timeout_secs * 1000 :=
      to_int_id (by omega) (by omega)
    have hneg : ¬ (if n.timeout_ms = -1 then c.default_timeout_secs * 1000 else n.timeout_ms) < 0 := by
      split_ifs with h
      · omega
      · rcases h5 with h5 | h5
        · exact absurd h5 h
        · omega
    simp only [notif_reload_timeout, hc, hdm, hidle, if_true]
    rw [if_neg hneg]

theorem reload_timeout_done (conf : config) (seats : List seat) (n : notif) (timer_ok : Bool)
    (hv : timeouts_in_range conf n = true) :
    ∃ ret timer, notif_reload_timeout conf seats n timer_ok = reload_result.done ret timer := by
  unfold timeouts_in_range at hv
  cases hc : by_urgency conf n.urgency with
  | none => simp [hc] at hv
  | some c =>
    simp only [hc, decide_eq_true_eq] at hv
    obtain ⟨h1, h2, h3, h4, h5⟩ := hv
    have hdm : to_int (c.default_timeout_secs * 1000) = c.default_timeout_secs * 1000 :=
      to_int_id (by omega) (by omega)
    have hneg : ¬ (if n.timeout_ms = -1 then c.default_timeout_secs * 1000 else n.timeout_ms) < 0 := by
      split_ifs with h
      · omega
      · rcases h5 with h5 | h5
        · exact absurd h5 h
        · omega
    simp only [notif_reload_timeout, hc, hdm]
    rw [if_neg hneg]
    split_ifs <;> exact ⟨_, _, rfl⟩

theorem notifs_reload_timeout_get (conf : config) (seats : List seat) (timer_ok : Bool) :
    ∀ (notifs : List notif), (∀ n ∈ notifs, timeouts_in_range conf n = true) →
      ∀ (i : Nat) (n : notif), notifs[i]? = some n →
        (notifs_reload_timeout conf seats timer_ok notifs)[i]?
          = some (notif_reload_timeout conf seats n timer_ok) := by
  intro notifs
  induction notifs with
  | nil => intro _ i n h; simp at h
  | cons a rest ih =>
    intro hv i n h
    obtain ⟨ret, timer, hd⟩ := reload_timeout_done conf seats a timer_ok (hv a (by simp))
    unfold notifs_reload_timeout
    rw [hd]
    simp only
    cases i with
    | zero =>
      simp at h
      subst h
      simp [hd]
    | succ j =>
      simp only [List.getElem?_cons_succ] at h ⊢
      exact ih (fun n hn => hv n (List.mem_cons_of_mem _ hn)) j n h

/-- C21, as amended. With working timer calls and every notification's
timeouts in range: when every seat is idle for urgency `u` after the idle
event, its reload leaves every notification of urgency `u` without a timer;
the reload of the resume event arms, for every notification of urgency `u`
whose effective timeout is positive, a timer for the whole effective timeout
(and none when the effective timeout is 0), whatever time had run before. -/
theorem idle_reload_spec (conf : config) (seats : List seat) (mgr : notif_mgr) (k : Nat)
    (u : urgency) (c : urgency_config)
    (hk : k < seats.length) (hu : by_urgency conf u = some c)
    (hv : ∀ n ∈ mgr.notifs, timeouts_in_range conf n = true) :
    (wayl_is_idle_for_urgency (idle_idled conf seats mgr k u true).1 u = true →
      ∀ (i : Nat) (n : notif), mgr.notifs[i]? = some n → n.urgency = u →
        (idle_idled conf seats mgr k u true).2[i]? = some (reload_result.done true none)) ∧
    (∀ (i : Nat) (n : notif), mgr.notifs[i]? = some n → n.urgency = u →
      (idle_resumed conf (idle_idled conf seats mgr k u true).1 mgr k u true).2[i]?
        = some (reload_result.done true
            (if effective_ms n.timeout_ms c.default_timeout_secs c.max_timeout_secs > 0 then
              some (effective_ms n.timeout_ms c.default_timeout_secs c.max_timeout_secs
                      * 1000000 / 1000000000,
                    effective_ms n.timeout_ms c.default_timeout_secs c.max_timeout_secs
                      * 1000000 % 1000000000)
            else none))) := by
  refine ⟨fun hidle i n hn hnu => ?_, fun i n hn hnu => ?_⟩
  · have hmem : n ∈ mgr.notifs := List.mem_iff_getElem?.mpr ⟨i, hn⟩
    simp only [idle_idled, notif_mgr_notifs_reload_timeout] at hidle ⊢
    rw [notifs_reload_timeout_get conf _ true mgr.notifs hv i n hn]
    rw [reload_timeout_idle conf _ n true (hv n hmem) (by rw [hnu]; exact hidle)]
  · have hmem : n ∈ mgr.notifs := List.mem_iff_getElem?.mpr ⟨i, hn⟩
    have hvn := hv n hmem
    unfold timeouts_in_range at hvn
    rw [hnu, hu] at hvn
    simp only [decide_eq_true_eq] at hvn
    obtain ⟨h1, h2, h3, h4, h5⟩ := hvn
    simp only [idle_resumed, idle_idled, notif_mgr_notifs_reload_timeout]
    rw [notifs_reload_timeout_get conf _ true mgr.notifs hv i n hn]
    have hlen : k < (set_is_idle seats k u true).length := by
      unfold set_is_idle
      rw [List.getElem?_eq_getElem hk]
      simpa using hk
    rw [reload_timeout_active conf _ n c (by rw [hnu]; exact hu)
      (by rw [hnu]; exact set_is_idle_resumed _ k u hlen) ⟨h1, h2⟩ ⟨h3, h4⟩ h5]

theorem idle_reload_spec_witness :
    (idle_idled (config_with_timeouts 10 0) [active_seat] waiting_mgr 0 1 true).2
      = [reload_result.done true none] ∧
    (idle_resumed (config_with_timeouts 10 0)
        (idle_idled (config_with_timeouts 10 0) [active_seat] waiting_mgr 0 1 true).1
        waiting_mgr 0 1 true).2[0]?
      = some (reload_result.done true (some (10, 0))) := by
  have h := idle_reload_spec (config_with_timeouts 10 0) [active_seat] waiting_mgr 0 1
    (config_with_timeouts 10 0).normal (by decide) (by decide) (by decide)
  refine ⟨by decide, (h.2 0 { notif_init 1 none with timeout_ms := -1 } (by decide)
    (by decide)).trans (by decide)⟩

/-- C21 fails as stated: a notification with an effective timeout of 10 s
gets a timer of 10 s when it is created and again a timer of 10 s at the
resume event, however long it had been shown before the idle event; after
4 s the remaining duration would be 6 s. -/
theorem idle_resume_full_timeout_counterexample :
    notif_reload_timeout (config_with_timeouts 10 0) [active_seat]
        { notif_init 1 none with timeout_ms := -1 } true
      = reload_result.done true (some (10, 0)) ∧
    (idle_idled (config_with_timeouts 10 0) [active_seat] waiting_mgr 0 1 true).2
      = [reload_result.done true none] ∧
    (idle_resumed (config_with_timeouts 10 0)
        (idle_idled (config_with_timeouts 10 0) [active_seat] waiting_mgr 0 1 true).1
        waiting_mgr 0 1 true).2
      = [reload_result.done true (some (10, 0))] ∧
    spec_remaining_ms 10000 4000 = 6000 := by
  decide

/-! ### Text layout -/

theorem adv_sum_cons (cg : Nat × fcft_glyph) (rest : List (Nat × fcft_glyph)) :
    adv_sum (cg :: rest) = cg.2.advance_x + adv_sum rest := by
  simp [adv_sum]

theorem adv_sum_append (a b : List (Nat × fcft_glyph)) :
    adv_sum (a ++ b) = adv_sum a + adv_sum b := by
  simp [adv_sum]

theorem adv_sum_nonneg (items : List (Nat × fcft_glyph))
    (h : ∀ it ∈ items, 0 ≤ it.2.advance_x) : 0 ≤ adv_sum items := by
  induction items with
  | nil => simp [adv_sum]
  | cons a rest ih =>
    rw [adv_sum_cons]
    have := h a (by simp)
    have := ih (fun it hit => h it (List.mem_cons_of_mem _ hit))
    omega

/-- A stretch of glyphs none of which wraps, is a newline, or has no column,
without a height limit: the glyphs are appended side by side. -/
theorem layout_run_stretch (loc : ctype) (text : List char32_t) (fonts : font_set)
    (max_width left_pad right_pad max_y : Int) (distance : List Int) (run : glyph_run)
    (hy : max_y < 0) :
    ∀ (items rest : List (Nat × fcft_glyph)) (st : layout_state),
      (∀ it ∈ items, char_at text it.1 ≠ 10 ∧ 0 < it.2.cols) →
      no_wrap max_width left_pad right_pad distance st.x st.idx items →
      layout_run loc text fonts max_width left_pad right_pad max_y distance run
          (items ++ rest) st
        = layout_run loc text fonts max_width left_pad right_pad max_y distance run rest
            { st with
              glyph_list := st.glyph_list ++ side_by_side run st.y st.x items
              x := st.x + adv_sum items
              idx := st.idx + items.length } := by
  intro items
  induction items with
  | nil => intro rest st _ _; simp [side_by_side, adv_sum]
  | cons a items ih =>
    intro rest st h hn
    obtain ⟨cl, glyph⟩ := a
    obtain ⟨hnw, hn'⟩ := hn
    have ha := h (cl, glyph) (by simp)
    have hnl : char_at text cl ≠ 10 := ha.1
    have hcols : ¬ glyph.cols ≤ 0 := by have := ha.2; simp only at this; omega
    have hw : decide ((st.x > left_pad ∧ max_width > 0 ∧
        st.x + glyph.advance_x + distance.getD st.idx 0 + right_pad > max_width) ∨
        char_at text cl = 10) = false := by
      simp only [decide_eq_false_iff_not, not_or]
      exact ⟨hnw, hnl⟩
    have hclip : ¬ (max_y ≥ 0 ∧ st.y + fonts.regular.height > max_y) := by
      intro hc; omega
    rw [List.cons_append, layout_run]
    simp only [hw, Bool.false_and, if_false, hclip, hcols, Bool.false_eq_true]
    rw [ih rest _ (fun it hit => h it (List.mem_cons_of_mem _ hit)) hn']
    simp only [side_by_side, adv_sum_cons, List.length_cons, List.append_assoc,
      List.singleton_append]
    congr 1
    simp only [layout_state.mk.injEq, true_and, and_true]
    omega

theorem layout_run_wrap_glyph (loc : ctype) (text : List char32_t) (fonts : font_set)
    (max_width left_pad right_pad max_y : Int) (distance : List Int) (run : glyph_run)
    (hy : max_y < 0) (cl : Nat) (glyph : fcft_glyph) (rest : List (Nat × fcft_glyph))
    (st : layout_state) (hsp : loc.iswspace (char_at text cl) = false) (hcols : 0 < glyph.cols)
    (hw : st.x > left_pad ∧ max_width > 0 ∧
      st.x + glyph.advance_x + distance.getD st.idx 0 + right_pad > max_width) :
    layout_run loc text fonts max_width left_pad right_pad max_y distance run
        ((cl, glyph) :: rest) st
      = layout_run loc text fonts max_width left_pad right_pad max_y distance run rest
          { width := max st.width (st.x + right_pad)
            height := st.height + fonts.regular.height
            glyph_list := st.glyph_list ++
              side_by_side run (st.y + fonts.regular.height) left_pad [(cl, glyph)]
            x := left_pad + glyph.advance_x
            y := st.y + fonts.regular.height
            idx := st.idx + 1 } := by
  have hw' : decide ((st.x > left_pad ∧ max_width > 0 ∧
      st.x + glyph.advance_x + distance.getD st.idx 0 + right_pad > max_width) ∨
      char_at text cl = 10) = true := by
    simp only [decide_eq_true_eq]
    exact Or.inl hw
  have hclip : ¬ (max_y ≥ 0 ∧ st.y + fonts.regular.height + fonts.regular.height > max_y) := by
    intro hc; omega
  have hclip2 : ¬ (max_y ≥ 0 ∧ st.y + fonts.regular.height > max_y) := by
    intro hc; omega
  have hc : ¬ glyph.cols ≤ 0 := by omega
  rw [layout_run]
  simp only [hw', hsp, Bool.and_false, Bool.true_and, if_true, if_false, hclip, hc,
    Bool.false_eq_true, side_by_side]

theorem layout_run_wrap_space (loc : ctype) (text : List char32_t) (fonts : font_set)
    (max_width left_pad right_pad max_y : Int) (distance : List Int) (run : glyph_run)
    (cl : Nat) (glyph : fcft_glyph) (rest : List (Nat × fcft_glyph))
    (st : layout_state) (hsp : loc.iswspace (char_at text cl) = true)
    (hw : st.x > left_pad ∧ max_width > 0 ∧
      st.x + glyph.advance_x + distance.getD st.idx 0 + right_pad > max_width) :
    layout_run loc text fonts max_width left_pad right_pad max_y distance run
        ((cl, glyph) :: rest) st
      = layout_run loc text fonts max_width left_pad right_pad max_y distance run rest
          { width := max st.width (st.x + right_pad)
            height := st.height + fonts.regular.height
            glyph_list := st.glyph_list
            x := left_pad
            y := st.y + fonts.regular.height
            idx := st.idx + 1 } := by
  have hw' : decide ((st.x > left_pad ∧ max_width > 0 ∧
      st.x + glyph.advance_x + distance.getD st.idx 0 + right_pad > max_width) ∨
      char_at text cl = 10) = true := by
    simp only [decide_eq_true_eq]
    exact Or.inl hw
  rw [layout_run]
  simp only [hw', hsp, Bool.and_true, if_true]

theorem set_zero_same : ∀ (d : List Int) (i : Nat), d.getD i 0 = 0 → d.set i 0 = d := by
  intro d
  induction d with
  | nil => intro i _; simp
  | cons a rest ih =>
    intro i h
    cases i with
    | zero => simp at h; simp [h]
    | succ j =>
      simp only [List.set_cons_succ, List.cons.injEq, true_and]
      exact ih j (by simpa using h)

theorem distance_loop_word (loc : ctype) (text : List char32_t) (cluster : List Nat)
    (glyphs : List fcft_glyph) :
    ∀ (cs rest : List Nat) (idx : Nat) (d : List Int),
      (∀ c ∈ cs, loc.iswspace (char_at text c) = false) →
      (∀ i, idx ≤ i → i < idx + cs.length → d.getD i 0 = 0) →
      distance_loop loc text cluster glyphs idx (cs ++ rest) d
        = distance_loop loc text cluster glyphs (idx + cs.length) rest d := by
  intro cs
  induction cs with
  | nil => intro rest idx d _ _; rfl
  | cons c cs ih =>
    intro rest idx d h hz
    have hc := h c (by simp)
    rw [List.cons_append, distance_loop]
    simp only [hc, Bool.false_eq_true, not_false_eq_true, if_true]
    rw [set_zero_same d idx (hz idx (Nat.le_refl _) (by simp))]
    rw [ih rest (idx + 1) d (fun c hc => h c (List.mem_cons_of_mem _ hc))
      (fun i hi hi2 => hz i (by omega) (by simp only [List.length_cons]; omega))]
    simp only [List.length_cons]
    congr 1
    omega

theorem map_getD_mid {α : Type} (f : α → Nat) (X Y : List α) (y : α) (n : Nat)
    (hn : n = X.length) : ((X ++ y :: Y).map f).getD n 0 = f y := by
  subst hn
  induction X with
  | nil => simp
  | cons x X ih => simpa using ih

theorem map_getElem?_mid {α β : Type} (f : α → β) (X Y : List α) (y : α) (n : Nat)
    (hn : n = X.length) : ((X ++ y :: Y).map f)[n]? = some (f y) := by
  subst hn
  induction X with
  | nil => simp
  | cons x X ih => simpa using ih

theorem back_fill_word (loc : ctype) (text : List char32_t)
    (A : List (Nat × fcft_glyph))
    (hA : ∀ a, A.getLast? = some a → loc.iswspace (char_at text a.1) = true) :
    ∀ (W : List (Nat × fcft_glyph)), W ≠ [] →
      (∀ it ∈ W, loc.iswspace (char_at text it.1) = false) →
      ∀ (B : List (Nat × fcft_glyph)) (dist : Int) (d : List Int),
      back_fill loc text ((A ++ W ++ B).map (fun cg => cg.1)) ((A ++ W ++ B).map (fun cg => cg.2))
          (A.length + W.length) dist d
        = d.set A.length (dist + adv_sum W.tail) := by
  intro W
  induction W using List.reverseRecOn with
  | nil => intro h; exact absurd rfl h
  | append_singleton V w ih =>
    intro _ hW B dist d
    have hw : loc.iswspace (char_at text w.1) = false := hW w (by simp)
    have hshape : A ++ (V ++ [w]) ++ B = (A ++ V) ++ w :: B := by simp
    have hidx : ((A ++ (V ++ [w]) ++ B).map (fun cg => cg.1)).getD (A.length + V.length) 0
        = w.1 := by
      rw [hshape]
      exact map_getD_mid _ _ _ _ _ (by simp)
    have hg : ((A ++ (V ++ [w]) ++ B).map (fun cg => cg.2))[A.length + V.length]?
        = some w.2 := by
      rw [hshape]
      exact map_getElem?_mid _ _ _ _ _ (by simp)
    have hlen : A.length + (V ++ [w]).length = (A.length + V.length) + 1 := by
      simp; omega
    have hassoc : A ++ (V ++ [w]) ++ B = A ++ V ++ (w :: B) := by simp
    rw [hlen, back_fill]
    simp only [hidx, hw, Bool.false_eq_true, if_false, hg]
    by_cases hV : V = []
    · subst hV
      simp only [List.length_nil, Nat.add_zero, List.nil_append, List.tail_cons]
      rcases List.eq_nil_or_concat A with h | ⟨A', a, h⟩
      · subst h
        simp [back_fill, adv_sum]
      · rw [List.concat_eq_append] at h
        subst h
        have ha := hA a (by simp)
        have hi : ((A' ++ [a] ++ [w] ++ B).map (fun cg => cg.1)).getD A'.length 0 = a.1 := by
          have : A' ++ [a] ++ [w] ++ B = A' ++ a :: (w :: B) := by simp
          rw [this]
          exact map_getD_mid _ _ _ _ _ rfl
        have hfirst : (A' ++ [a]).length = 0 ∨ ((A' ++ [a]).length > 0 ∧
            loc.iswspace (char_at text (((A' ++ [a] ++ [w] ++ B).map (fun cg => cg.1)).getD
              ((A' ++ [a]).length - 1) 0)) = true) := by
          right
          refine ⟨by simp, ?_⟩
          have : (A' ++ [a]).length - 1 = A'.length := by simp
          rw [this, hi]
          exact ha
        rw [if_pos hfirst]
        have hl : (A' ++ [a]).length = A'.length + 1 := by simp
        rw [hl, back_fill]
        simp only [hi, ha, if_true]
        simp [adv_sum]
    · have hnot : ¬ (A.length + V.length = 0 ∨ (A.length + V.length > 0 ∧
          loc.iswspace (char_at text (((A ++ (V ++ [w]) ++ B).map (fun cg => cg.1)).getD
            (A.length + V.length - 1) 0)) = true)) := by
        obtain ⟨V', v, hv⟩ : ∃ V' v, V = V' ++ [v] := by
          rcases List.eq_nil_or_concat V with h | ⟨V', v, h⟩
          · exact absurd h hV
          · exact ⟨V', v, by rw [h, List.concat_eq_append]⟩
        subst hv
        have hvs := hW v (by simp)
        have hi : ((A ++ (V' ++ [v] ++ [w]) ++ B).map (fun cg => cg.1)).getD
            (A.length + (V' ++ [v]).length - 1) 0 = v.1 := by
          have : A ++ (V' ++ [v] ++ [w]) ++ B = (A ++ V') ++ v :: (w :: B) := by simp
          rw [this]
          exact map_getD_mid _ _ _ _ _ (by simp)
        rw [hi, hvs]
        simp
      rw [if_neg hnot, hassoc, ih hV (fun it hit => hW it (by simp [hit])) (w :: B)]
      congr 1
      have : (V ++ [w]).tail = V.tail ++ [w] := by
        cases V with
        | nil => exact absurd rfl hV
        | cons v V' => rfl
      rw [this, adv_sum_append]
      simp [adv_sum]
      omega

theorem getD_replicate_zero (n i : Nat) : (List.replicate n (0 : Int)).getD i 0 = 0 := by
  simp only [List.getD_eq_getElem?_getD, List.getElem?_replicate]
  split <;> rfl

theorem getD_set_ne (d : List Int) (i j : Nat) (v : Int) (h : i ≠ j) :
    (d.set i v).getD j 0 = d.getD j 0 := by
  simp only [List.getD_eq_getElem?_getD, List.getElem?_set_ne h]

theorem getD_set_eq (d : List Int) (i : Nat) (v : Int) (h : i < d.length) :
    (d.set i v).getD i 0 = v := by
  simp [List.getD_eq_getElem?_getD, List.getElem?_set_self h]

/-- The distances of a run that is one word: only the first glyph can have a
distance. -/
theorem word_distances_word (loc : ctype) (text : List char32_t) (run : glyph_run)
    (hne : run.items ≠ [])
    (hword : ∀ it ∈ run.items, loc.iswspace (char_at text it.1) = false) :
    word_distances loc text [run]
      = (List.replicate run.items.length 0).set 0 (adv_sum run.items.tail) := by
  unfold word_distances
  simp only [List.flatMap_cons, List.flatMap_nil, List.append_nil]
  have h1 := distance_loop_word loc text (run.items.map (fun cg => cg.1))
    (run.items.map (fun cg => cg.2)) (run.items.map (fun cg => cg.1)) [] 0
    (List.replicate run.items.length 0)
    (by
      intro c hc
      obtain ⟨it, hit, rfl⟩ := List.mem_map.mp hc
      exact hword it hit)
    (fun i _ _ => getD_replicate_zero _ _)
  rw [List.append_nil] at h1
  rw [h1]
  simp only [distance_loop]
  have h2 := back_fill_word loc text [] (by simp) run.items hne hword [] 0
    (List.replicate run.items.length 0)
  simp only [List.nil_append, List.append_nil, List.length_nil, Nat.zero_add, zero_add] at h2
  exact h2

/-- The distances of a run made of a word, a whitespace glyph and a word. -/
theorem word_distances_two_words (loc : ctype) (text : List char32_t) (run : glyph_run)
    (w1 w2 : List (Nat × fcft_glyph)) (sp : Nat × fcft_glyph)
    (hitems : run.items = w1 ++ sp :: w2) (hw1 : w1 ≠ []) (hw2 : w2 ≠ [])
    (hword : ∀ it ∈ w1 ++ w2, loc.iswspace (char_at text it.1) = false)
    (hsp : loc.iswspace (char_at text sp.1) = true) :
    word_distances loc text [run]
      = ((List.replicate (w1.length + 1 + w2.length) 0).set 0 (adv_sum w1.tail)).set
          (w1.length + 1) (adv_sum w2.tail) := by
  unfold word_distances
  simp only [List.flatMap_cons, List.flatMap_nil, List.append_nil, hitems]
  have hl : (w1 ++ sp :: w2).length = w1.length + 1 + w2.length := by
    simp; omega
  rw [hl]
  have hm : (w1 ++ sp :: w2).map (fun cg => cg.1)
      = w1.map (fun cg => cg.1) ++ sp.1 :: w2.map (fun cg => cg.1) := by simp
  have hword1 : ∀ it ∈ w1, loc.iswspace (char_at text it.1) = false :=
    fun it hit => hword it (by simp [hit])
  have hword2 : ∀ it ∈ w2, loc.iswspace (char_at text it.1) = false :=
    fun it hit => hword it (by simp [hit])
  -- the loop over the first word
  have h1 := distance_loop_word loc text ((w1 ++ sp :: w2).map (fun cg => cg.1))
    ((w1 ++ sp :: w2).map (fun cg => cg.2)) (w1.map (fun cg => cg.1))
    (sp.1 :: w2.map (fun cg => cg.1)) 0 (List.replicate (w1.length + 1 + w2.length) 0)
    (by
      intro c hc
      obtain ⟨it, hit, rfl⟩ := List.mem_map.mp hc
      exact hword1 it hit)
    (fun i _ _ => getD_replicate_zero _ _)
  rw [← hm] at h1
  rw [h1]
  -- the whitespace glyph
  simp only [List.length_map, Nat.zero_add]
  rw [distance_loop]
  simp only [hsp, not_true_eq_false, if_false]
  rw [set_zero_same _ _ (getD_replicate_zero _ _)]
  have h2 := back_fill_word loc text [] (by simp) w1 hw1 hword1 (sp :: w2) 0
    (List.replicate (w1.length + 1 + w2.length) 0)
  simp only [List.nil_append, List.length_nil, Nat.zero_add, zero_add] at h2
  rw [h2]
  -- the loop over the second word
  have h3 := distance_loop_word loc text ((w1 ++ sp :: w2).map (fun cg => cg.1))
    ((w1 ++ sp :: w2).map (fun cg => cg.2)) (w2.map (fun cg => cg.1)) [] (w1.length + 1)
    ((List.replicate (w1.length + 1 + w2.length) 0).set 0 (adv_sum w1.tail))
    (by
      intro c hc
      obtain ⟨it, hit, rfl⟩ := List.mem_map.mp hc
      exact hword2 it hit)
    (fun i hi _ => by
      rw [getD_set_ne _ _ _ _ (by omega)]
      exact getD_replicate_zero _ _)
  rw [List.append_nil] at h3
  rw [h3]
  simp only [distance_loop]
  -- the last word
  have h4 := back_fill_word loc text (w1 ++ [sp]) (by simp [hsp]) w2 hw2 hword2 [] 0
    ((List.replicate (w1.length + 1 + w2.length) 0).set 0 (adv_sum w1.tail))
  have e1 : w1 ++ [sp] ++ w2 ++ [] = w1 ++ sp :: w2 := by simp
  have e2 : (w1 ++ [sp]).length = w1.length + 1 := by simp
  rw [e1, e2, zero_add] at h4
  exact h4

theorem side_by_side_append (run : glyph_run) (y : Int) :
    ∀ (a b : List (Nat × fcft_glyph)) (x : Int),
      side_by_side run y x (a ++ b)
        = side_by_side run y x a ++ side_by_side run y (x + adv_sum a) b := by
  intro a
  induction a with
  | nil => intro b x; simp [side_by_side, adv_sum]
  | cons c a ih =>
    intro b x
    obtain ⟨cl, g⟩ := c
    rw [List.cons_append]
    simp only [side_by_side]
    rw [ih, adv_sum_cons, add_assoc]
    rfl

/-- Glyphs without a distance that fit between `x` and the maximal width do
not wrap. -/
theorem no_wrap_of_fit (max_width left_pad right_pad : Int) (distance : List Int) :
    ∀ (items : List (Nat × fcft_glyph)) (x : Int) (idx : Nat),
      (∀ it ∈ items, 0 ≤ it.2.advance_x) →
      (∀ i, idx ≤ i → i < idx + items.length → distance.getD i 0 = 0) →
      (max_width ≤ 0 ∨ x + adv_sum items + right_pad ≤ max_width) →
      no_wrap max_width left_pad right_pad distance x idx items := by
  intro items
  induction items with
  | nil => intro x idx _ _ _; trivial
  | cons c items ih =>
    intro x idx hadv hz hfit
    obtain ⟨cl, g⟩ := c
    have h0 := hz idx (Nat.le_refl _) (by simp)
    have hrest := adv_sum_nonneg items (fun it hit => hadv it (List.mem_cons_of_mem _ hit))
    rw [adv_sum_cons] at hfit
    refine ⟨?_, ih _ _ (fun it hit => hadv it (List.mem_cons_of_mem _ hit))
      (fun i hi hi2 => hz i (by omega) (by simp only [List.length_cons]; omega)) ?_⟩
    · rw [h0]
      simp only at hfit ⊢
      omega
    · rcases hfit with h | h
      · exact Or.inl h
      · right; simp only at h; omega

/-- A word at the start of a line whose glyphs after the first have no
distance does not wrap when it fits. -/
theorem no_wrap_line_start (max_width left_pad right_pad : Int) (distance : List Int)
    (items : List (Nat × fcft_glyph)) (idx : Nat)
    (hadv : ∀ it ∈ items, 0 ≤ it.2.advance_x)
    (hz : ∀ i, idx + 1 ≤ i → i < idx + items.length → distance.getD i 0 = 0)
    (hfit : max_width ≤ 0 ∨ left_pad + adv_sum items + right_pad ≤ max_width) :
    no_wrap max_width left_pad right_pad distance left_pad idx items := by
  cases items with
  | nil => trivial
  | cons c items =>
    obtain ⟨cl, g⟩ := c
    rw [adv_sum_cons] at hfit
    refine ⟨fun h => by omega, no_wrap_of_fit _ _ _ _ _ _ _
      (fun it hit => hadv it (List.mem_cons_of_mem _ hit))
      (fun i hi hi2 => hz i hi (by simp only [List.length_cons]; omega)) ?_⟩
    rcases hfit with h | h
    · exact Or.inl h
    · right; simp only at h ⊢; omega

theorem layout_run_extends (loc : ctype) (text : List char32_t) (fonts : font_set)
    (max_width left_pad right_pad max_y : Int) (distance : List Int) (run : glyph_run) :
    ∀ (items : List (Nat × fcft_glyph)) (st : layout_state),
      ∃ more, (layout_run loc text fonts max_width left_pad right_pad max_y distance run
        items st).glyph_list = st.glyph_list ++ more := by
  intro items
  induction items with
  | nil => intro st; exact ⟨[], by simp [layout_run]⟩
  | cons c items ih =>
    intro st
    obtain ⟨cl, g⟩ := c
    rw [layout_run]
    split_ifs
    all_goals first
      | exact ⟨[], (List.append_nil _).symm⟩
      | (obtain ⟨more, hm⟩ := ih _; exact ⟨more, hm⟩)
      | (obtain ⟨more, hm⟩ := ih _; exact ⟨_, hm.trans (List.append_assoc _ _ _)⟩)

theorem layout_glyphs_single (loc : ctype) (min_width max_width : Int) (fonts : font_set)
    (text : List char32_t) (left_pad right_pad y max_y : Int) (glyph_list : List glyph_layout)
    (run : glyph_run) :
    (layout_glyphs loc min_width max_width fonts text left_pad right_pad y max_y glyph_list
        [run]).glyph_list
      = (layout_run loc text fonts max_width left_pad right_pad max_y
          (word_distances loc text [run]) run run.items
          { x := left_pad, y := y, width := if min_width ≠ 0 then min_width else 0, height := 0,
            idx := 0, glyph_list := glyph_list }).glyph_list := rfl

/-- C24, as amended. For a run that is a single word (no whitespace glyph, no
newline, every glyph with a column and a non-negative advance), laid out
without a height limit: when the word fits between the paddings, or there is
no maximal width, all its glyphs are placed side by side on the first line;
when a beginning `pre` of the word fits but `pre` with the next glyph does
not, the word is broken there: `pre` stays on the first line and the next
glyph starts the following line. -/
theorem layout_single_word (loc : ctype) (min_width max_width : Int) (fonts : font_set)
    (text : List char32_t) (left_pad right_pad y max_y : Int) (glyph_list : List glyph_layout)
    (run : glyph_run) (hy : max_y < 0)
    (hword : ∀ it ∈ run.items, loc.iswspace (char_at text it.1) = false ∧
      char_at text it.1 ≠ 10 ∧ 0 < it.2.cols ∧ 0 ≤ it.2.advance_x) :
    (max_width ≤ 0 ∨ left_pad + adv_sum run.items + right_pad ≤ max_width →
      (layout_glyphs loc min_width max_width fonts text left_pad right_pad y max_y glyph_list
          [run]).glyph_list
        = glyph_list ++ side_by_side run y left_pad run.items) ∧
    (∀ (pre post : List (Nat × fcft_glyph)) (g : Nat × fcft_glyph),
      run.items = pre ++ g :: post → 0 < adv_sum pre → 0 < max_width →
      left_pad + adv_sum pre + right_pad ≤ max_width →
      left_pad + adv_sum pre + g.2.advance_x + right_pad > max_width →
      ∃ more,
        (layout_glyphs loc min_width max_width fonts text left_pad right_pad y max_y glyph_list
            [run]).glyph_list
          = glyph_list ++ side_by_side run y left_pad pre ++
              side_by_side run (y + fonts.regular.height) left_pad [g] ++ more) := by
  by_cases hne : run.items = []
  · refine ⟨fun _ => ?_, fun pre post g hitems => ?_⟩
    · rw [layout_glyphs_single, hne]
      simp [layout_run, side_by_side]
    · rw [hne] at hitems
      simp at hitems
  have hsp : ∀ it ∈ run.items, loc.iswspace (char_at text it.1) = false :=
    fun it hit => (hword it hit).1
  have hshow : ∀ it ∈ run.items, char_at text it.1 ≠ 10 ∧ 0 < it.2.cols :=
    fun it hit => ⟨(hword it hit).2.1, (hword it hit).2.2.1⟩
  have hadv : ∀ it ∈ run.items, 0 ≤ it.2.advance_x := fun it hit => (hword it hit).2.2.2
  have hD := word_distances_word loc text run hne hsp
  have hz : ∀ i, 0 + 1 ≤ i → (word_distances loc text [run]).getD i 0 = 0 := by
    intro i hi
    rw [hD, getD_set_ne _ _ _ _ (by omega)]
    exact getD_replicate_zero _ _
  refine ⟨fun hfit => ?_, fun pre post g hitems hpos hmax hfit hover => ?_⟩
  · have hnw := no_wrap_line_start max_width left_pad right_pad (word_distances loc text [run])
      run.items 0 hadv (fun i hi _ => hz i hi) hfit
    have h := layout_run_stretch loc text fonts max_width left_pad right_pad max_y
      (word_distances loc text [run]) run hy run.items []
      { x := left_pad, y := y, width := if min_width ≠ 0 then min_width else 0, height := 0,
        idx := 0, glyph_list := glyph_list } hshow hnw
    rw [List.append_nil] at h
    rw [layout_glyphs_single, h]
    simp [layout_run]
  · have hmem_pre : ∀ it ∈ pre, it ∈ run.items := fun it hit => by rw [hitems]; simp [hit]
    have hmem_g : g ∈ run.items := by rw [hitems]; simp
    have hnw := no_wrap_line_start max_width left_pad right_pad (word_distances loc text [run])
      pre 0 (fun it hit => hadv it (hmem_pre it hit)) (fun i hi _ => hz i hi) (Or.inr hfit)
    have h := layout_run_stretch loc text fonts max_width left_pad right_pad max_y
      (word_distances loc text [run]) run hy pre (g :: post)
      { x := left_pad, y := y, width := if min_width ≠ 0 then min_width else 0, height := 0,
        idx := 0, glyph_list := glyph_list } (fun it hit => hshow it (hmem_pre it hit)) hnw
    have hlen : 1 ≤ pre.length := by
      cases pre with
      | nil => simp [adv_sum] at hpos
      | cons a pre => simp
    obtain ⟨cl, glyph⟩ := g
    have hg := hword (cl, glyph) hmem_g
    have h2 := layout_run_wrap_glyph loc text fonts max_width left_pad right_pad max_y
      (word_distances loc text [run]) run hy cl glyph post
      { x := left_pad + adv_sum pre, y := y,
        width := if min_width ≠ 0 then min_width else 0, height := 0,
        idx := 0 + pre.length,
        glyph_list := glyph_list ++ side_by_side run y left_pad pre } hg.1 hg.2.2.1
      (by
        simp only
        rw [hz (0 + pre.length) (by omega)]
        simp only at hover
        refine ⟨by omega, hmax, by omega⟩)
    rw [layout_glyphs_single, hitems, h, h2]
    obtain ⟨more, hm⟩ := layout_run_extends loc text fonts max_width left_pad right_pad max_y
      (word_distances loc text [run]) run post
      { width := max (if min_width ≠ 0 then min_width else 0) (left_pad + adv_sum pre + right_pad)
        height := 0 + fonts.regular.height
        glyph_list := glyph_list ++ side_by_side run y left_pad pre ++
          side_by_side run (y + fonts.regular.height) left_pad [(cl, glyph)]
        x := left_pad + glyph.advance_x
        y := y + fonts.regular.height
        idx := 0 + pre.length + 1 }
    exact ⟨more, hm⟩

theorem layout_single_word_witness :
    (layout_glyphs c_locale 0 30 four_fonts (c32 "abc") 0 0 0 (-1) []
        [fixed_run "abc"]).glyph_list
      = [] ++ side_by_side (fixed_run "abc") 0 0 (fixed_run "abc").items ∧
    ∃ more,
      (layout_glyphs c_locale 0 25 four_fonts (c32 "abc") 0 0 0 (-1) []
          [fixed_run "abc"]).glyph_list
        = [] ++ side_by_side (fixed_run "abc") 0 0
              [(0, { cp := 97, cols := 1, advance_x := 10 }),
               (1, { cp := 98, cols := 1, advance_x := 10 })] ++
            side_by_side (fixed_run "abc") (0 + four_fonts.regular.height) 0
              [(2, { cp := 99, cols := 1, advance_x := 10 })] ++ more :=
  ⟨(layout_single_word c_locale 0 30 four_fonts (c32 "abc") 0 0 0 (-1) [] (fixed_run "abc")
      (by decide) (by decide)).1 (by decide),
    (layout_single_word c_locale 0 25 four_fonts (c32 "abc") 0 0 0 (-1) [] (fixed_run "abc")
      (by decide) (by decide)).2
      [(0, { cp := 97, cols := 1, advance_x := 10 }), (1, { cp := 98, cols := 1, advance_x := 10 })]
      [] (2, { cp := 99, cols := 1, advance_x := 10 }) (by decide) (by decide) (by decide)
      (by decide) (by decide)⟩

/-- C24 fails as stated: the single word "abc" with advances of 10 is wider
than a maximal width of 25, and `notif_layout` puts `a` and `b` on the first
line and `c` on the second one. -/
theorem layout_single_word_counterexample :
    adv_sum (fixed_run "abc").items = 30 ∧
    (notif_layout fixed_fcft c_locale 0 25 [] four_fonts 0 (c32 "abc") 0 0 0 (-1) []).map
        (fun r => r.glyph_list.map (fun e => (e.glyph.cp, e.x, e.y)))
      = some [(97, 0, 15), (98, 10, 15), (99, 0, 35)] := by
  decide

/-- A run made of a word, one whitespace glyph and a second word (each word
fitting on a line of its own, no height limit): when the whitespace glyph does
not fit after the first word, the wrap happens at that glyph and it is
dropped, so the first line holds the first word only; when the whitespace
glyph fits but the second word does not fit after it, the wrap happens at the
second word and the whitespace glyph stays as the last glyph of the first
line. -/
theorem layout_two_words (loc : ctype) (min_width max_width : Int) (fonts : font_set)
    (text : List char32_t) (left_pad right_pad y max_y : Int) (glyph_list : List glyph_layout)
    (run : glyph_run) (w1 w2 : List (Nat × fcft_glyph)) (sp : Nat × fcft_glyph)
    (hy : max_y < 0) (hitems : run.items = w1 ++ sp :: w2) (hw2 : w2 ≠ [])
    (hword : ∀ it ∈ w1 ++ w2, loc.iswspace (char_at text it.1) = false ∧
      char_at text it.1 ≠ 10 ∧ 0 < it.2.cols ∧ 0 ≤ it.2.advance_x)
    (hsp : loc.iswspace (char_at text sp.1) = true ∧ char_at text sp.1 ≠ 10 ∧ 0 < sp.2.cols ∧
      0 ≤ sp.2.advance_x)
    (hpos : 0 < adv_sum w1) (hmax : 0 < max_width)
    (hfit1 : left_pad + adv_sum w1 + right_pad ≤ max_width)
    (hfit2 : left_pad + adv_sum w2 + right_pad ≤ max_width) :
    (left_pad + adv_sum w1 + sp.2.advance_x + right_pad > max_width →
      (layout_glyphs loc min_width max_width fonts text left_pad right_pad y max_y glyph_list
          [run]).glyph_list
        = glyph_list ++ side_by_side run y left_pad w1 ++
            side_by_side run (y + fonts.regular.height) left_pad w2) ∧
    (left_pad + adv_sum w1 + sp.2.advance_x + right_pad ≤ max_width →
      left_pad + adv_sum w1 + sp.2.advance_x + adv_sum w2 + right_pad > max_width →
      (layout_glyphs loc min_width max_width fonts text left_pad right_pad y max_y glyph_list
          [run]).glyph_list
        = glyph_list ++ side_by_side run y left_pad (w1 ++ [sp]) ++
            side_by_side run (y + fonts.regular.height) left_pad w2) := by
  have hw1 : w1 ≠ [] := by
    intro h
    rw [h] at hpos
    simp [adv_sum] at hpos
  have hword1 : ∀ it ∈ w1, loc.iswspace (char_at text it.1) = false ∧
      char_at text it.1 ≠ 10 ∧ 0 < it.2.cols ∧ 0 ≤ it.2.advance_x :=
    fun it hit => hword it (by simp [hit])
  have hword2 : ∀ it ∈ w2, loc.iswspace (char_at text it.1) = false ∧
      char_at text it.1 ≠ 10 ∧ 0 < it.2.cols ∧ 0 ≤ it.2.advance_x :=
    fun it hit => hword it (by simp [hit])
  have hD := word_distances_two_words loc text run w1 w2 sp hitems hw1 hw2
    (fun it hit => (hword it hit).1) hsp.1
  have hlen2 : 1 ≤ w2.length := by
    cases w2 with
    | nil => exact absurd rfl hw2
    | cons a w => simp
  have hlen1 : 1 ≤ w1.length := by
    cases w1 with
    | nil => exact absurd rfl hw1
    | cons a w => simp
  -- the distances
  have hz : ∀ i, 1 ≤ i → i ≠ w1.length + 1 → (word_distances loc text [run]).getD i 0 = 0 := by
    intro i hi hne
    rw [hD, getD_set_ne _ _ _ _ (by omega), getD_set_ne _ _ _ _ (by omega)]
    exact getD_replicate_zero _ _
  have hd2 : (word_distances loc text [run]).getD (w1.length + 1) 0 = adv_sum w2.tail := by
    rw [hD, getD_set_eq _ _ _ (by simp; omega)]
  -- the first word
  have hnw1 := no_wrap_line_start max_width left_pad right_pad (word_distances loc text [run])
    w1 0 (fun it hit => (hword1 it hit).2.2.2) (fun i hi hi2 => hz i (by omega) (by omega))
    (Or.inr hfit1)
  have h1 := layout_run_stretch loc text fonts max_width left_pad right_pad max_y
    (word_distances loc text [run]) run hy w1 (sp :: w2)
    { x := left_pad, y := y, width := if min_width ≠ 0 then min_width else 0, height := 0,
      idx := 0, glyph_list := glyph_list }
    (fun it hit => ⟨(hword1 it hit).2.1, (hword1 it hit).2.2.1⟩) hnw1
  obtain ⟨scl, sglyph⟩ := sp
  have hzs : (word_distances loc text [run]).getD (0 + w1.length) 0 = 0 :=
    hz _ (by omega) (by omega)
  refine ⟨fun hover => ?_, fun hfits hover => ?_⟩
  · -- the wrap is at the whitespace glyph
    have h2 := layout_run_wrap_space loc text fonts max_width left_pad right_pad max_y
      (word_distances loc text [run]) run scl sglyph w2
      { x := left_pad + adv_sum w1, y := y,
        width := if min_width ≠ 0 then min_width else 0, height := 0,
        idx := 0 + w1.length,
        glyph_list := glyph_list ++ side_by_side run y left_pad w1 } hsp.1
      (by
        simp only
        rw [hzs]
        simp only at hover
        refine ⟨by omega, hmax, by omega⟩)
    have hnw2 := no_wrap_line_start max_width left_pad right_pad
      (word_distances loc text [run]) w2 (0 + w1.length + 1)
      (fun it hit => (hword2 it hit).2.2.2) (fun i hi hi2 => hz i (by omega) (by omega))
      (Or.inr hfit2)
    have h3 := layout_run_stretch loc text fonts max_width left_pad right_pad max_y
      (word_distances loc text [run]) run hy w2 []
      { width := max (if min_width ≠ 0 then min_width else 0) (left_pad + adv_sum w1 + right_pad)
        height := 0 + fonts.regular.height
        glyph_list := glyph_list ++ side_by_side run y left_pad w1
        x := left_pad
        y := y + fonts.regular.height
        idx := 0 + w1.length + 1 }
      (fun it hit => ⟨(hword2 it hit).2.1, (hword2 it hit).2.2.1⟩) hnw2
    rw [List.append_nil] at h3
    rw [layout_glyphs_single, hitems, h1, h2, h3]
    simp [layout_run]
  · -- the whitespace glyph fits, the wrap is at the second word
    have hnws : no_wrap max_width left_pad right_pad (word_distances loc text [run])
        (left_pad + adv_sum w1) (0 + w1.length) [(scl, sglyph)] := by
      refine ⟨fun h => ?_, trivial⟩
      rw [hzs] at h
      simp only at hfits h
      omega
    have h2 := layout_run_stretch loc text fonts max_width left_pad right_pad max_y
      (word_distances loc text [run]) run hy [(scl, sglyph)] w2
      { x := left_pad + adv_sum w1, y := y,
        width := if min_width ≠ 0 then min_width else 0, height := 0,
        idx := 0 + w1.length,
        glyph_list := glyph_list ++ side_by_side run y left_pad w1 }
      (fun it hit => by
        rw [List.mem_singleton] at hit
        subst hit
        exact ⟨hsp.2.1, hsp.2.2.1⟩) hnws
    obtain ⟨g0, w2', hw2e⟩ : ∃ g0 w2', w2 = g0 :: w2' := by
      cases w2 with
      | nil => exact absurd rfl hw2
      | cons a w => exact ⟨a, w, rfl⟩
    subst hw2e
    obtain ⟨cl, glyph⟩ := g0
    have hg := hword2 (cl, glyph) (by simp)
    have hsum : adv_sum ((cl, glyph) :: w2') = glyph.advance_x + adv_sum w2' := adv_sum_cons _ _
    have hd2' : (word_distances loc text [run]).getD (0 + w1.length + [(scl, sglyph)].length) 0
        = adv_sum w2' := by
      have : 0 + w1.length + [(scl, sglyph)].length = w1.length + 1 := by simp
      rw [this, hd2]
      rfl
    have hspadv : adv_sum [(scl, sglyph)] = sglyph.advance_x := by simp [adv_sum]
    have h3 := layout_run_wrap_glyph loc text fonts max_width left_pad right_pad max_y
      (word_distances loc text [run]) run hy cl glyph w2'
      { x := left_pad + adv_sum w1 + adv_sum [(scl, sglyph)], y := y,
        width := if min_width ≠ 0 then min_width else 0, height := 0,
        idx := 0 + w1.length + [(scl, sglyph)].length,
        glyph_list := glyph_list ++ side_by_side run y left_pad w1 ++
          side_by_side run y (left_pad + adv_sum w1) [(scl, sglyph)] } hg.1 hg.2.2.1
      (by
        simp only
        rw [hd2', hspadv]
        simp only at hover hsp
        rw [hsum] at hover
        have := hsp.2.2.2
        refine ⟨by omega, hmax, by omega⟩)
    have hnw2 : no_wrap max_width left_pad right_pad (word_distances loc text [run])
        (left_pad + glyph.advance_x) (0 + w1.length + [(scl, sglyph)].length + 1) w2' := by
      apply no_wrap_of_fit
      · exact fun it hit => (hword2 it (List.mem_cons_of_mem _ hit)).2.2.2
      · intro i hi hi2
        simp only [List.length_singleton] at hi
        exact hz i (by omega) (by omega)
      · right
        rw [hsum] at hfit2
        omega
    have h4 := layout_run_stretch loc text fonts max_width left_pad right_pad max_y
      (word_distances loc text [run]) run hy w2' []
      { width := max (if min_width ≠ 0 then min_width else 0)
          (left_pad + adv_sum w1 + adv_sum [(scl, sglyph)] + right_pad)
        height := 0 + fonts.regular.height
        glyph_list := glyph_list ++ side_by_side run y left_pad w1 ++
          side_by_side run y (left_pad + adv_sum w1) [(scl, sglyph)] ++
          side_by_side run (y + fonts.regular.height) left_pad [(cl, glyph)]
        x := left_pad + glyph.advance_x
        y := y + fonts.regular.height
        idx := 0 + w1.length + [(scl, sglyph)].length + 1 }
      (fun it hit => ⟨(hword2 it (List.mem_cons_of_mem _ hit)).2.1,
        (hword2 it (List.mem_cons_of_mem _ hit)).2.2.1⟩) hnw2
    rw [List.append_nil] at h4
    rw [List.singleton_append] at h2
    rw [layout_glyphs_single, hitems, h1, h2, h3, h4]
    simp only [layout_run, side_by_side_append, side_by_side, List.append_assoc,
      List.singleton_append, List.nil_append, List.cons_append]

theorem layout_two_words_witness :
    (layout_glyphs c_locale 0 55 four_fonts (c32 "Hello world") 0 0 0 (-1) []
        [fixed_run "Hello world"]).glyph_list
      = [] ++ side_by_side (fixed_run "Hello world") 0 0 ((fixed_run "Hello world").items.take 5)
          ++ side_by_side (fixed_run "Hello world") (0 + four_fonts.regular.height) 0
            ((fixed_run "Hello world").items.drop 6) ∧
    (layout_glyphs c_locale 0 100 four_fonts (c32 "Hello world") 0 0 0 (-1) []
        [fixed_run "Hello world"]).glyph_list
      = [] ++ side_by_side (fixed_run "Hello world") 0 0
            ((fixed_run "Hello world").items.take 5 ++
              [(5, { cp := 32, cols := 1, advance_x := 10 })])
          ++ side_by_side (fixed_run "Hello world") (0 + four_fonts.regular.height) 0
            ((fixed_run "Hello world").items.drop 6) :=
  ⟨(layout_two_words c_locale 0 55 four_fonts (c32 "Hello world") 0 0 0 (-1) []
      (fixed_run "Hello world") ((fixed_run "Hello world").items.take 5)
      ((fixed_run "Hello world").items.drop 6) (5, { cp := 32, cols := 1, advance_x := 10 })
      (by decide) (by decide) (by decide) (by decide) (by decide) (by decide) (by decide)
      (by decide) (by decide)).1 (by decide),
    (layout_two_words c_locale 0 100 four_fonts (c32 "Hello world") 0 0 0 (-1) []
      (fixed_run "Hello world") ((fixed_run "Hello world").items.take 5)
      ((fixed_run "Hello world").items.drop 6) (5, { cp := 32, cols := 1, advance_x := 10 })
      (by decide) (by decide) (by decide) (by decide) (by decide) (by decide) (by decide)
      (by decide) (by decide)).2 (by decide) (by decide)⟩

/-- C23. `notif_layout` drops a whitespace glyph only when the wrap is
triggered at that glyph; when the glyph still fits and the next word wraps, it
stays in the glyph list as the last glyph of the line. "Hello world foo" with
advances of 10 and a maximal width of 130 wraps after "world" and the first
line ends with the whitespace glyph at x = 110; with a maximal width of 115
the wrap is at that whitespace glyph, which is dropped, and the first line
ends with `d`. -/
theorem layout_trailing_space_kept :
    (notif_layout fixed_fcft c_locale 0 130 [] four_fonts 0 (c32 "Hello world foo") 0 0 0 (-1)
        []).map (fun r => (r.glyph_list.filter (fun e => e.y = 15)).map
          (fun e => (e.glyph.cp, e.x)))
      = some [(72, 0), (101, 10), (108, 20), (108, 30), (111, 40), (32, 50), (119, 60),
          (111, 70), (114, 80), (108, 90), (100, 100), (32, 110)] ∧
    (notif_layout fixed_fcft c_locale 0 130 [] four_fonts 0 (c32 "Hello world foo") 0 0 0 (-1)
        []).map (fun r => (r.glyph_list.filter (fun e => e.y = 35)).map
          (fun e => (e.glyph.cp, e.x)))
      = some [(102, 0), (111, 10), (111, 20)] ∧
    (notif_layout fixed_fcft c_locale 0 115 [] four_fonts 0 (c32 "Hello world foo") 0 0 0 (-1)
        []).map (fun r => (r.glyph_list.filter (fun e => e.y = 15)).map
          (fun e => (e.glyph.cp, e.x)))
      = some [(72, 0), (101, 10), (108, 20), (108, 30), (111, 40), (32, 50), (119, 60),
          (111, 70), (114, 80), (108, 90), (100, 100)] ∧
    (notif_layout fixed_fcft c_locale 0 115 [] four_fonts 0 (c32 "Hello world foo") 0 0 0 (-1)
        []).map (fun r => (r.glyph_list.filter (fun e => e.y = 35)).map
          (fun e => (e.glyph.cp, e.x)))
      = some [(102, 0), (111, 10), (111, 20)] := by
  decide

/-! ### Tags -/

theorem select_font_spec (fonts : font_set) (f : formatters) :
    select_font fonts f = spec_font fonts f := by
  obtain ⟨b, i, u⟩ := f
  cases b <;> cases i <;> simp [select_font, spec_font] <;>
    (split <;> simp_all)

theorem towlower_mark (loc : ctype) (c : char32_t) (h : is_mark c = true) :
    towlower loc c = c := by
  simp [towlower, h]

theorem towlower_not_mark (loc : ctype) (c : char32_t) (h : is_mark c = false) :
    is_mark (towlower loc c) = false := by
  unfold towlower
  simp only [h, Bool.false_eq_true, if_false]
  split_ifs with h2
  · exact h
  · simpa using h2

theorem towlower_eq_mark (loc : ctype) (c m : char32_t) (hm : is_mark m = true) :
    towlower loc c = m ↔ c = m := by
  by_cases hc : is_mark c = true
  · rw [towlower_mark loc c hc]
  · have hc' : is_mark c = false := by simpa using hc
    have hn := towlower_not_mark loc c hc'
    constructor
    · intro h
      rw [h, hm] at hn
      exact absurd hn (by simp)
    · intro h
      rw [h, hm] at hc'
      exact absurd hc' (by simp)

theorem towlower_eq_letter (loc : ctype) (c p : char32_t) (hp : is_mark p = false)
    (h : towlower loc c = towlower loc p) : is_mark c = false := by
  by_contra hc
  have hc' : is_mark c = true := by simpa using hc
  rw [towlower_mark loc c hc'] at h
  have := towlower_not_mark loc p hp
  rw [← h, hc'] at this
  exact absurd this (by simp)

theorem c32ncasecmp_eq_cons (loc : ctype) (a p : char32_t) (s1 s2 : List char32_t) (n : Nat)
    (hp0 : p ≠ 0) :
    c32ncasecmp_eq loc (a :: s1) (p :: s2) (n + 1)
      = (decide (towlower loc a = towlower loc p) && c32ncasecmp_eq loc s1 s2 n) := by
  have hz : towlower loc p ≠ 0 := fun e => hp0 ((towlower_eq_mark loc p 0 rfl).mp e)
  rw [c32ncasecmp_eq]
  simp only [List.headD_cons, List.tail_cons]
  by_cases h : towlower loc a = towlower loc p
  · simp [h, hz]
  · simp [h]

theorem c32ncasecmp_eq_nil (loc : ctype) (p : char32_t) (s2 : List char32_t) (n : Nat)
    (hp0 : p ≠ 0) :
    c32ncasecmp_eq loc [] (p :: s2) (n + 1) = false := by
  have hz : towlower loc p ≠ 0 := fun e => hp0 ((towlower_eq_mark loc p 0 rfl).mp e)
  have h0 : towlower loc 0 = 0 := towlower_mark loc 0 rfl
  rw [c32ncasecmp_eq]
  simp only [List.headD_nil, List.headD_cons, h0]
  simp [Ne.symm hz]

theorem c32ncasecmp_eq_zero (loc : ctype) (s1 s2 : List char32_t) :
    c32ncasecmp_eq loc s1 s2 0 = true := by
  rw [c32ncasecmp_eq]

theorem tag3_eq (loc : ctype) (p : char32_t) (p0 : p ≠ 0) (rest : List char32_t) :
    c32ncasecmp_eq loc rest [60, p, 62] 3
      = (decide (2 < rest.length) && decide (rest.headD 0 = 60) &&
          decide (towlower loc (rest.tail.headD 0) = towlower loc p) &&
          decide (rest.tail.tail.headD 0 = 62)) := by
  have e60 := fun c => towlower_eq_mark loc c 60 rfl
  have e62 := fun c => towlower_eq_mark loc c 62 rfl
  have f60 : towlower loc 60 = 60 := towlower_mark loc 60 rfl
  have f62 : towlower loc 62 = 62 := towlower_mark loc 62 rfl
  rcases rest with _ | ⟨a, _ | ⟨b, _ | ⟨c, tl⟩⟩⟩
  · rw [c32ncasecmp_eq_nil loc 60 _ _ (by decide)]; simp
  · rw [c32ncasecmp_eq_cons loc a 60 _ _ _ (by decide), c32ncasecmp_eq_nil loc p _ _ p0]
    simp
  · rw [c32ncasecmp_eq_cons loc a 60 _ _ _ (by decide), c32ncasecmp_eq_cons loc b p _ _ _ p0,
      c32ncasecmp_eq_nil loc 62 _ _ (by decide)]
    simp
  · rw [c32ncasecmp_eq_cons loc a 60 _ _ _ (by decide), c32ncasecmp_eq_cons loc b p _ _ _ p0,
      c32ncasecmp_eq_cons loc c 62 _ _ _ (by decide), c32ncasecmp_eq_zero]
    simp [Bool.and_assoc, f60, f62, e60, e62]

theorem tag4_eq (loc : ctype) (p : char32_t) (p0 : p ≠ 0) (rest : List char32_t) :
    c32ncasecmp_eq loc rest [60, 47, p, 62] 4
      = (decide (3 < rest.length) && decide (rest.headD 0 = 60) &&
          decide (rest.tail.headD 0 = 47) &&
          decide (towlower loc (rest.tail.tail.headD 0) = towlower loc p) &&
          decide (rest.tail.tail.tail.headD 0 = 62)) := by
  have e60 := fun c => towlower_eq_mark loc c 60 rfl
  have e47 := fun c => towlower_eq_mark loc c 47 rfl
  have e62 := fun c => towlower_eq_mark loc c 62 rfl
  have f60 : towlower loc 60 = 60 := towlower_mark loc 60 rfl
  have f47 : towlower loc 47 = 47 := towlower_mark loc 47 rfl
  have f62 : towlower loc 62 = 62 := towlower_mark loc 62 rfl
  rcases rest with _ | ⟨a, _ | ⟨b, _ | ⟨c, _ | ⟨d, tl⟩⟩⟩⟩
  · rw [c32ncasecmp_eq_nil loc 60 _ _ (by decide)]; simp
  · rw [c32ncasecmp_eq_cons loc a 60 _ _ _ (by decide), c32ncasecmp_eq_nil loc 47 _ _ (by decide)]
    simp
  · rw [c32ncasecmp_eq_cons loc a 60 _ _ _ (by decide),
      c32ncasecmp_eq_cons loc b 47 _ _ _ (by decide), c32ncasecmp_eq_nil loc p _ _ p0]
    simp
  · rw [c32ncasecmp_eq_cons loc a 60 _ _ _ (by decide),
      c32ncasecmp_eq_cons loc b 47 _ _ _ (by decide), c32ncasecmp_eq_cons loc c p _ _ _ p0,
      c32ncasecmp_eq_nil loc 62 _ _ (by decide)]
    simp
  · rw [c32ncasecmp_eq_cons loc a 60 _ _ _ (by decide),
      c32ncasecmp_eq_cons loc b 47 _ _ _ (by decide), c32ncasecmp_eq_cons loc c p _ _ _ p0,
      c32ncasecmp_eq_cons loc d 62 _ _ _ (by decide), c32ncasecmp_eq_zero]
    simp [Bool.and_assoc, f60, f47, f62, e60, e47, e62]

/-- The test at the head of the first loop, written out. -/
theorem at_boundary_eq (loc : ctype) (rest : List char32_t) :
    at_boundary loc rest
      = (decide (rest.headD 0 = 0) ||
        (decide (2 < rest.length) && decide (rest.headD 0 = 60) &&
          decide (towlower loc (rest.tail.headD 0) = towlower loc 98) &&
          decide (rest.tail.tail.headD 0 = 62)) ||
        (decide (2 < rest.length) && decide (rest.headD 0 = 60) &&
          decide (towlower loc (rest.tail.headD 0) = towlower loc 105) &&
          decide (rest.tail.tail.headD 0 = 62)) ||
        (decide (2 < rest.length) && decide (rest.headD 0 = 60) &&
          decide (towlower loc (rest.tail.headD 0) = towlower loc 117) &&
          decide (rest.tail.tail.headD 0 = 62)) ||
        (decide (3 < rest.length) && decide (rest.headD 0 = 60) &&
          decide (rest.tail.headD 0 = 47) &&
          decide (towlower loc (rest.tail.tail.headD 0) = towlower loc 98) &&
          decide (rest.tail.tail.tail.headD 0 = 62)) ||
        (decide (3 < rest.length) && decide (rest.headD 0 = 60) &&
          decide (rest.tail.headD 0 = 47) &&
          decide (towlower loc (rest.tail.tail.headD 0) = towlower loc 105) &&
          decide (rest.tail.tail.tail.headD 0 = 62)) ||
        (decide (3 < rest.length) && decide (rest.headD 0 = 60) &&
          decide (rest.tail.headD 0 = 47) &&
          decide (towlower loc (rest.tail.tail.headD 0) = towlower loc 117) &&
          decide (rest.tail.tail.tail.headD 0 = 62))) := by
  unfold at_boundary
  rw [tag3_eq loc 98 (by decide), tag3_eq loc 105 (by decide), tag3_eq loc 117 (by decide),
    tag4_eq loc 98 (by decide), tag4_eq loc 105 (by decide), tag4_eq loc 117 (by decide)]

theorem at_boundary_head (loc : ctype) (c : char32_t) (cs : List char32_t)
    (h : at_boundary loc (c :: cs) = true) : c = 0 ∨ c = 60 := by
  rw [at_boundary_eq] at h
  simp only [List.headD_cons, Bool.or_eq_true, Bool.and_eq_true, decide_eq_true_eq] at h
  rcases h with (((((h | h) | h) | h) | h) | h) | h
  · exact Or.inl h
  all_goals (right; tauto)

theorem letter_folds_iff (loc : ctype) (c : char32_t) (h : letter_folds loc c = true) :
    (towlower loc c = towlower loc 98 ↔ (c = 98 ∨ c = 66)) ∧
    (towlower loc c = towlower loc 105 ↔ (c = 105 ∨ c = 73)) ∧
    (towlower loc c = towlower loc 117 ↔ (c = 117 ∨ c = 85)) := by
  unfold letter_folds at h
  exact of_decide_eq_true h

theorem at_boundary_spec (loc : ctype) (rest : List char32_t)
    (h : ∀ c ∈ rest, letter_folds loc c = true) :
    at_boundary loc rest = (decide (rest.headD 0 = 0) || (spec_tag_at rest).isSome) := by
  rw [at_boundary_eq]
  rcases rest with _ | ⟨a, _ | ⟨b, _ | ⟨c, _ | ⟨d, tl⟩⟩⟩⟩
  · simp [spec_tag_at]
  · simp [spec_tag_at]
  · simp [spec_tag_at]
  · obtain ⟨b1, b2, b3⟩ := letter_folds_iff loc b (h b (by simp))
    simp only [spec_tag_at, spec_letter, List.headD_cons, List.tail_cons, List.headD_nil,
      List.length_cons, List.length_nil, b1, b2, b3]
    by_cases ha : a = 60 <;> by_cases hc : c = 62 <;> by_cases hb : b = 47 <;>
      first
      | (simp [ha, hc, hb]; done)
      | (simp [ha, hc, hb]; split_ifs <;> simp_all)
  · obtain ⟨b1, b2, b3⟩ := letter_folds_iff loc b (h b (by simp))
    obtain ⟨c1, c2, c3⟩ := letter_folds_iff loc c (h c (by simp))
    simp only [spec_tag_at, spec_letter, List.headD_cons, List.tail_cons, List.headD_nil,
      List.length_cons, List.length_nil, b1, b2, b3, c1, c2, c3]
    by_cases ha : a = 60 <;> by_cases hc : c = 62 <;> by_cases hb : b = 47 <;>
      by_cases hd : d = 62 <;>
      first
      | (simp [ha, hc, hb, hd]; done)
      | (simp [ha, hc, hb, hd]; split_ifs <;> simp_all)

theorem spec_tag_at_cases (rest : List char32_t) (len : Nat) (l : char32_t) (opens : Bool)
    (h : spec_tag_at rest = some (len, l, opens)) :
    (∃ b tl, rest = 60 :: b :: 62 :: tl ∧ spec_letter b = some l ∧ len = 3 ∧ opens = true) ∨
    (∃ b tl, rest = 60 :: 47 :: b :: 62 :: tl ∧ spec_letter b = some l ∧ len = 4 ∧
      opens = false) := by
  rcases rest with _ | ⟨a, _ | ⟨b, _ | ⟨c, tl⟩⟩⟩
  · simp [spec_tag_at] at h
  · simp [spec_tag_at] at h
  · simp [spec_tag_at] at h
  · simp only [spec_tag_at] at h
    split_ifs at h with h1 h2
    · left
      obtain ⟨ha, hc⟩ := h1
      subst ha; subst hc
      cases hl : spec_letter b with
      | none => simp [hl] at h
      | some l' =>
        simp [hl] at h
        obtain ⟨e1, e2, e3⟩ := h
        exact ⟨b, tl, rfl, by rw [hl, e2], e1.symm, e3⟩
    · right
      obtain ⟨ha, hb, hd⟩ := h2
      subst ha; subst hb
      rcases tl with _ | ⟨d, tl'⟩
      · simp at hd
      · simp at hd
        subst hd
        cases hl : spec_letter c with
        | none => simp [hl] at h
        | some l' =>
          simp [hl] at h
          obtain ⟨e1, e2, e3⟩ := h
          exact ⟨c, tl', rfl, by rw [hl, e2], e1.symm, e3⟩

theorem spec_letter_ne (b l : char32_t) (h : spec_letter b = some l) :
    b ≠ 0 ∧ b ≠ 60 ∧ b ≠ 47 := by
  unfold spec_letter at h
  split_ifs at h with h1 h2 h3
  · rcases h1 with h1 | h1 <;> subst h1 <;> decide
  · rcases h2 with h2 | h2 <;> subst h2 <;> decide
  · rcases h3 with h3 | h3 <;> subst h3 <;> decide

theorem update_formatters_open (f : formatters) (b l x : char32_t)
    (h : spec_letter b = some l) : update_formatters f b x = spec_apply f l true := by
  have hne := (spec_letter_ne b l h).2.2
  unfold spec_letter at h
  unfold update_formatters spec_apply
  simp only [hne, if_false]
  split_ifs at h with h1 h2 h3
  · simp at h; subst h
    rcases h1 with h1 | h1 <;> subst h1 <;> simp
  · simp at h; subst h
    rcases h2 with h2 | h2 <;> subst h2 <;> simp
  · simp at h; subst h
    rcases h3 with h3 | h3 <;> subst h3 <;> simp

theorem update_formatters_close (f : formatters) (b l : char32_t)
    (h : spec_letter b = some l) : update_formatters f 47 b = spec_apply f l false := by
  unfold spec_letter at h
  unfold update_formatters spec_apply
  simp only [if_true]
  split_ifs at h with h1 h2 h3
  · simp at h; subst h
    rcases h1 with h1 | h1 <;> subst h1 <;> simp
  · simp at h; subst h
    rcases h2 with h2 | h2 <;> subst h2 <;> simp
  · simp at h; subst h
    rcases h3 with h3 | h3 <;> subst h3 <;> simp

theorem runs_loop_skip (lib : fcft) (loc : ctype) (fonts : font_set)
    (subpixel : Nat) (text : List char32_t) (c : char32_t) (cs : List char32_t) (wc t : Nat)
    (f : formatters) (runs : List glyph_run) (cache : List text_run_cache)
    (h0 : c ≠ 0) (h60 : c ≠ 60) :
    runs_loop lib loc fonts subpixel text (c :: cs) wc t f runs cache
      = runs_loop lib loc fonts subpixel text cs (wc + 1) t f runs cache := by
  have hb : at_boundary loc (c :: cs) = false := by
    cases hx : at_boundary loc (c :: cs) with
    | false => rfl
    | true =>
      rcases at_boundary_head loc c cs hx with h | h
      · exact absurd h h0
      · exact absurd h h60
  rw [runs_loop]
  simp [hb]

theorem slice_mid (pre0 seg rest : List char32_t) :
    ((pre0 ++ seg ++ rest).drop pre0.length).take (pre0.length + seg.length - pre0.length)
      = seg := by
  simp

theorem piece_append (runs X : List glyph_run) (items : List (Nat × fcft_glyph))
    (run : glyph_run) :
    (if items.length > 0 then runs ++ [run] else runs) ++ X
      = runs ++ (if items = [] then X else run :: X) := by
  cases items with
  | nil => simp
  | cons a r => simp

theorem runs_loop_end (lib : fcft) (loc : ctype) (fonts : font_set) (subpixel : Nat)
    (pre0 seg : List char32_t) (f : formatters) (runs : List glyph_run)
    (cache : List text_run_cache) :
    runs_loop lib loc fonts subpixel (pre0 ++ seg ++ []) [] (pre0.length + seg.length)
        pre0.length f runs cache
      = some (runs ++ (spec_runs lib fonts subpixel [(f, pre0.length, seg)] cache).1,
          (spec_runs lib fonts subpixel [(f, pre0.length, seg)] cache).2) := by
  rw [runs_loop]
  have hlt : ¬ (pre0.length + seg.length < pre0.length) := by omega
  simp only [hlt, if_false, slice_mid, select_font_spec, spec_runs]
  rw [← piece_append]
  simp

theorem runs_loop_congr (lib : fcft) (loc : ctype) (fonts : font_set) (subpixel : Nat)
    {text text2 : List char32_t} {wc wc2 t t2 : Nat} (rest : List char32_t) (f : formatters)
    (runs : List glyph_run) (cache : List text_run_cache)
    (h1 : text = text2) (h2 : wc = wc2) (h3 : t = t2) :
    runs_loop lib loc fonts subpixel text rest wc t f runs cache
      = runs_loop lib loc fonts subpixel text2 rest wc2 t2 f runs cache := by
  subst h1; subst h2; subst h3; rfl


theorem runs_loop_spec (lib : fcft) (loc : ctype) (fonts : font_set) (subpixel : Nat) :
    ∀ (fuel : Nat) (rest pre0 seg : List char32_t) (f : formatters) (runs : List glyph_run)
      (cache : List text_run_cache), rest.length ≤ fuel →
      (∀ c ∈ rest, letter_folds loc c = true) →
      runs_loop lib loc fonts subpixel (pre0 ++ seg ++ rest) rest (pre0.length + seg.length)
          pre0.length f runs cache
        = some
            (runs ++ (spec_runs lib fonts subpixel
              (spec_segments fuel f pre0.length seg rest) cache).1,
            (spec_runs lib fonts subpixel
              (spec_segments fuel f pre0.length seg rest) cache).2) := by
  intro fuel
  induction fuel with
  | zero =>
    intro rest pre0 seg f runs cache hlen _
    have : rest = [] := List.length_eq_zero.mp (by omega)
    subst this
    rw [runs_loop_end]
    rfl
  | succ fuel ih =>
    intro rest pre0 seg f runs cache hlen h
    cases rest with
    | nil =>
      rw [runs_loop_end]
      rfl
    | cons c cs =>
      have hlt : ¬ (pre0.length + seg.length < pre0.length) := by omega
      by_cases hc0 : c = 0
      · subst hc0
        have hb : at_boundary loc (0 :: cs) = true := by
          rw [at_boundary_spec loc _ h]; simp
        rw [runs_loop]
        simp only [hb, not_true_eq_false, if_false, hlt, slice_mid, select_font_spec,
          if_true, spec_segments, spec_runs]
        rw [← piece_append]
        simp
      · cases htag : spec_tag_at (c :: cs) with
        | none =>
          have hb : at_boundary loc (c :: cs) = false := by
            rw [at_boundary_spec loc _ h]; simp [hc0, htag]
          rw [runs_loop]
          simp only [hb, Bool.false_eq_true, not_false_eq_true, if_true]
          have e1 : pre0 ++ seg ++ c :: cs = pre0 ++ (seg ++ [c]) ++ cs := by simp
          have e2 : pre0.length + seg.length + 1 = pre0.length + (seg ++ [c]).length := by
            simp; omega
          rw [e1, e2, ih cs pre0 (seg ++ [c]) f runs cache (by simpa using hlen)
            (fun x hx => h x (List.mem_cons_of_mem _ hx))]
          simp only [spec_segments, hc0, if_false, htag]
        | some x =>
          obtain ⟨len, l, opens⟩ := x
          have hb : at_boundary loc (c :: cs) = true := by
            rw [at_boundary_spec loc _ h]; simp [htag]
          rcases spec_tag_at_cases _ _ _ _ htag with ⟨b, tl, e, hl, hlen3, hop⟩ |
            ⟨b, tl, e, hl, hlen4, hop⟩
          · simp only [List.cons.injEq] at e
            obtain ⟨ec, ecs⟩ := e
            subst ec; subst ecs; subst hlen3; subst hop
            obtain ⟨hb0, hb60, hb47⟩ := spec_letter_ne b l hl
            rw [runs_loop]
            simp only [hb, not_true_eq_false, if_false, hlt, slice_mid, select_font_spec,
              List.headD_cons, List.tail_cons, hb47, OfNat.ofNat_ne_zero]
            rw [runs_loop_skip lib loc fonts subpixel _ b _ _ _ _ _ _ hb0 hb60,
              runs_loop_skip lib loc fonts subpixel _ 62 _ _ _ _ _ _ (by decide) (by decide)]
            have e1 : pre0 ++ seg ++ 60 :: b :: 62 :: tl
                = (pre0 ++ seg ++ [60, b, 62]) ++ [] ++ tl := by simp
            have e2 : pre0.length + seg.length + 1 + 1 + 1
                = (pre0 ++ seg ++ [60, b, 62]).length + ([] : List char32_t).length := by
              simp; omega
            have e3 : pre0.length + seg.length + 3 = (pre0 ++ seg ++ [60, b, 62]).length := by
              simp; omega
            rw [runs_loop_congr lib loc fonts subpixel tl _ _ _ e1 e2 e3,
              ih tl (pre0 ++ seg ++ [60, b, 62]) [] _ _ _ (by simp at hlen; omega)
                (fun x hx => h x (by simp [hx]))]
            simp only [spec_segments, hc0, if_false, htag, spec_runs, List.drop_succ_cons,
              List.drop_zero, update_formatters_open f b l 62 hl]
            rw [← e3, ← piece_append]
          · simp only [List.cons.injEq] at e
            obtain ⟨ec, ecs⟩ := e
            subst ec; subst ecs; subst hlen4; subst hop
            obtain ⟨hb0, hb60, hb47⟩ := spec_letter_ne b l hl
            rw [runs_loop]
            simp only [hb, not_true_eq_false, if_false, hlt, slice_mid, select_font_spec,
              List.headD_cons, List.tail_cons, if_true, OfNat.ofNat_ne_zero]
            rw [runs_loop_skip lib loc fonts subpixel _ 47 _ _ _ _ _ _ (by decide) (by decide),
              runs_loop_skip lib loc fonts subpixel _ b _ _ _ _ _ _ hb0 hb60,
              runs_loop_skip lib loc fonts subpixel _ 62 _ _ _ _ _ _ (by decide) (by decide)]
            have e1 : pre0 ++ seg ++ 60 :: 47 :: b :: 62 :: tl
                = (pre0 ++ seg ++ [60, 47, b, 62]) ++ [] ++ tl := by simp
            have e2 : pre0.length + seg.length + 1 + 1 + 1 + 1
                = (pre0 ++ seg ++ [60, 47, b, 62]).length + ([] : List char32_t).length := by
              simp; omega
            have e3 : pre0.length + seg.length + 4
                = (pre0 ++ seg ++ [60, 47, b, 62]).length := by
              simp; omega
            rw [runs_loop_congr lib loc fonts subpixel tl _ _ _ e1 e2 e3,
              ih tl (pre0 ++ seg ++ [60, 47, b, 62]) [] _ _ _ (by simp at hlen; omega)
                (fun x hx => h x (by simp [hx]))]
            simp only [spec_segments, hc0, if_false, htag, spec_runs, List.drop_succ_cons,
              List.drop_zero, update_formatters_close f b l hl]
            rw [← e3, ← piece_append]

/-- What a tag found at `<` says about the characters after it: the
characters up to the new `_t` are there and none of them is the terminator or
`<`. -/
theorem at_boundary_tag (loc : ctype) (cs : List char32_t)
    (h : at_boundary loc (60 :: cs) = true) :
    ∀ i, i + 1 < (if cs.headD 0 = 47 then 4 else 3) →
      ∃ c, cs[i]? = some c ∧ c ≠ 0 ∧ c ≠ 60 := by
  have nm : ∀ x p : char32_t, is_mark p = false → towlower loc x = towlower loc p →
      x ≠ 0 ∧ x ≠ 60 ∧ x ≠ 47 := by
    intro x p hp hx
    have := towlower_eq_letter loc x p hp hx
    simp only [is_mark, Bool.or_eq_false_iff, decide_eq_false_iff_not] at this
    exact ⟨this.1.1.1, this.1.1.2, this.1.2⟩
  rw [at_boundary_eq] at h
  simp only [List.headD_cons, List.tail_cons, List.length_cons, Bool.or_eq_true,
    Bool.and_eq_true, decide_eq_true_eq] at h
  rcases cs with _ | ⟨x1, _ | ⟨x2, _ | ⟨x3, tl⟩⟩⟩
  · simp at h
  · simp at h
  · simp only [List.headD_cons, List.tail_cons, List.length_cons, List.length_nil,
      List.headD_nil] at h
    rcases h with (((((h | h) | h) | h) | h) | h) | h
    · exact absurd h (by decide)
    · obtain ⟨n0, n60, n47⟩ := nm x1 98 rfl h.1.2
      intro i hi
      simp only [List.headD_cons, n47, if_false] at hi
      have : i = 0 ∨ i = 1 := by omega
      rcases this with rfl | rfl
      · exact ⟨x1, rfl, n0, n60⟩
      · exact ⟨x2, rfl, by rw [h.2]; decide, by rw [h.2]; decide⟩
    · obtain ⟨n0, n60, n47⟩ := nm x1 105 rfl h.1.2
      intro i hi
      simp only [List.headD_cons, n47, if_false] at hi
      have : i = 0 ∨ i = 1 := by omega
      rcases this with rfl | rfl
      · exact ⟨x1, rfl, n0, n60⟩
      · exact ⟨x2, rfl, by rw [h.2]; decide, by rw [h.2]; decide⟩
    · obtain ⟨n0, n60, n47⟩ := nm x1 117 rfl h.1.2
      intro i hi
      simp only [List.headD_cons, n47, if_false] at hi
      have : i = 0 ∨ i = 1 := by omega
      rcases this with rfl | rfl
      · exact ⟨x1, rfl, n0, n60⟩
      · exact ⟨x2, rfl, by rw [h.2]; decide, by rw [h.2]; decide⟩
    · omega
    · omega
    · omega
  · simp only [List.headD_cons, List.tail_cons, List.length_cons] at h
    have three : ∀ p : char32_t, is_mark p = false →
        towlower loc x1 = towlower loc p → x2 = 62 →
        ∀ i, i + 1 < (if (x1 :: x2 :: x3 :: tl).headD 0 = 47 then 4 else 3) →
          ∃ c, (x1 :: x2 :: x3 :: tl)[i]? = some c ∧ c ≠ 0 ∧ c ≠ 60 := by
      intro p hp h1 h2 i hi
      obtain ⟨n0, n60, n47⟩ := nm x1 p hp h1
      simp only [List.headD_cons, n47, if_false] at hi
      have : i = 0 ∨ i = 1 := by omega
      rcases this with rfl | rfl
      · exact ⟨x1, rfl, n0, n60⟩
      · exact ⟨x2, rfl, by rw [h2]; decide, by rw [h2]; decide⟩
    have four : ∀ p : char32_t, is_mark p = false → x1 = 47 →
        towlower loc x2 = towlower loc p → x3 = 62 →
        ∀ i, i + 1 < (if (x1 :: x2 :: x3 :: tl).headD 0 = 47 then 4 else 3) →
          ∃ c, (x1 :: x2 :: x3 :: tl)[i]? = some c ∧ c ≠ 0 ∧ c ≠ 60 := by
      intro p hp h1 h2 h3 i hi
      obtain ⟨n0, n60, n47⟩ := nm x2 p hp h2
      simp only [List.headD_cons, h1, if_true] at hi
      have : i = 0 ∨ i = 1 ∨ i = 2 := by omega
      rcases this with rfl | rfl | rfl
      · exact ⟨x1, rfl, by rw [h1]; decide, by rw [h1]; decide⟩
      · exact ⟨x2, rfl, n0, n60⟩
      · exact ⟨x3, by simp, by rw [h3]; decide, by rw [h3]; decide⟩
    rcases h with (((((h | h) | h) | h) | h) | h) | h
    · exact absurd h (by decide)
    · exact three 98 rfl h.1.2 h.2
    · exact three 105 rfl h.1.2 h.2
    · exact three 117 rfl h.1.2 h.2
    · exact four 98 rfl h.1.1.2 h.1.2 h.2
    · exact four 105 rfl h.1.1.2 h.1.2 h.2
    · exact four 117 rfl h.1.1.2 h.1.2 h.2

/-- The first loop of `notif_layout` never computes `wc - _t` with `wc` before
`_t`: it gives glyph runs for every text in every locale. -/
theorem runs_loop_total (lib : fcft) (loc : ctype) (fonts : font_set) (subpixel : Nat)
    (text : List char32_t) :
    ∀ (rest : List char32_t) (wc t : Nat) (f : formatters) (runs : List glyph_run)
      (cache : List text_run_cache),
      (∀ i, wc + i < t → ∃ c, rest[i]? = some c ∧ c ≠ 0 ∧ c ≠ 60) →
      ∃ r, runs_loop lib loc fonts subpixel text rest wc t f runs cache = some r := by
  intro rest
  induction rest with
  | nil =>
    intro wc t f runs cache hinv
    have hlt : ¬ wc < t := by
      intro hlt
      obtain ⟨c, hc, _⟩ := hinv 0 (by omega)
      simp at hc
    rw [runs_loop]
    simp only [hlt, if_false]
    exact ⟨_, rfl⟩
  | cons c cs ih =>
    intro wc t f runs cache hinv
    have hnext : ∀ i, wc + 1 + i < t → ∃ x, cs[i]? = some x ∧ x ≠ 0 ∧ x ≠ 60 := by
      intro i hi
      obtain ⟨x, hx, hx0⟩ := hinv (i + 1) (by omega)
      exact ⟨x, by simpa using hx, hx0⟩
    rw [runs_loop]
    cases hb : at_boundary loc (c :: cs) with
    | false =>
      simp only [Bool.false_eq_true, not_false_eq_true, if_true]
      exact ih _ _ _ _ _ hnext
    | true =>
      have hhead := at_boundary_head loc c cs hb
      have hlt : ¬ wc < t := by
        intro hlt
        obtain ⟨x, hx, hx0, hx60⟩ := hinv 0 (by omega)
        simp at hx
        subst hx
        rcases hhead with h | h
        · exact hx0 h
        · exact hx60 h
      simp only [not_true_eq_false, if_false, hlt]
      by_cases hc0 : c = 0
      · simp only [hc0, if_true]
        exact ⟨_, rfl⟩
      · simp only [hc0, if_false]
        have hc60 : c = 60 := by
          rcases hhead with h | h
          · exact absurd h hc0
          · exact h
        subst hc60
        apply ih
        intro i hi
        exact at_boundary_tag loc cs hb i (by split_ifs at hi ⊢ <;> omega)

theorem rasterize_glyphs_loop_cluster (lib : fcft) (font : fcft_font) (subpixel ofs : Nat) :
    ∀ (text : List char32_t) (i : Nat),
      ∀ cg ∈ rasterize_glyphs_loop lib font subpixel ofs i text,
        ofs + i ≤ cg.1 ∧ cg.1 < ofs + i + text.length := by
  intro text
  induction text with
  | nil => intro i cg h; simp [rasterize_glyphs_loop] at h
  | cons c cs ih =>
    intro i cg h
    rw [rasterize_glyphs_loop] at h
    cases hr : lib.rasterize_char_utf32 font c subpixel with
    | none =>
      rw [hr] at h
      have := ih (i + 1) cg h
      simp only [List.length_cons]
      omega
    | some g =>
      rw [hr] at h
      simp only [List.mem_cons] at h
      rcases h with h | h
      · subst h
        simp only [List.length_cons]
        omega
      · have := ih (i + 1) cg h
        simp only [List.length_cons]
        omega

/-- Without text-run shaping, every run of the specification comes from one
piece, and each of its glyphs stands for a character of that piece. -/
theorem spec_runs_mem (lib : fcft) (fonts : font_set) (subpixel : Nat)
    (hs : lib.text_run_shaping = false) :
    ∀ (segs : List (formatters × Nat × List char32_t)) (cache : List text_run_cache),
      ∀ run ∈ (spec_runs lib fonts subpixel segs cache).1,
        ∃ s ∈ segs, run.font = spec_font fonts s.1 ∧ run.underline = s.1.underline ∧
          ∀ cg ∈ run.items, s.2.1 ≤ cg.1 ∧ cg.1 < s.2.1 + s.2.2.length := by
  intro segs
  induction segs with
  | nil => intro cache run h; simp [spec_runs] at h
  | cons s segs ih =>
    intro cache run h
    obtain ⟨f, ofs, seg⟩ := s
    simp only [spec_runs] at h
    split_ifs at h with he
    · obtain ⟨s', hs', hp⟩ := ih _ run h
      exact ⟨s', List.mem_cons_of_mem _ hs', hp⟩
    · simp only [List.mem_cons] at h
      rcases h with h | h
      · refine ⟨(f, ofs, seg), by simp, ?_, ?_, ?_⟩
        · rw [h]
        · rw [h]
        · intro cg hcg
          rw [h] at hcg
          by_cases hz : seg.length = 0
          · simp [notify_rasterize, hz] at hcg
          · simp only [notify_rasterize, hs, hz, if_false, Bool.false_eq_true] at hcg
            have := rasterize_glyphs_loop_cluster lib (spec_font fonts f) subpixel ofs seg 0 cg hcg
            simp only
            omega
      · obtain ⟨s', hs', hp⟩ := ih _ run h
        exact ⟨s', List.mem_cons_of_mem _ hs', hp⟩

/-- Each piece of `spec_segments` is the part of the text at its offset. -/
theorem spec_segments_slice :
    ∀ (fuel : Nat) (rest pre0 seg : List char32_t) (f : formatters),
      ∀ s ∈ spec_segments fuel f pre0.length seg rest,
        s.2.2 = ((pre0 ++ seg ++ rest).drop s.2.1).take s.2.2.length := by
  intro fuel
  induction fuel with
  | zero =>
    intro rest pre0 seg f s hs
    simp only [spec_segments, List.mem_singleton] at hs
    subst hs
    simp
  | succ fuel ih =>
    intro rest pre0 seg f s hs
    cases rest with
    | nil =>
      simp only [spec_segments, List.mem_singleton] at hs
      subst hs
      simp
    | cons c cs =>
      simp only [spec_segments] at hs
      split_ifs at hs with hc0
      · simp only [List.mem_singleton] at hs
        subst hs
        simp
      · cases htag : spec_tag_at (c :: cs) with
        | none =>
          rw [htag] at hs
          have := ih cs pre0 (seg ++ [c]) f s hs
          simpa using this
        | some x =>
          obtain ⟨len, l, opens⟩ := x
          rw [htag] at hs
          simp only [List.mem_cons] at hs
          rcases hs with hs | hs
          · subst hs
            simp
          · have hlen : len ≤ (c :: cs).length := by
              rcases spec_tag_at_cases _ _ _ _ htag with ⟨b, tl, e, _, h3, _⟩ |
                ⟨b, tl, e, _, h4, _⟩
              · rw [e, h3]; simp
              · rw [e, h4]; simp
            have e0 : ((c :: cs).take len).length = len := List.length_take_of_le hlen
            have e1 : pre0.length + seg.length + len
                = (pre0 ++ seg ++ (c :: cs).take len).length := by
              simp only [List.length_append, e0]
            rw [e1] at hs
            have := ih ((c :: cs).drop len) (pre0 ++ seg ++ (c :: cs).take len) [] _ s hs
            simpa [List.append_assoc] using this

/-- C22, as amended. For every locale and every text whose characters are
folded to the lowercase of `b`, `i` or `u` exactly when they are that letter
in one of its two ASCII cases, the first loop of `notif_layout` cuts the text
at exactly the tags `<b>`, `</b>`, `<i>`, `</i>`, `<u>`, `</u>` in either
letter case and rasterizes each piece between them on its own; the characters
of a tag are in no piece, a run uses the bold-italic, bold, italic or regular
font of `spec_font` for the formatters in force and is underlined iff
underline is on, and anything else stays in the text of its piece. Without
text-run shaping every glyph of a run stands for a character of its piece. -/
theorem layout_runs_tags (lib : fcft) (loc : ctype) (fonts : font_set) (subpixel : Nat)
    (text : List char32_t) (cache : List text_run_cache)
    (h : folds_as_ascii loc text = true) :
    layout_runs lib loc fonts subpixel text cache
      = some (spec_runs lib fonts subpixel
          (spec_segments text.length { bold := false, italic := false, underline := false } 0 []
            text) cache) ∧
    (∀ s ∈ spec_segments text.length { bold := false, italic := false, underline := false } 0 []
        text, s.2.2 = (text.drop s.2.1).take s.2.2.length) ∧
    (lib.text_run_shaping = false →
      ∀ run ∈ (spec_runs lib fonts subpixel
          (spec_segments text.length { bold := false, italic := false, underline := false } 0 []
            text) cache).1,
        ∃ s ∈ spec_segments text.length { bold := false, italic := false, underline := false }
            0 [] text,
          run.font = spec_font fonts s.1 ∧ run.underline = s.1.underline ∧
          ∀ cg ∈ run.items, s.2.1 ≤ cg.1 ∧ cg.1 < s.2.1 + s.2.2.length) := by
  refine ⟨?_, ?_, fun hs => spec_runs_mem lib fonts subpixel hs _ _⟩
  · have := runs_loop_spec lib loc fonts subpixel text.length text [] []
      { bold := false, italic := false, underline := false } [] cache (Nat.le_refl _)
      (fun c hc => List.all_eq_true.mp h c hc)
    simpa [layout_runs] using this
  · have := spec_segments_slice text.length text [] []
      { bold := false, italic := false, underline := false }
    simpa using this

theorem layout_runs_tags_witness :
    (layout_runs fixed_fcft dotted_locale four_fonts 0 (c32 "a<b>b<I>c</B><x></u>") []).map
        (fun r => r.1.map (fun run =>
          (run.items.map (fun cg => cg.1), run.font.name, run.underline)))
      = some [([0], "regular", false), ([4], "bold", false), ([8], "bold italic", false),
          ([13, 14, 15], "italic", false)] := by
  rw [(layout_runs_tags fixed_fcft dotted_locale four_fonts 0 (c32 "a<b>b<I>c</B><x></u>") []
    (by decide)).1]
  decide

/-- C22 fails as stated. In a locale that has `i` as the lowercase of U+0130
the three characters of `<İ>` are taken for a tag and get no glyph, while the
formatters stay as they are; by the specification the text has no tag and is
one piece of four characters. In a locale that has U+0131 as the lowercase of
`I` the text `<I>x` is laid out as four characters in the regular font; by
the specification `<I>` is a tag and `x` is italic. -/
theorem layout_runs_dotted_counterexample :
    (layout_runs fixed_fcft dotted_locale four_fonts 0 [60, 304, 62, 120] []).map
        (fun r => r.1.map (fun run =>
          (run.items.map (fun cg => cg.1), run.font.name, run.underline)))
      = some [([3], "regular", false)] ∧
    (spec_runs fixed_fcft four_fonts 0
        (spec_segments 4 { bold := false, italic := false, underline := false } 0 []
          [60, 304, 62, 120]) []).1.map (fun run =>
          (run.items.map (fun cg => cg.1), run.font.name, run.underline))
      = [([0, 1, 2, 3], "regular", false)] ∧
    (layout_runs fixed_fcft dotless_locale four_fonts 0 (c32 "<I>x") []).map
        (fun r => r.1.map (fun run =>
          (run.items.map (fun cg => cg.1), run.font.name, run.underline)))
      = some [([0, 1, 2, 3], "regular", false)] ∧
    (spec_runs fixed_fcft four_fonts 0
        (spec_segments 4 { bold := false, italic := false, underline := false } 0 []
          (c32 "<I>x")) []).1.map (fun run =>
          (run.items.map (fun cg => cg.1), run.font.name, run.underline))
      = [([3], "italic", false)] := by
  decide

/-! ### Size of a notification -/

theorem layout_run_width (loc : ctype) (text : List char32_t) (fonts : font_set)
    (max_width left_pad right_pad max_y : Int) (distance : List Int) (run : glyph_run) :
    ∀ (items : List (Nat × fcft_glyph)) (st : layout_state),
      st.width ≤ (layout_run loc text fonts max_width left_pad right_pad max_y distance run
        items st).width := by
  intro items
  induction items with
  | nil => intro st; simp [layout_run]
  | cons c items ih =>
    intro st
    obtain ⟨cl, g⟩ := c
    rw [layout_run]
    split_ifs
    all_goals first
      | exact le_refl _
      | exact le_max_left _ _
      | exact ih _
      | exact le_trans (le_max_left _ _) (ih _)

theorem layout_fold_width (loc : ctype) (text : List char32_t) (fonts : font_set)
    (max_width left_pad right_pad max_y : Int) (distance : List Int) :
    ∀ (runs : List glyph_run) (st : layout_state),
      st.width ≤ (runs.foldl (fun st run =>
        layout_run loc text fonts max_width left_pad right_pad max_y distance run run.items st)
        st).width := by
  intro runs
  induction runs with
  | nil => intro st; simp
  | cons r runs ih =>
    intro st
    simp only [List.foldl_cons]
    exact le_trans (layout_run_width _ _ _ _ _ _ _ _ _ _ _) (ih _)

theorem layout_glyphs_width (loc : ctype) (min_width max_width : Int) (fonts : font_set)
    (text : List char32_t) (left_pad right_pad y max_y : Int) (glyph_list : List glyph_layout)
    (runs : List glyph_run) :
    (if min_width ≠ 0 then min_width else 0)
      ≤ (layout_glyphs loc min_width max_width fonts text left_pad right_pad y max_y glyph_list
          runs).width := by
  unfold layout_glyphs
  simp only
  refine le_trans ?_ (le_max_left _ _)
  exact layout_fold_width loc text fonts max_width left_pad right_pad max_y _ runs _

theorem notif_layout_some (lib : fcft) (loc : ctype)
    (min_width max_width : Int) (cache : List text_run_cache) (fonts : font_set)
    (subpixel : Nat) (text : List char32_t) (left_pad right_pad y max_y : Int)
    (glyph_list : List glyph_layout) :
    ∃ r, notif_layout lib loc min_width max_width cache fonts subpixel text left_pad right_pad
        y max_y glyph_list = some r ∧
      (if min_width ≠ 0 then min_width else 0) ≤ r.width := by
  obtain ⟨r, hr⟩ := runs_loop_total lib loc fonts subpixel text text 0 0
    { bold := false, italic := false, underline := false } [] cache
    (fun i hi => absurd hi (by omega))
  obtain ⟨runs, cache2⟩ := r
  unfold notif_layout layout_runs
  rw [hr]
  exact ⟨_, rfl, layout_glyphs_width _ _ _ _ _ _ _ _ _ _ _⟩

theorem show_text_some (lib : fcft) (loc : ctype) (conf : config)
    (fonts : font_set) (subpixel : Nat) (text : Option (List char32_t))
    (indent pad_horizontal pad_vertical : Int) (st : show_state) :
    ∃ st2, show_text lib loc conf fonts subpixel text indent pad_horizontal pad_vertical st
        = some st2 ∧ st.width ≤ st2.width ∧
      (is_shown text = true → (if conf.min_width ≠ 0 then conf.min_width else 0) ≤ st2.width) := by
  cases text with
  | none => exact ⟨st, rfl, le_refl _, fun hs => by simp [is_shown] at hs⟩
  | some t =>
    by_cases h0 : char_at t 0 = 0
    · exact ⟨st, by simp [show_text, h0], le_refl _, fun hs => by simp [is_shown, h0] at hs⟩
    · obtain ⟨r, hr, hw⟩ := notif_layout_some lib loc conf.min_width conf.max_width st.cache
        fonts subpixel t indent pad_horizontal st.height
        (if conf.max_height > 0 then conf.max_height - pad_vertical else -1) st.glyphs
      refine ⟨{ width := max st.width r.width, height := st.height + r.height,
                glyphs := r.glyph_list, cache := r.cache },
        by simp only [show_text, h0, if_false, hr], le_max_left _ _, fun _ => ?_⟩
      exact le_trans hw (le_max_right _ _)

theorem show_finish_bounds (conf : config) (urgency : urgency_config) (n : notif)
    (img : notif_image) (body_height width height : Int) :
    width ≤ (show_finish conf urgency n img body_height width height).1 ∧
    (img.pix ≠ none → urgency.padding_horizontal + img.image_width + urgency.padding_horizontal
      ≤ (show_finish conf urgency n img body_height width height).1) ∧
    (conf.max_height > 0 →
      (show_finish conf urgency n img body_height width height).2 ≤ conf.max_height) := by
  unfold show_finish
  simp only
  refine ⟨?_, fun hp => ?_, fun hm => ?_⟩
  · split_ifs
    all_goals first
      | exact le_refl _
      | exact le_max_left _ _
      | exact le_trans (le_max_left _ _) (le_max_left _ _)
  · rw [if_pos hp]
    split_ifs
    all_goals first
      | exact le_max_right _ _
      | exact le_trans (le_max_right _ _) (le_max_left _ _)
  · rw [if_pos hm]
    exact min_le_right _ _

/-- C25, as amended. For a notification whose urgency is one of the three
levels `notif_show` computes a width and a height: the width is at least 0,
at least `padding_horizontal + image_width + padding_horizontal` when there
is an image, and at least `min_width` when at least one of title, summary and
body is laid out; the height is at most `max_height` whenever
`max_height > 0`. -/
theorem notif_show_size_bounds (lib : fcft) (loc : ctype) (conf : config) (n : notif)
    (img : notif_image) (fonts : notif_fonts) (notif_subpixel : Nat)
    (cache : List text_run_cache) (urgency : urgency_config)
    (hu : by_urgency conf n.urgency = some urgency) :
    ∃ w h, notif_show_size lib loc conf n img fonts notif_subpixel cache = some (w, h) ∧
      0 ≤ w ∧
      (img.pix ≠ none →
        urgency.padding_horizontal + img.image_width + urgency.padding_horizontal ≤ w) ∧
      (is_shown (expand_format_string n urgency.app_format) = true ∨
        is_shown (expand_format_string n urgency.summary_format) = true ∨
        is_shown (expand_format_string n urgency.body_format) = true → conf.min_width ≤ w) ∧
      (conf.max_height > 0 → h ≤ conf.max_height) := by
  obtain ⟨st1, h1, w1, s1⟩ := show_text_some lib loc conf fonts.app
    (if urgency.bg.alpha = 0xffff then notif_subpixel else FCFT_SUBPIXEL_NONE)
    (expand_format_string n urgency.app_format)
    (if img.pix ≠ none then
      urgency.padding_horizontal + (img.image_width + urgency.padding_horizontal)
      else urgency.padding_horizontal)
    urgency.padding_horizontal urgency.padding_vertical
    { width := 0, height := urgency.padding_vertical, glyphs := [], cache := cache }
  obtain ⟨st2, h2, w2, s2⟩ := show_text_some lib loc conf fonts.summary
    (if urgency.bg.alpha = 0xffff then notif_subpixel else FCFT_SUBPIXEL_NONE)
    (expand_format_string n urgency.summary_format)
    (if img.pix ≠ none then
      urgency.padding_horizontal + (img.image_width + urgency.padding_horizontal)
      else urgency.padding_horizontal)
    urgency.padding_horizontal urgency.padding_vertical st1
  obtain ⟨st3, h3, w3, s3⟩ := show_text_some lib loc conf fonts.body
    (if urgency.bg.alpha = 0xffff then notif_subpixel else FCFT_SUBPIXEL_NONE)
    (expand_format_string n urgency.body_format)
    (if img.pix ≠ none then
      urgency.padding_horizontal + (img.image_width + urgency.padding_horizontal)
      else urgency.padding_horizontal)
    urgency.padding_horizontal urgency.padding_vertical st2
  obtain ⟨f1, f2, f3⟩ := show_finish_bounds conf urgency n img fonts.body.regular.height
    st3.width st3.height
  have hw0 : (0 : Int) ≤ st1.width := w1
  refine ⟨_, _, by simp only [notif_show_size, hu, h1, h2, h3], ?_, f2, ?_, f3⟩
  · omega
  · intro hs
    have hmin : (if conf.min_width ≠ 0 then conf.min_width else 0) ≤ st3.width := by
      rcases hs with hs | hs | hs
      · exact le_trans (s1 hs) (le_trans w2 w3)
      · exact le_trans (s2 hs) w3
      · exact s3 hs
    have : conf.min_width ≤ st3.width := by
      split_ifs at hmin with hz
      · exact hmin
      · have : conf.min_width = 0 := by omega
        omega
    omega

theorem notif_show_size_bounds_witness :
    ∃ w h, notif_show_size fixed_fcft dotted_locale bare_formats
        { notif_init 1 none with summary := c32 "Hi", progress := -1 } no_image same_fonts 0 []
        = some (w, h) ∧
      0 ≤ w ∧
      (no_image.pix ≠ none →
        bare_formats.normal.padding_horizontal + no_image.image_width
          + bare_formats.normal.padding_horizontal ≤ w) ∧
      (is_shown (expand_format_string { notif_init 1 none with summary := c32 "Hi", progress := -1 }
          bare_formats.normal.app_format) = true ∨
        is_shown (expand_format_string
          { notif_init 1 none with summary := c32 "Hi", progress := -1 }
          bare_formats.normal.summary_format) = true ∨
        is_shown (expand_format_string
          { notif_init 1 none with summary := c32 "Hi", progress := -1 }
          bare_formats.normal.body_format) = true → bare_formats.min_width ≤ w) ∧
      (bare_formats.max_height > 0 → h ≤ bare_formats.max_height) :=
  notif_show_size_bounds fixed_fcft dotted_locale bare_formats
    { notif_init 1 none with summary := c32 "Hi", progress := -1 } no_image same_fonts 0 []
    bare_formats.normal (by decide)

/-- C25 fails as stated: with the formats `%a`, `%s`, `%b` a notification
whose application name, summary and body are empty has no text laid out, and
the width is 0 although `min_width` is 200; with the summary "Hi" the width
is 200. For a notification of urgency 3 `by_urgency` is read outside its three
elements and no size is computed. -/
theorem notif_show_min_width_counterexample :
    bare_formats.min_width = 200 ∧
    notif_show_size fixed_fcft c_locale bare_formats { notif_init 1 none with progress := -1 }
        no_image same_fonts 0 [] = some (0, 40) ∧
    notif_show_size fixed_fcft c_locale bare_formats
        { notif_init 1 none with summary := c32 "Hi", progress := -1 } no_image same_fonts 0 []
      = some (200, 60) ∧
    notif_show_size fixed_fcft c_locale bare_formats
        { notif_init 1 none with summary := c32 "Hi", urgency := 3 } no_image same_fonts 0 []
      = none := by
  decide

end Fnott
